import Mathlib

/-!
# U2F compatibility core of libfido2 (`src/u2f.c`)

A shallow embedding of `src/u2f.c` and theorems about it.

Conventions of the embedding:

* a byte is a `UInt8`, a byte sequence a `List UInt8`;
* a read cursor `(const unsigned char **buf, size_t *len)` is the list of the
  bytes that are still unread;
* `fido_blob_t` keeps its two fields `ptr` and `len` apart, because the code can
  leave them inconsistent (a null `ptr` with a non-zero `len`);
* everything that lives outside `u2f.c` (libc allocation, OpenSSL, libcbor, the
  credential and assertion holders, the host byte order) is a field of `Env`;
* the device is a script of `tx` and `rx` outcomes; every `tx`, `rx` and `usleep`
  call is appended to the log of the device handle;
* the do-while poll loops need not terminate, so they take fuel and everything
  built on them returns an `Option` (`none` = out of fuel).
-/

namespace U2F

/-! ## Bytes, status words, byte order -/

abbrev Bytes := List UInt8

/-- The expression `(hi << 8) | lo` on two bytes promoted to `int`. -/
def sw (hi lo : UInt8) : Nat := (hi.toNat <<< 8) ||| lo.toNat

def SW_CONDITIONS_NOT_SATISFIED : Nat := 0x6985
def SW_WRONG_DATA : Nat := 0x6A80
def SW_NO_ERROR : Nat := 0x9000

def SHA256_DIGEST_LENGTH : Nat := 32
def UINT8_MAX : Nat := 255
def LONG_MAX : Nat := 2 ^ 63 - 1

/-- Modelled from the spec: the constant `COSE_ES256` of `fido/param.h` (the
COSE algorithm identifier of ES256). -/
def COSE_ES256 : Int := -7

/-- Modelled from the spec: the constant `COSE_RS256` of `fido/param.h`. -/
def COSE_RS256 : Int := -257

/-- Byte order of the host the library is compiled for. -/
inductive Endian where
  | little
  | big
  deriving DecidableEq

/-- The two bytes in memory of a `uint16_t` holding `n`. -/
def store_u16 (host : Endian) (n : Nat) : Bytes :=
  match host with
  | .little => [UInt8.ofNat (n % 256), UInt8.ofNat (n / 256 % 256)]
  | .big => [UInt8.ofNat (n / 256 % 256), UInt8.ofNat (n % 256)]

/-- The four bytes in memory of a `uint32_t` holding `n`. -/
def store_u32 (host : Endian) (n : Nat) : Bytes :=
  match host with
  | .little => [UInt8.ofNat (n % 256), UInt8.ofNat (n / 256 % 256),
      UInt8.ofNat (n / 65536 % 256), UInt8.ofNat (n / 16777216 % 256)]
  | .big => [UInt8.ofNat (n / 16777216 % 256), UInt8.ofNat (n / 65536 % 256),
      UInt8.ofNat (n / 256 % 256), UInt8.ofNat (n % 256)]

/-- The value of a `uint32_t` whose four bytes in memory are `b`
(what `buf_read(.., &sigcount, sizeof(sigcount))` leaves in `sigcount`). -/
def load_u32 (host : Endian) (b : Bytes) : Nat :=
  let b0 := (b.getD 0 0).toNat
  let b1 := (b.getD 1 0).toNat
  let b2 := (b.getD 2 0).toNat
  let b3 := (b.getD 3 0).toNat
  match host with
  | .little => b0 + 256 * b1 + 65536 * b2 + 16777216 * b3
  | .big => b3 + 256 * b2 + 65536 * b1 + 16777216 * b0

/-! ## Error codes and options -/

/-- The error codes of `fido/err.h` that `u2f.c` returns. -/
inductive fido_err where
  | FIDO_OK
  | FIDO_ERR_TX
  | FIDO_ERR_RX
  | FIDO_ERR_INVALID_ARGUMENT
  | FIDO_ERR_USER_PRESENCE_REQUIRED
  | FIDO_ERR_INTERNAL
  | FIDO_ERR_UNSUPPORTED_OPTION
  | FIDO_ERR_CREDENTIAL_EXCLUDED
  deriving DecidableEq

export fido_err (FIDO_OK FIDO_ERR_TX FIDO_ERR_RX FIDO_ERR_INVALID_ARGUMENT
  FIDO_ERR_USER_PRESENCE_REQUIRED FIDO_ERR_INTERNAL FIDO_ERR_UNSUPPORTED_OPTION
  FIDO_ERR_CREDENTIAL_EXCLUDED)

/-- The three-valued option type `fido_opt_t`. -/
inductive fido_opt_t where
  | FIDO_OPT_OMIT
  | FIDO_OPT_FALSE
  | FIDO_OPT_TRUE
  deriving DecidableEq

export fido_opt_t (FIDO_OPT_OMIT FIDO_OPT_FALSE FIDO_OPT_TRUE)

/-! ## Blobs -/

/-- The type `fido_blob_t`: `ptr` is `none` for a null pointer, otherwise the
bytes of the region it points to. -/
structure fido_blob_t where
  ptr : Option Bytes
  len : Nat
  deriving DecidableEq

/-- A blob after `memset(&b, 0, sizeof(b))`. -/
def fido_blob_t.zero : fido_blob_t := ⟨none, 0⟩

/-- A blob whose pointer addresses exactly `len` bytes. -/
def fido_blob_t.of (b : Bytes) : fido_blob_t := ⟨some b, b.length⟩

/-- The first `len` bytes behind `ptr` (what a reader of the blob sees). -/
def fido_blob_t.bytes (b : fido_blob_t) : Bytes := (b.ptr.getD []).take b.len

/-- The type `fido_blob_array_t`: `ptr` is `none` for a null pointer; `len` is
the number of elements of the array. -/
structure fido_blob_array_t where
  ptr : Option (List fido_blob_t)
  deriving DecidableEq

def fido_blob_array_t.len (a : fido_blob_array_t) : Nat := (a.ptr.getD []).length

def fido_blob_array_t.elems (a : fido_blob_array_t) : List fido_blob_t := a.ptr.getD []

/-! ## The environment of `u2f.c` -/

/-- The setters of the credential and assertion holders that `u2f.c` calls. -/
inductive Setter where
  | cred_authdata
  | cred_x509
  | cred_sig
  | assert_id
  | assert_authdata
  | assert_sig
  deriving DecidableEq

/-- Everything `u2f.c` depends on and does not define. -/
structure Env where
  /-- byte order of the host -/
  host : Endian
  /-- whether `calloc(1, n)` returns a non-null pointer -/
  calloc : Nat → Bool
  /-- the 32-byte digest `SHA256(msg)`, or `none` when the call does not
  return the output buffer -/
  SHA256 : Bytes → Option { d : Bytes // d.length = 32 }
  /-- the call `d2i_X509(NULL, &end, len)` on the unread bytes: `none` for a
  null certificate, otherwise `end - *buf`, the number of bytes consumed -/
  d2i_X509 : Bytes → Option Int
  /-- the calls `es256_pk_new`, `es256_pk_set_x`, `es256_pk_set_y`,
  `es256_pk_encode` and `cbor_serialize_alloc` on the resulting item: the
  serialised COSE key of the point with the given X and Y, `none` when one of
  the first four fails, and an empty serialisation when
  `cbor_serialize_alloc` returns 0 -/
  es256_pk_cbor : Bytes → Bytes → Option Bytes
  /-- whether `cbor_build_bytestring` (or `fido_blob_encode`) returns an item
  for a payload -/
  cbor_build_ok : Bytes → Bool
  /-- whether `cbor_serialize_alloc` succeeds on the byte-string item holding a
  payload (it returns 0 otherwise) -/
  cbor_serialize_ok : Bytes → Bool
  /-- whether `iso7816_new` returns a non-null APDU for a payload capacity -/
  iso7816_ok : Nat → Bool
  /-- whether a holder setter accepts the bytes it is given -/
  set_ok : Setter → Bytes → Bool
  /-- whether `fido_cred_set_fmt` accepts a format name -/
  set_fmt_ok : String → Bool
  /-- the return value of `fido_assert_set_count(fa, n)` -/
  set_count : Nat → fido_err

/-! ## Reading from a buffer -/

/-- Modelled from the spec: `buf_read` of `src/buf.c`, which fails on underflow
and otherwise copies `count` bytes and advances the cursor. Returns the bytes
read and the unread rest. -/
def buf_read (buf : Bytes) (count : Nat) : Option (Bytes × Bytes) :=
  if count > buf.length then none else some (buf.take count, buf.drop count)

/-- Modelled from the spec: the serialisation by libcbor of a definite-length
CBOR byte string (major type 2) holding `b`. -/
def cbor_bytestring (b : Bytes) : Bytes :=
  let n := b.length
  if n < 24 then UInt8.ofNat (0x40 + n) :: b
  else if n < 256 then 0x58 :: UInt8.ofNat n :: b
  else if n < 65536 then 0x59 :: UInt8.ofNat (n / 256) :: UInt8.ofNat (n % 256) :: b
  else if n < 4294967296 then
    0x5a :: UInt8.ofNat (n / 16777216) :: UInt8.ofNat (n / 65536 % 256) ::
      UInt8.ofNat (n / 256 % 256) :: UInt8.ofNat (n % 256) :: b
  else
    0x5b :: UInt8.ofNat (n / 2 ^ 56) :: UInt8.ofNat (n / 2 ^ 48 % 256) ::
      UInt8.ofNat (n / 2 ^ 40 % 256) :: UInt8.ofNat (n / 2 ^ 32 % 256) ::
      UInt8.ofNat (n / 16777216 % 256) :: UInt8.ofNat (n / 65536 % 256) ::
      UInt8.ofNat (n / 256 % 256) :: UInt8.ofNat (n % 256) :: b

/-! ## `sig_get`, `x5c_get` -/

/-- Function `sig_get` (u2f.c:22). Returns the return value (`0` or `-1` as `true` /
`false`), the blob `*sig` and the unread rest. -/
def sig_get (env : Env) (buf : Bytes) : Bool × fido_blob_t × Bytes :=
  let len := buf.length
  -- sig->len = *len
  if env.calloc len = false then
    -- calloc returned NULL: the inner `if (sig->ptr != NULL)` is skipped
    (true, ⟨none, len⟩, buf)
  else
    match buf_read buf len with
    | none => (false, ⟨none, 0⟩, buf)
    | some (s, rest) => (true, ⟨some s, len⟩, rest)

/-- Function `x5c_get` (u2f.c:41). Returns `none` for `-1`, otherwise the blob `*x5c` and
the unread rest. -/
def x5c_get (env : Env) (buf : Bytes) : Option (fido_blob_t × Bytes) :=
  let len := buf.length
  if len > LONG_MAX then none
  else
    match env.d2i_X509 buf with
    | none => none
    | some consumed =>
      -- end <= *buf
      if consumed ≤ 0 then none
      -- (x5c->len = end - *buf) >= *len
      else if consumed.toNat ≥ len then none
      else if env.calloc consumed.toNat = false then none
      else
        match buf_read buf consumed.toNat with
        | none => none
        | some (c, rest) => some (⟨some c, consumed.toNat⟩, rest)

/-! ## Authenticator data -/

/-- Modelled from the spec: `buf_write` of `src/buf.c`, which fails when
`count` exceeds the room left and otherwise copies and advances. The cursor is
the pair of the bytes written so far and the room left. -/
def buf_write (w : Bytes × Nat) (src : Bytes) : Option (Bytes × Nat) :=
  if src.length > w.2 then none else some (w.1 ++ src, w.2 - src.length)

/-- Modelled from the spec: the bytes of the packed `fido_authdata_t` of
`fido/types.h` (37 bytes: `rp_id_hash[32]`, `flags`, `sigcount`). -/
def fido_authdata_bytes (host : Endian) (rp_id_hash : Bytes) (flags : UInt8)
    (sigcount : Nat) : Bytes :=
  rp_id_hash ++ [flags] ++ store_u32 host sigcount

/-- Modelled from the spec: the bytes of the packed `fido_attcred_raw_t` of
`fido/types.h` (18 bytes: `aaguid[16]`, `id_len`). -/
def fido_attcred_raw_bytes (host : Endian) (aaguid : Bytes) (id_len : Nat) : Bytes :=
  aaguid ++ store_u16 host id_len

/-- Function `authdata_fake` (u2f.c:81). Returns the return value (`0` as
`true`) and the blob `*fake_cbor_ad`. -/
def authdata_fake (env : Env) (rp_id : Bytes) (flags : UInt8) (sigcount : Nat)
    (fake_cbor_ad : fido_blob_t) : Bool × fido_blob_t :=
  match env.SHA256 rp_id with
  | none => (false, fake_cbor_ad)
  | some h =>
    let ad := fido_authdata_bytes env.host h.val flags sigcount
    if env.cbor_build_ok ad = false then (false, fake_cbor_ad)
    else if fake_cbor_ad.ptr ≠ none then (false, fake_cbor_ad)
    else if env.cbor_serialize_ok ad = false then (false, ⟨none, 0⟩)
    else (true, fido_blob_t.of (cbor_bytestring ad))

/-- Function `cbor_blob_from_ec_point` (u2f.c:339). Returns the return value
(`0` as `true`) and the blob `*cbor_blob`. -/
def cbor_blob_from_ec_point (env : Env) (ec_point : Bytes) (cbor_blob : fido_blob_t) :
    Bool × fido_blob_t :=
  if ec_point.length ≠ 65 ∨ ec_point.getD 0 0 ≠ 0x04 then (false, cbor_blob)
  else
    match env.es256_pk_cbor ((ec_point.drop 1).take 32) ((ec_point.drop 33).take 32) with
    | none => (false, cbor_blob)
    | some s =>
      if s.length ≠ 77 then (false, ⟨if s = [] then none else some s, s.length⟩)
      else (true, fido_blob_t.of s)

/-- Function `encode_cred_authdata` (u2f.c:382). `kh` holds `kh_len` bytes.
Returns the return value (`0` as `true`) and the blob `*out`. -/
def encode_cred_authdata (env : Env) (rp_id : Option Bytes) (kh : Bytes) (kh_len : UInt8)
    (pubkey : Bytes) : Bool × fido_blob_t :=
  match rp_id with
  | none => (false, fido_blob_t.zero)
  | some rp =>
    match cbor_blob_from_ec_point env pubkey fido_blob_t.zero with
    | (false, _) => (false, fido_blob_t.zero)
    | (true, pk_blob) =>
      match env.SHA256 rp with
      | none => (false, fido_blob_t.zero)
      | some h =>
        let authdata := fido_authdata_bytes env.host h.val 0x41 0
        let id_len := (kh_len.toNat <<< 8) % 65536
        let attcred_raw := fido_attcred_raw_bytes env.host (List.replicate 16 0) id_len
        let len := 37 + 18 + kh_len.toNat + pk_blob.len
        if env.calloc len = false then (false, fido_blob_t.zero)
        else
          match (((buf_write ([], len) authdata).bind
              (fun w => buf_write w attcred_raw)).bind
              (fun w => buf_write w (kh.take kh_len.toNat))).bind
              (fun w => buf_write w pk_blob.bytes) with
          | none => (false, fido_blob_t.zero)
          | some (written, room) =>
            let authdata_blob := written ++ List.replicate room 0
            if env.cbor_build_ok authdata_blob = false then (false, fido_blob_t.zero)
            else if env.cbor_serialize_ok authdata_blob = false then (false, fido_blob_t.zero)
            else (true, fido_blob_t.of (cbor_bytestring authdata_blob))

/-- The bytes that `encode_cred_authdata` wraps: the 37-byte header with flags
`0x41` and a zero counter, the 18-byte attested-credential header with the
`uint16_t` store of `kh_len << 8`, the key handle and the COSE key. -/
def cred_authdata_payload (host : Endian) (rp_id_hash : Bytes) (kh_len : UInt8) (kh pk : Bytes) :
    Bytes :=
  fido_authdata_bytes host rp_id_hash 0x41 0 ++
    fido_attcred_raw_bytes host (List.replicate 16 0) ((kh_len.toNat <<< 8) % 65536) ++ kh ++ pk

/-- The attested authenticator data in the spec's words: `SHA256(rp_id)`, the
flags byte `0x41`, four zero counter bytes, sixteen zero AAGUID bytes, the
two-byte big-endian encoding of the key-handle length, the key handle and the
COSE key. -/
def spec_cred_authdata (rp_id_hash : Bytes) (kh pk : Bytes) : Bytes :=
  rp_id_hash ++ [0x41] ++ [0, 0, 0, 0] ++ List.replicate 16 0 ++
    [UInt8.ofNat (kh.length / 256 % 256), UInt8.ofNat (kh.length % 256)] ++ kh ++ pk

/-! ## Response parsers -/

/-- Function `parse_auth_reply` (u2f.c:238). Returns the return value and the
blobs `*sig` and `*ad`. -/
def parse_auth_reply (env : Env) (sig ad : fido_blob_t) (rp_id : Bytes) (reply : Bytes) :
    fido_err × fido_blob_t × fido_blob_t :=
  let len := reply.length
  if len < 2 ∨ sw (reply.getD (len - 2) 0) (reply.getD (len - 1) 0) ≠ SW_NO_ERROR then
    (FIDO_ERR_RX, sig, ad)
  else
    match buf_read (reply.take (len - 2)) 1 with
    | none => (FIDO_ERR_RX, sig, ad)
    | some (flags, buf) =>
      match buf_read buf 4 with
      | none => (FIDO_ERR_RX, sig, ad)
      | some (sigcount, buf) =>
        match sig_get env buf with
        | (false, sig, _) => (FIDO_ERR_RX, sig, ad)
        | (true, sig, _) =>
          match authdata_fake env rp_id (flags.getD 0 0) (load_u32 env.host sigcount) ad with
          | (false, ad) => (FIDO_ERR_RX, sig, ad)
          | (true, ad) => (FIDO_OK, sig, ad)

/-- The type `fido_cred_t`, reduced to the fields `u2f.c` reads (the request)
and the fields its setters write (the attestation). -/
structure fido_cred_t where
  rk : fido_opt_t
  uv : fido_opt_t
  type : Int
  cdh : fido_blob_t
  rp_id : Option Bytes
  excl : fido_blob_array_t
  fmt : Option String
  authdata_cbor : Option Bytes
  x5c : Option Bytes
  sig : Option Bytes
  deriving DecidableEq

/-- Modelled from the spec: the setter `fido_cred_set_fmt` of `src/cred.c`;
`none` when it does not return `FIDO_OK`. -/
def fido_cred_set_fmt (env : Env) (cred : fido_cred_t) (fmt : String) : Option fido_cred_t :=
  if env.set_fmt_ok fmt then some { cred with fmt := some fmt } else none

/-- Modelled from the spec: the setter `fido_cred_set_authdata` of
`src/cred.c`, which copies `len` bytes from `ptr`; `none` when it does not
return `FIDO_OK`. -/
def fido_cred_set_authdata (env : Env) (cred : fido_cred_t) (b : fido_blob_t) :
    Option fido_cred_t :=
  if b.ptr ≠ none ∧ env.set_ok Setter.cred_authdata b.bytes then
    some { cred with authdata_cbor := some b.bytes }
  else none

/-- Modelled from the spec: the setter `fido_cred_set_x509` of `src/cred.c`,
which copies `len` bytes from `ptr`; `none` when it does not return `FIDO_OK`. -/
def fido_cred_set_x509 (env : Env) (cred : fido_cred_t) (b : fido_blob_t) :
    Option fido_cred_t :=
  if b.ptr ≠ none ∧ env.set_ok Setter.cred_x509 b.bytes then
    some { cred with x5c := some b.bytes }
  else none

/-- Modelled from the spec: the setter `fido_cred_set_sig` of `src/cred.c`,
which copies `len` bytes from `ptr`; `none` when it does not return `FIDO_OK`. -/
def fido_cred_set_sig (env : Env) (cred : fido_cred_t) (b : fido_blob_t) :
    Option fido_cred_t :=
  if b.ptr ≠ none ∧ env.set_ok Setter.cred_sig b.bytes then
    some { cred with sig := some b.bytes }
  else none

/-- Function `parse_register_reply` (u2f.c:468). Returns the return value and
the credential. -/
def parse_register_reply (env : Env) (cred : fido_cred_t) (reply : Bytes) :
    fido_err × fido_cred_t :=
  let len := reply.length
  if len < 2 ∨ sw (reply.getD (len - 2) 0) (reply.getD (len - 1) 0) ≠ SW_NO_ERROR then
    (FIDO_ERR_RX, cred)
  else
    match buf_read (reply.take (len - 2)) 1 with
    | none => (FIDO_ERR_RX, cred)
    | some (dummy, buf) =>
      if dummy.getD 0 0 ≠ 0x05 then (FIDO_ERR_RX, cred)
      else
        match buf_read buf 65 with
        | none => (FIDO_ERR_RX, cred)
        | some (pubkey, buf) =>
          match buf_read buf 1 with
          | none => (FIDO_ERR_RX, cred)
          | some (kh_len_b, buf) =>
            let kh_len := kh_len_b.getD 0 0
            if env.calloc kh_len.toNat = false then (FIDO_ERR_RX, cred)
            else
              match buf_read buf kh_len.toNat with
              | none => (FIDO_ERR_RX, cred)
              | some (kh, buf) =>
                match x5c_get env buf with
                | none => (FIDO_ERR_RX, cred)
                | some (x5c, buf) =>
                  match sig_get env buf with
                  | (false, _, _) => (FIDO_ERR_RX, cred)
                  | (true, sig, _) =>
                    match encode_cred_authdata env cred.rp_id kh kh_len pubkey with
                    | (false, _) => (FIDO_ERR_RX, cred)
                    | (true, ad) =>
                      match fido_cred_set_fmt env cred "fido-u2f" with
                      | none => (FIDO_ERR_INTERNAL, cred)
                      | some c1 =>
                        match fido_cred_set_authdata env c1 ad with
                        | none => (FIDO_ERR_INTERNAL, c1)
                        | some c2 =>
                          match fido_cred_set_x509 env c2 x5c with
                          | none => (FIDO_ERR_INTERNAL, c2)
                          | some c3 =>
                            match fido_cred_set_sig env c3 sig with
                            | none => (FIDO_ERR_INTERNAL, c3)
                            | some c4 => (FIDO_OK, c4)

/-! ## APDUs, the device and its log -/

/-- The instruction byte of an APDU built by `u2f.c`. -/
inductive u2f_ins where
  | U2F_CMD_REGISTER
  | U2F_CMD_AUTH
  deriving DecidableEq

/-- The parameter P1 of an APDU built by `u2f.c`: the literal `0`,
`U2F_AUTH_CHECK` or `U2F_AUTH_SIGN`. -/
inductive u2f_p1 where
  | P1_NONE
  | U2F_AUTH_CHECK
  | U2F_AUTH_SIGN
  deriving DecidableEq

export u2f_ins (U2F_CMD_REGISTER U2F_CMD_AUTH)
export u2f_p1 (P1_NONE U2F_AUTH_CHECK U2F_AUTH_SIGN)

/-- Modelled from the spec: the APDU under construction of `src/iso7816.c`:
instruction, P1, the payload capacity still free and the payload appended so
far. -/
structure iso7816_apdu_t where
  ins : u2f_ins
  p1 : u2f_p1
  payload_len : Nat
  payload : Bytes
  deriving DecidableEq

/-- Modelled from the spec: `iso7816_new` of `src/iso7816.c`, an APDU with the
declared payload capacity, or `none` for a null pointer. -/
def iso7816_new (env : Env) (ins : u2f_ins) (p1 : u2f_p1) (payload_len : Nat) :
    Option iso7816_apdu_t :=
  if env.iso7816_ok payload_len then some ⟨ins, p1, payload_len, []⟩ else none

/-- Modelled from the spec: `iso7816_add` of `src/iso7816.c`, which appends raw
bytes and fails (`none`) when they exceed the capacity still free. -/
def iso7816_add (apdu : iso7816_apdu_t) (buf : Bytes) : Option iso7816_apdu_t :=
  if buf.length > apdu.payload_len then none
  else some { apdu with payload_len := apdu.payload_len - buf.length,
                        payload := apdu.payload ++ buf }

/-- One call that `u2f.c` makes on the outside world: `tx` of an APDU (the bytes
at `iso7816_ptr`, always with the command `CTAP_FRAME_INIT | CTAP_CMD_MSG`), `rx`
into a buffer of `cap` bytes with timeout `ms`, or `usleep`. -/
inductive Event where
  | tx (apdu : iso7816_apdu_t)
  | rx (cap : Nat) (ms : Int)
  | usleep (usec : Int)
  deriving DecidableEq

/-- The device handle together with the device behind it: the outcomes of the
coming `tx` calls (`true` = success), the outcome of every `tx` call after
those, the outcomes of the coming `rx` calls (`none` = a negative return value,
otherwise the bytes received), the outcome of every `rx` call after those, and
the log of the calls made so far, oldest first. -/
structure fido_dev_t where
  tx_script : List Bool
  tx_rest : Bool
  rx_script : List (Option Bytes)
  rx_rest : Option Bytes
  log : List Event
  deriving DecidableEq

/-- The transport call `tx(dev, cmd, iso7816_ptr(apdu), iso7816_len(apdu))`;
`true` when it does not return a negative value. -/
def tx (dev : fido_dev_t) (apdu : iso7816_apdu_t) : Bool × fido_dev_t :=
  match dev.tx_script with
  | [] => (dev.tx_rest, { dev with log := dev.log ++ [Event.tx apdu] })
  | b :: s => (b, { dev with tx_script := s, log := dev.log ++ [Event.tx apdu] })

/-- The transport call `rx(dev, cmd, &reply, sizeof(reply), ms)`; `none` when it
returns a negative value, otherwise the bytes received. -/
def rx (dev : fido_dev_t) (cap : Nat) (ms : Int) : Option Bytes × fido_dev_t :=
  match dev.rx_script with
  | [] => (dev.rx_rest, { dev with log := dev.log ++ [Event.rx cap ms] })
  | r :: s => (r, { dev with rx_script := s, log := dev.log ++ [Event.rx cap ms] })

/-- The call `usleep(usec)`; `usec` is the value of the unsigned 32-bit
parameter (`useconds_t`). -/
def usleep (dev : fido_dev_t) (usec : Int) : fido_dev_t :=
  { dev with log := dev.log ++ [Event.usleep usec] }

deriving instance DecidableEq for Except

/-- The do-while loop of `send_dummy_register` (u2f.c:142), `do_auth`
(u2f.c:311) and `u2f_register` (u2f.c:609), compiled without `FIDO_FUZZ`: the
three differ only in the size `cap` of the reply buffer. Returns the error
code set before `goto fail`, or the reply the loop ends with. The argument
`(ms == -1 ? 100 : ms) * 1000` of `usleep` is an `int` product (wrapping to 32
bits where it overflows) converted to the unsigned 32-bit `useconds_t`: the
product modulo `2 ^ 32`. -/
def poll (apdu : iso7816_apdu_t) (cap : Nat) (ms : Int) :
    Nat → fido_dev_t → Option (Except fido_err Bytes × fido_dev_t)
  | 0, _ => none
  | fuel + 1, dev =>
    match tx dev apdu with
    | (false, dev) => some (.error FIDO_ERR_TX, dev)
    | (true, dev) =>
      match rx dev cap ms with
      | (none, dev) => some (.error FIDO_ERR_RX, dev)
      | (some reply, dev) =>
        if reply.length < 2 then some (.error FIDO_ERR_RX, dev)
        else
          let dev := usleep dev (((if ms = -1 then 100 else ms) * 1000) % 2 ^ 32)
          if sw (reply.getD 0 0) (reply.getD 1 0) = SW_CONDITIONS_NOT_SATISFIED then
            poll apdu cap ms fuel dev
          else some (.ok reply, dev)

/-- Function `send_dummy_register` (u2f.c:119). -/
def send_dummy_register (env : Env) (fuel : Nat) (dev : fido_dev_t) (ms : Int) :
    Option (fido_err × fido_dev_t) :=
  let challenge : Bytes := List.replicate SHA256_DIGEST_LENGTH 0xff
  let application : Bytes := List.replicate SHA256_DIGEST_LENGTH 0xff
  match ((iso7816_new env U2F_CMD_REGISTER P1_NONE (2 * SHA256_DIGEST_LENGTH)).bind
      (fun a => iso7816_add a challenge)).bind (fun a => iso7816_add a application) with
  | none => some (FIDO_ERR_INTERNAL, dev)
  | some apdu =>
    match poll apdu 2048 ms fuel dev with
    | none => none
    | some (.error r, dev) => some (r, dev)
    | some (.ok _, dev) => some (FIDO_OK, dev)

/-- Function `key_lookup` (u2f.c:165). Returns the return value, the value
left in `*found` (`none` when it is not written) and the device. -/
def key_lookup (env : Env) (dev : fido_dev_t) (rp_id : Option Bytes) (key_id : fido_blob_t)
    (ms : Int) : fido_err × Option Bool × fido_dev_t :=
  match rp_id with
  | none => (FIDO_ERR_INVALID_ARGUMENT, none, dev)
  | some rp =>
    if key_id.len > UINT8_MAX then (FIDO_ERR_INVALID_ARGUMENT, none, dev)
    else
      let challenge : Bytes := List.replicate SHA256_DIGEST_LENGTH 0xff
      match env.SHA256 rp with
      | none => (FIDO_ERR_INTERNAL, none, dev)
      | some rp_id_hash =>
        let key_id_len : UInt8 := UInt8.ofNat key_id.len
        match ((((iso7816_new env U2F_CMD_AUTH U2F_AUTH_CHECK
            (2 * SHA256_DIGEST_LENGTH + 1 + key_id_len.toNat)).bind
            (fun a => iso7816_add a challenge)).bind
            (fun a => iso7816_add a rp_id_hash.val)).bind
            (fun a => iso7816_add a [key_id_len])).bind
            (fun a => iso7816_add a ((key_id.ptr.getD []).take key_id_len.toNat)) with
        | none => (FIDO_ERR_INTERNAL, none, dev)
        | some apdu =>
          match tx dev apdu with
          | (false, dev) => (FIDO_ERR_TX, none, dev)
          | (true, dev) =>
            match rx dev 8 ms with
            | (none, dev) => (FIDO_ERR_RX, none, dev)
            | (some reply, dev) =>
              if reply.length ≠ 2 then (FIDO_ERR_RX, none, dev)
              else if sw (reply.getD 0 0) (reply.getD 1 0) = SW_CONDITIONS_NOT_SATISFIED then
                (FIDO_OK, some true, dev)
              else if sw (reply.getD 0 0) (reply.getD 1 0) = SW_WRONG_DATA then
                (FIDO_OK, some false, dev)
              else (FIDO_ERR_INTERNAL, none, dev)

/-- Function `do_auth` (u2f.c:271). Returns the return value, the blobs `*sig`
and `*ad`, and the device. -/
def do_auth (env : Env) (fuel : Nat) (dev : fido_dev_t) (cdh : fido_blob_t)
    (rp_id : Option Bytes) (key_id : fido_blob_t) (sig ad : fido_blob_t) (ms : Int) :
    Option (fido_err × fido_blob_t × fido_blob_t × fido_dev_t) :=
  match rp_id with
  | none => some (FIDO_ERR_INVALID_ARGUMENT, sig, ad, dev)
  | some rp =>
    if cdh.len ≠ SHA256_DIGEST_LENGTH ∨ key_id.len > UINT8_MAX then
      some (FIDO_ERR_INVALID_ARGUMENT, sig, ad, dev)
    else
      match env.SHA256 rp with
      | none => some (FIDO_ERR_INTERNAL, sig, ad, dev)
      | some rp_id_hash =>
        let key_id_len : UInt8 := UInt8.ofNat key_id.len
        match ((((iso7816_new env U2F_CMD_AUTH U2F_AUTH_SIGN
            (2 * SHA256_DIGEST_LENGTH + 1 + key_id_len.toNat)).bind
            (fun a => iso7816_add a cdh.bytes)).bind
            (fun a => iso7816_add a rp_id_hash.val)).bind
            (fun a => iso7816_add a [key_id_len])).bind
            (fun a => iso7816_add a ((key_id.ptr.getD []).take key_id_len.toNat)) with
        | none => some (FIDO_ERR_INTERNAL, sig, ad, dev)
        | some apdu =>
          match poll apdu 128 ms fuel dev with
          | none => none
          | some (.error r, dev) => some (r, sig, ad, dev)
          | some (.ok reply, dev) =>
            match parse_auth_reply env sig ad rp reply with
            | (r, sig, ad) => some (r, sig, ad, dev)

/-- The outcome of the `i`-th coming `tx` call on a device. -/
def tx_outcome (dev : fido_dev_t) (i : Nat) : Bool := dev.tx_script.getD i dev.tx_rest

/-- The argument of `usleep` in the poll loops: `(ms == -1 ? 100 : ms) * 1000`,
as the unsigned 32-bit value that `usleep` receives. -/
def poll_usec (ms : Int) : Int := ((if ms = -1 then 100 else ms) * 1000) % 2 ^ 32

/-- The log of one pass through the body of a poll loop that reaches its
`usleep`: a `tx`, an `rx` and a `usleep`. -/
def round_trip (apdu : iso7816_apdu_t) (cap : Nat) (ms : Int) : List Event :=
  [Event.tx apdu, Event.rx cap ms, Event.usleep (poll_usec ms)]

/-- The log of `n` such passes in a row. -/
def round_trips (apdu : iso7816_apdu_t) (cap : Nat) (ms : Int) : Nat → List Event
  | 0 => []
  | n + 1 => round_trip apdu cap ms ++ round_trips apdu cap ms n

/-- The number of `tx` calls in a log. -/
def count_tx (log : List Event) : Nat :=
  (log.filter (fun e => match e with | Event.tx _ => true | _ => false)).length

/-- The number of `rx` calls in a log. -/
def count_rx (log : List Event) : Nat :=
  (log.filter (fun e => match e with | Event.rx _ _ => true | _ => false)).length

/-- The number of `usleep` calls in a log. -/
def count_usleep (log : List Event) : Nat :=
  (log.filter (fun e => match e with | Event.usleep _ => true | _ => false)).length

/-- A reply of at least two bytes whose first two bytes are `0x69 0x85`. -/
def starts_with_6985 (reply : Bytes) : Prop :=
  2 ≤ reply.length ∧ reply.getD 0 0 = 0x69 ∧ reply.getD 1 0 = 0x85

instance (reply : Bytes) : Decidable (starts_with_6985 reply) := by
  unfold starts_with_6985
  infer_instance

/-- The AUTHENTICATE APDU that `key_lookup` (`p1 = U2F_AUTH_CHECK`, challenge 32
bytes of `0xff`) and `do_auth` (`p1 = U2F_AUTH_SIGN`, challenge the
client-data-hash) hand to `tx` for a key id of at most 255 bytes: payload
`challenge ‖ rp_id_hash ‖ [len] ‖ key id`, and the capacity left over. -/
def auth_apdu (p1 : u2f_p1) (challenge rp_id_hash : Bytes) (key_id : fido_blob_t) :
    iso7816_apdu_t :=
  ⟨U2F_CMD_AUTH, p1, key_id.len - ((key_id.ptr.getD []).take key_id.len).length,
    challenge ++ rp_id_hash ++ [UInt8.ofNat key_id.len] ++ (key_id.ptr.getD []).take key_id.len⟩

/-- The REGISTER APDU that `u2f_register` hands to `tx`: the client-data-hash
followed by the hash of the RP id. -/
def register_apdu (cdh rp_id_hash : Bytes) : iso7816_apdu_t :=
  ⟨U2F_CMD_REGISTER, P1_NONE, 0, cdh ++ rp_id_hash⟩

/-- The device after `ntx` more `tx` calls, with `rx_script` the `rx` outcomes
still to come and `events` appended to the log. -/
def dev_after (dev : fido_dev_t) (ntx : Nat) (rx_script : List (Option Bytes))
    (events : List Event) : fido_dev_t :=
  ⟨dev.tx_script.drop ntx, dev.tx_rest, rx_script, dev.rx_rest, dev.log ++ events⟩

/-- The log of the `key_lookup` calls on the key ids `ids`, each one `tx` of the
CHECK-ONLY APDU and one `rx` into the 8-byte reply buffer. -/
def lookup_log (rp_id_hash : Bytes) (ms : Int) (ids : List fido_blob_t) : List Event :=
  ids.flatMap (fun key_id =>
    [Event.tx (auth_apdu U2F_AUTH_CHECK (List.replicate 32 0xff) rp_id_hash key_id),
      Event.rx 8 ms])

/-! ## Registration -/

/-- The exclude-list loop of `u2f_register` (u2f.c:577) over the ids still to be
probed. The first component is the value returned from inside the loop, or
`none` when the loop runs to its end. -/
def u2f_register_excl (env : Env) (fuel : Nat) (rp_id : Option Bytes) (ms : Int) :
    List fido_blob_t → fido_dev_t → Option (Option fido_err × fido_dev_t)
  | [], dev => some (none, dev)
  | key_id :: rest, dev =>
    match key_lookup env dev rp_id key_id ms with
    | (FIDO_OK, found, dev) =>
      if found = some true then
        match send_dummy_register env fuel dev ms with
        | none => none
        | some (FIDO_OK, dev) => some (some FIDO_ERR_CREDENTIAL_EXCLUDED, dev)
        | some (r, dev) => some (some r, dev)
      else u2f_register_excl env fuel rp_id ms rest dev
    | (r, _, dev) => some (some r, dev)

/-- Function `u2f_register` (u2f.c:554). Returns the return value, the
credential and the device. -/
def u2f_register (env : Env) (fuel : Nat) (dev : fido_dev_t) (cred : fido_cred_t) (ms : Int) :
    Option (fido_err × fido_cred_t × fido_dev_t) :=
  if cred.rk = FIDO_OPT_TRUE ∨ cred.uv = FIDO_OPT_TRUE then
    some (FIDO_ERR_UNSUPPORTED_OPTION, cred, dev)
  else
    match cred.rp_id with
    | none => some (FIDO_ERR_INVALID_ARGUMENT, cred, dev)
    | some rp =>
      if cred.type ≠ COSE_ES256 ∨ cred.cdh.ptr = none ∨
          cred.cdh.len ≠ SHA256_DIGEST_LENGTH then
        some (FIDO_ERR_INVALID_ARGUMENT, cred, dev)
      else
        match u2f_register_excl env fuel cred.rp_id ms cred.excl.elems dev with
        | none => none
        | some (some r, dev) => some (r, cred, dev)
        | some (none, dev) =>
          match env.SHA256 rp with
          | none => some (FIDO_ERR_INTERNAL, cred, dev)
          | some rp_id_hash =>
            match ((iso7816_new env U2F_CMD_REGISTER P1_NONE (2 * SHA256_DIGEST_LENGTH)).bind
                (fun a => iso7816_add a cred.cdh.bytes)).bind
                (fun a => iso7816_add a rp_id_hash.val) with
            | none => some (FIDO_ERR_INTERNAL, cred, dev)
            | some apdu =>
              match poll apdu 2048 ms fuel dev with
              | none => none
              | some (.error r, dev) => some (r, cred, dev)
              | some (.ok reply, dev) =>
                match parse_register_reply env cred reply with
                | (r, cred) => some (r, cred, dev)

/-! ## Authentication -/

/-- One slot of the statement vector of `fido_assert_t`: the fields the
setters called by `u2f.c` write. -/
structure fido_assert_stmt where
  id : Option Bytes
  authdata_cbor : Option Bytes
  sig : Option Bytes
  deriving DecidableEq

/-- A statement slot that has not been written. -/
def fido_assert_stmt.empty : fido_assert_stmt := ⟨none, none, none⟩

/-- The type `fido_assert_t`, reduced to the fields `u2f.c` reads (the request)
and writes (the statement vector `stmt` and the statement count `stmt_len`). -/
structure fido_assert_t where
  rp_id : Option Bytes
  cdh : fido_blob_t
  allow_list : fido_blob_array_t
  up : fido_opt_t
  uv : fido_opt_t
  stmt : List fido_assert_stmt
  stmt_len : Nat
  deriving DecidableEq

/-- Modelled from the spec: `fido_assert_set_count` of `src/assert.c`, which
pre-sizes the statement vector to `n` slots (keeping the slots it has, new
slots empty). Returns its return value and the assertion. -/
def fido_assert_set_count (env : Env) (fa : fido_assert_t) (n : Nat) :
    fido_err × fido_assert_t :=
  if env.set_count n = FIDO_OK then
    (FIDO_OK, { fa with stmt := (fa.stmt ++ List.replicate n fido_assert_stmt.empty).take n })
  else (env.set_count n, fa)

/-- Modelled from the spec: the call `fido_blob_set(&fa->stmt[idx].id, ptr, len)`
(`src/blob.c`), which copies `len` bytes from `ptr` into the id of slot `idx`;
`none` when it returns a negative value (or when the vector has no slot `idx`). -/
def fido_assert_set_id (env : Env) (fa : fido_assert_t) (idx : Nat) (b : fido_blob_t) :
    Option fido_assert_t :=
  if idx < fa.stmt.length ∧ b.ptr ≠ none ∧ env.set_ok Setter.assert_id b.bytes then
    some { fa with
      stmt := fa.stmt.set idx
        ({ fa.stmt.getD idx fido_assert_stmt.empty with id := some b.bytes }) }
  else none

/-- Modelled from the spec: the setter `fido_assert_set_authdata` of
`src/assert.c`, which copies `len` bytes from `ptr` into slot `idx`; `none`
when it does not return `FIDO_OK`. -/
def fido_assert_set_authdata (env : Env) (fa : fido_assert_t) (idx : Nat) (b : fido_blob_t) :
    Option fido_assert_t :=
  if idx < fa.stmt.length ∧ b.ptr ≠ none ∧ env.set_ok Setter.assert_authdata b.bytes then
    some { fa with
      stmt := fa.stmt.set idx
        ({ fa.stmt.getD idx fido_assert_stmt.empty with authdata_cbor := some b.bytes }) }
  else none

/-- Modelled from the spec: the setter `fido_assert_set_sig` of `src/assert.c`,
which copies `len` bytes from `ptr` into slot `idx`; `none` when it does not
return `FIDO_OK`. -/
def fido_assert_set_sig (env : Env) (fa : fido_assert_t) (idx : Nat) (b : fido_blob_t) :
    Option fido_assert_t :=
  if idx < fa.stmt.length ∧ b.ptr ≠ none ∧ env.set_ok Setter.assert_sig b.bytes then
    some { fa with
      stmt := fa.stmt.set idx
        ({ fa.stmt.getD idx fido_assert_stmt.empty with sig := some b.bytes }) }
  else none

/-- Function `u2f_authenticate_single` (u2f.c:636). Returns the return value,
the assertion and the device. -/
def u2f_authenticate_single (env : Env) (fuel : Nat) (dev : fido_dev_t) (key_id : fido_blob_t)
    (fa : fido_assert_t) (idx : Nat) (ms : Int) :
    Option (fido_err × fido_assert_t × fido_dev_t) :=
  match key_lookup env dev fa.rp_id key_id ms with
  | (FIDO_OK, found, dev) =>
    if found ≠ some true then some (FIDO_ERR_CREDENTIAL_EXCLUDED, fa, dev)
    else if fa.up = FIDO_OPT_FALSE then some (FIDO_ERR_USER_PRESENCE_REQUIRED, fa, dev)
    else
      match do_auth env fuel dev fa.cdh fa.rp_id key_id fido_blob_t.zero fido_blob_t.zero ms with
      | none => none
      | some (FIDO_OK, sig, ad, dev) =>
        match fido_assert_set_id env fa idx key_id with
        | none => some (FIDO_ERR_INTERNAL, fa, dev)
        | some fa1 =>
          match fido_assert_set_authdata env fa1 idx ad with
          | none => some (FIDO_ERR_INTERNAL, fa1, dev)
          | some fa2 =>
            match fido_assert_set_sig env fa2 idx sig with
            | none => some (FIDO_ERR_INTERNAL, fa2, dev)
            | some fa3 => some (FIDO_OK, fa3, dev)
      | some (r, _, _, dev) => some (r, fa, dev)
  | (r, _, dev) => some (r, fa, dev)

/-- The allow-list loop of `u2f_authenticate` (u2f.c:710) over the ids still to
be processed, from the current value of `nauth_ok`. The first component is the
value returned from inside the loop, or `none` when the loop runs to its end;
the second is `nauth_ok`. -/
def u2f_authenticate_loop (env : Env) (fuel : Nat) (ms : Int) :
    List fido_blob_t → Nat → fido_assert_t → fido_dev_t →
    Option (Option fido_err × Nat × fido_assert_t × fido_dev_t)
  | [], nauth_ok, fa, dev => some (none, nauth_ok, fa, dev)
  | key_id :: rest, nauth_ok, fa, dev =>
    match u2f_authenticate_single env fuel dev key_id fa nauth_ok ms with
    | none => none
    | some (r, fa, dev) =>
      if r = FIDO_OK then u2f_authenticate_loop env fuel ms rest (nauth_ok + 1) fa dev
      else if r ≠ FIDO_ERR_CREDENTIAL_EXCLUDED then some (some r, nauth_ok, fa, dev)
      else u2f_authenticate_loop env fuel ms rest nauth_ok fa dev

/-- Function `u2f_authenticate` (u2f.c:693). Returns the return value, the
assertion and the device. -/
def u2f_authenticate (env : Env) (fuel : Nat) (dev : fido_dev_t) (fa : fido_assert_t) (ms : Int) :
    Option (fido_err × fido_assert_t × fido_dev_t) :=
  if fa.uv = FIDO_OPT_TRUE ∨ fa.allow_list.ptr = none then
    some (FIDO_ERR_UNSUPPORTED_OPTION, fa, dev)
  else
    match fido_assert_set_count env fa fa.allow_list.len with
    | (FIDO_OK, fa) =>
      match u2f_authenticate_loop env fuel ms fa.allow_list.elems 0 fa dev with
      | none => none
      | some (some r, _, fa, dev) => some (r, fa, dev)
      | some (none, nauth_ok, fa, dev) => some (FIDO_OK, { fa with stmt_len := nauth_ok }, dev)
    | (r, fa) => some (r, fa, dev)

/-! ## Device behaviour towards an allow list -/

/-- How the device treats one allow-list entry: it does not recognise the key
id (it answers the CHECK-ONLY APDU with `6a 80`), or it recognises it (it
answers CHECK-ONLY with `69 85`) and answers the SIGN APDU first with the
replies `retries` and then with `reply`. -/
inductive device_answer where
  | absent
  | present (retries : List Bytes) (reply : Bytes)
  deriving DecidableEq

/-- The outcomes of the `rx` calls that serve one allow-list entry. -/
def answer_rx : device_answer → List (Option Bytes)
  | .absent => [some [0x6a, 0x80]]
  | .present retries reply => some [0x69, 0x85] :: (retries.map some ++ [some reply])

/-- The number of `tx` calls that serve one allow-list entry. -/
def answer_ntx : device_answer → Nat
  | .absent => 1
  | .present retries _ => 1 + (retries.length + 1)

/-- The log of the calls that serve one allow-list entry: the lookup and, for a
recognised key, the passes of the poll loop of `do_auth`. -/
def answer_log (cdh rp_id_hash : Bytes) (ms : Int) (key_id : fido_blob_t) :
    device_answer → List Event
  | .absent => lookup_log rp_id_hash ms [key_id]
  | .present retries _ => lookup_log rp_id_hash ms [key_id] ++
      round_trips (auth_apdu U2F_AUTH_SIGN cdh rp_id_hash key_id) 128 ms (retries.length + 1)

/-- The statement that a recognised entry is to leave: its key id, the CBOR
byte string of the 37 bytes `rp_id_hash ‖ reply[0..5)`, and the signature
`reply[5 .. n-2)`. -/
def answer_stmt (rp_id_hash : Bytes) (key_id : fido_blob_t) :
    device_answer → Option fido_assert_stmt
  | .absent => none
  | .present _ reply =>
    some ⟨some key_id.bytes, some (0x58 :: 0x25 :: (rp_id_hash ++ reply.take 5)),
      some ((reply.drop 5).take (reply.length - 7))⟩

/-- Whether nothing goes wrong on an allow-list entry: the key id has at most
255 bytes and the APDU builder succeeds; for a recognised key moreover the
retried replies start with `69 85`, the final reply has at least 7 bytes, does
not start with `69 85` and ends with `90 00`, and the allocation of the
signature, the CBOR calls and the three setters succeed. -/
def answer_ok (env : Env) (rp_id_hash : Bytes) (key_id : fido_blob_t) : device_answer → Prop
  | .absent => key_id.len ≤ 255 ∧ env.iso7816_ok (65 + key_id.len) = true
  | .present retries reply =>
    key_id.len ≤ 255 ∧ env.iso7816_ok (65 + key_id.len) = true ∧
    (∀ r ∈ retries, starts_with_6985 r) ∧
    7 ≤ reply.length ∧ ¬ (reply.getD 0 0 = 0x69 ∧ reply.getD 1 0 = 0x85) ∧
    reply.getD (reply.length - 2) 0 = 0x90 ∧ reply.getD (reply.length - 1) 0 = 0x00 ∧
    env.calloc (reply.length - 7) = true ∧
    env.cbor_build_ok (rp_id_hash ++ reply.take 5) = true ∧
    env.cbor_serialize_ok (rp_id_hash ++ reply.take 5) = true ∧
    key_id.ptr ≠ none ∧ env.set_ok Setter.assert_id key_id.bytes = true ∧
    env.set_ok Setter.assert_authdata (0x58 :: 0x25 :: (rp_id_hash ++ reply.take 5)) = true ∧
    env.set_ok Setter.assert_sig ((reply.drop 5).take (reply.length - 7)) = true

/-- The fuel the poll loop of `do_auth` needs on an allow-list entry. -/
def answer_fuel : device_answer → Nat
  | .absent => 0
  | .present retries _ => retries.length + 1

/-- The outcomes of the `rx` calls that serve a list of entries. -/
def answers_rx (entries : List (fido_blob_t × device_answer)) : List (Option Bytes) :=
  entries.flatMap (fun e => answer_rx e.2)

/-- The number of `tx` calls that serve a list of entries. -/
def answers_ntx (entries : List (fido_blob_t × device_answer)) : Nat :=
  (entries.map (fun e => answer_ntx e.2)).sum

/-- The log of the calls that serve a list of entries. -/
def answers_log (cdh rp_id_hash : Bytes) (ms : Int)
    (entries : List (fido_blob_t × device_answer)) : List Event :=
  entries.flatMap (fun e => answer_log cdh rp_id_hash ms e.1 e.2)

/-- The statements of the recognised entries, in allow-list order. -/
def answers_stmts (rp_id_hash : Bytes) (entries : List (fido_blob_t × device_answer)) :
    List fido_assert_stmt :=
  entries.filterMap (fun e => answer_stmt rp_id_hash e.1 e.2)

/-- Whether the device recognises the key id of an entry. -/
def recognised : device_answer → Bool
  | .absent => false
  | .present _ _ => true

/-! ## The outcome of `key_lookup` in the spec's words -/

/-- The outcome of `key_lookup` as the spec words it, from what `rx` delivered
(`none` = a negative return value): the return value and the value of `*found`
(`none` when it is not written). Exactly the two bytes `69 85` mean that the key
exists, exactly `6a 80` that it does not, two other bytes are an internal error
and any other number of bytes a receive error. -/
def spec_key_lookup (delivered : Option Bytes) : fido_err × Option Bool :=
  match delivered with
  | none => (FIDO_ERR_RX, none)
  | some reply =>
    if reply.length ≠ 2 then (FIDO_ERR_RX, none)
    else if reply = [0x69, 0x85] then (FIDO_OK, some true)
    else if reply = [0x6a, 0x80] then (FIDO_OK, some false)
    else (FIDO_ERR_INTERNAL, none)

/-! ## Heap buffers and their release

The functions above carry the contents of the heap buffers of `u2f.c` in their
blobs. The functions below follow the same code once more and record every
buffer handed to `free`, with the bytes it holds at that moment. -/

/-- The call `explicit_bzero(ptr, len)` on a buffer: its first `len` bytes
become zero. -/
def explicit_bzero (b : Bytes) (len : Nat) : Bytes :=
  List.replicate (min len b.length) 0 ++ b.drop len

/-- The call `free(ptr)`: nothing happens for a null pointer; otherwise the
buffer is released, and the record is the bytes it holds at that moment. -/
def free (ptr : Option Bytes) : List Bytes :=
  match ptr with
  | none => []
  | some b => [b]

/-- The statement `if (b.ptr) { explicit_bzero(b.ptr, b.len); free(b.ptr); }`. -/
def bzero_free (b : fido_blob_t) : List Bytes :=
  match b.ptr with
  | none => []
  | some c => free (some (explicit_bzero c b.len))

/-- The buffers released inside `sig_get` (u2f.c:22): the buffer just obtained
from `calloc`, zeroed, when `buf_read` fails. -/
def sig_get_released (env : Env) (buf : Bytes) : List Bytes :=
  let len := buf.length
  if env.calloc len = false then []
  else
    match buf_read buf len with
    | none => free (some (explicit_bzero (List.replicate len 0) len))
    | some _ => []

/-- The buffers released inside `x5c_get` (u2f.c:41), called with the blob
`x5c`: on every failing path `free(x5c->ptr)`, without `explicit_bzero`. Up to
the call of `calloc` the pointer is the one passed in; after it, it is the
buffer `calloc` returned, which `buf_read` has not written when it fails. -/
def x5c_get_released (env : Env) (x5c : fido_blob_t) (buf : Bytes) : List Bytes :=
  let len := buf.length
  if len > LONG_MAX then free x5c.ptr
  else
    match env.d2i_X509 buf with
    | none => free x5c.ptr
    | some consumed =>
      if consumed ≤ 0 then free x5c.ptr
      else if consumed.toNat ≥ len then free x5c.ptr
      else if env.calloc consumed.toNat = false then free none
      else
        match buf_read buf consumed.toNat with
        | none => free (some (List.replicate consumed.toNat 0))
        | some _ => []

/-- The calls of `buf_write` one after the other, up to the first that fails:
whether all succeeded, and the cursor as the last successful call left it. -/
def buf_write_seq (w : Bytes × Nat) : List Bytes → Bool × (Bytes × Nat)
  | [] => (true, w)
  | src :: rest =>
    match buf_write w src with
    | none => (false, w)
    | some w1 => buf_write_seq w1 rest

/-- The block after the label `fail` of `encode_cred_authdata` (u2f.c:452). -/
def encode_cred_authdata_fail (pk_blob authdata_blob : fido_blob_t) : List Bytes :=
  bzero_free pk_blob ++ bzero_free authdata_blob

/-- The buffers released inside `encode_cred_authdata` (u2f.c:382): on every
path the block after `fail`, with the locals `pk_blob` and `authdata_blob` as
the path has left them. -/
def encode_cred_authdata_released (env : Env) (rp_id : Option Bytes) (kh : Bytes)
    (kh_len : UInt8) (pubkey : Bytes) : List Bytes :=
  match rp_id with
  | none => encode_cred_authdata_fail fido_blob_t.zero fido_blob_t.zero
  | some rp =>
    match cbor_blob_from_ec_point env pubkey fido_blob_t.zero with
    | (false, pk_blob) => encode_cred_authdata_fail pk_blob fido_blob_t.zero
    | (true, pk_blob) =>
      match env.SHA256 rp with
      | none => encode_cred_authdata_fail pk_blob fido_blob_t.zero
      | some h =>
        let authdata := fido_authdata_bytes env.host h.val 0x41 0
        let id_len := (kh_len.toNat <<< 8) % 65536
        let attcred_raw := fido_attcred_raw_bytes env.host (List.replicate 16 0) id_len
        let len := 37 + 18 + kh_len.toNat + pk_blob.len
        if env.calloc len = false then encode_cred_authdata_fail pk_blob ⟨none, len⟩
        else
          -- whether the writes, `fido_blob_encode` and `cbor_serialize_alloc`
          -- succeed or not, the block after `fail` finds the same two buffers
          match buf_write_seq ([], len)
              [authdata, attcred_raw, kh.take kh_len.toNat, pk_blob.bytes] with
          | (_, (written, room)) =>
            encode_cred_authdata_fail pk_blob ⟨some (written ++ List.replicate room 0), len⟩

/-- The block after the label `fail` of `parse_register_reply` (u2f.c:533). -/
def parse_register_reply_fail (kh : Option Bytes) (kh_len : UInt8) (x5c sig ad : fido_blob_t) :
    List Bytes :=
  bzero_free ⟨kh, kh_len.toNat⟩ ++ bzero_free x5c ++ bzero_free sig ++ bzero_free ad

/-- The buffers released inside `parse_register_reply` (u2f.c:468) and its
callees, in order: on every path what the callees released, then the block
after `fail` with the locals `kh`, `x5c`, `sig` and `ad` as the path has left
them. -/
def parse_register_reply_released (env : Env) (cred : fido_cred_t) (reply : Bytes) :
    List Bytes :=
  let len := reply.length
  let z := fido_blob_t.zero
  if len < 2 ∨ sw (reply.getD (len - 2) 0) (reply.getD (len - 1) 0) ≠ SW_NO_ERROR then
    parse_register_reply_fail none 0 z z z
  else
    match buf_read (reply.take (len - 2)) 1 with
    | none => parse_register_reply_fail none 0 z z z
    | some (dummy, buf) =>
      if dummy.getD 0 0 ≠ 0x05 then parse_register_reply_fail none 0 z z z
      else
        match buf_read buf 65 with
        | none => parse_register_reply_fail none 0 z z z
        | some (pubkey, buf) =>
          match buf_read buf 1 with
          | none => parse_register_reply_fail none 0 z z z
          | some (kh_len_b, buf) =>
            let kh_len := kh_len_b.getD 0 0
            if env.calloc kh_len.toNat = false then parse_register_reply_fail none kh_len z z z
            else
              match buf_read buf kh_len.toNat with
              | none =>
                parse_register_reply_fail (some (List.replicate kh_len.toNat 0)) kh_len z z z
              | some (kh, buf) =>
                match x5c_get env buf with
                | none =>
                  x5c_get_released env z buf ++ parse_register_reply_fail (some kh) kh_len z z z
                | some (x5c, buf1) =>
                  match sig_get env buf1 with
                  | (false, sig, _) =>
                    x5c_get_released env z buf ++ sig_get_released env buf1 ++
                      parse_register_reply_fail (some kh) kh_len x5c sig z
                  | (true, sig, _) =>
                    -- `ad` is the blob `encode_cred_authdata` leaves, zeroed when
                    -- it fails; the setters copy and release nothing here
                    x5c_get_released env z buf ++ sig_get_released env buf1 ++
                      encode_cred_authdata_released env cred.rp_id kh kh_len pubkey ++
                      parse_register_reply_fail (some kh) kh_len x5c sig
                        (encode_cred_authdata env cred.rp_id kh kh_len pubkey).2

/-- The buffers released inside `parse_auth_reply` (u2f.c:238): those of
`sig_get`, when it is reached. -/
def parse_auth_reply_released (env : Env) (reply : Bytes) : List Bytes :=
  let len := reply.length
  if len < 2 ∨ sw (reply.getD (len - 2) 0) (reply.getD (len - 1) 0) ≠ SW_NO_ERROR then []
  else
    match buf_read (reply.take (len - 2)) 1 with
    | none => []
    | some (_, buf) =>
      match buf_read buf 4 with
      | none => []
      | some (_, buf) => sig_get_released env buf

/-- The buffers of the blobs `*sig` and `*ad` released inside `do_auth`
(u2f.c:271): those of `parse_auth_reply`, when it is reached. -/
def do_auth_released (env : Env) (fuel : Nat) (dev : fido_dev_t) (cdh : fido_blob_t)
    (rp_id : Option Bytes) (key_id : fido_blob_t) (ms : Int) : Option (List Bytes) :=
  match rp_id with
  | none => some []
  | some rp =>
    if cdh.len ≠ SHA256_DIGEST_LENGTH ∨ key_id.len > UINT8_MAX then some []
    else
      match env.SHA256 rp with
      | none => some []
      | some rp_id_hash =>
        let key_id_len : UInt8 := UInt8.ofNat key_id.len
        match ((((iso7816_new env U2F_CMD_AUTH U2F_AUTH_SIGN
            (2 * SHA256_DIGEST_LENGTH + 1 + key_id_len.toNat)).bind
            (fun a => iso7816_add a cdh.bytes)).bind
            (fun a => iso7816_add a rp_id_hash.val)).bind
            (fun a => iso7816_add a [key_id_len])).bind
            (fun a => iso7816_add a ((key_id.ptr.getD []).take key_id_len.toNat)) with
        | none => some []
        | some apdu =>
          match poll apdu 128 ms fuel dev with
          | none => none
          | some (.error _, _) => some []
          | some (.ok reply, _) => some (parse_auth_reply_released env reply)

/-- The block after the label `fail` of `u2f_authenticate_single` (u2f.c:680). -/
def u2f_authenticate_single_fail (sig ad : fido_blob_t) : List Bytes :=
  bzero_free sig ++ bzero_free ad

/-- The buffers released inside `u2f_authenticate_single` (u2f.c:636) and its
callees, in order: on every path what `do_auth` released, then the block after
`fail` with the locals `sig` and `ad` as the path has left them. -/
def u2f_authenticate_single_released (env : Env) (fuel : Nat) (dev : fido_dev_t)
    (key_id : fido_blob_t) (fa : fido_assert_t) (ms : Int) : Option (List Bytes) :=
  let z := fido_blob_t.zero
  match key_lookup env dev fa.rp_id key_id ms with
  | (FIDO_OK, found, dev) =>
    if found ≠ some true then some (u2f_authenticate_single_fail z z)
    else if fa.up = FIDO_OPT_FALSE then some (u2f_authenticate_single_fail z z)
    else
      match do_auth env fuel dev fa.cdh fa.rp_id key_id z z ms,
          do_auth_released env fuel dev fa.cdh fa.rp_id key_id ms with
      | some (_, sig, ad, _), some released =>
        -- the setters copy and release nothing here
        some (released ++ u2f_authenticate_single_fail sig ad)
      | _, _ => none
  | (_, _, _) => some (u2f_authenticate_single_fail z z)

/-- Whether a buffer holds zeros only. -/
def all_zero (b : Bytes) : Prop := ∀ x ∈ b, x = 0

instance (b : Bytes) : Decidable (all_zero b) := by
  unfold all_zero
  infer_instance

/-! ## Sample inputs

Concrete environments, devices and requests on which the theorems below are
instantiated. -/

/-- A toy environment: every allocation and every setter succeeds, the digest
of a message is 32 copies of its length byte, a certificate is a `0x30` byte,
a length byte `n` and `n` more bytes, and the COSE key is the standard ES256
map around X and Y. -/
def sample_env (host : Endian) : Env where
  host := host
  calloc := fun _ => true
  SHA256 := fun m => some ⟨List.replicate 32 (UInt8.ofNat m.length), by simp⟩
  d2i_X509 := fun b => if b.getD 0 0 = 0x30 then some (2 + ((b.getD 1 0).toNat : Int)) else none
  es256_pk_cbor := fun x y =>
    some ([0xa5, 0x01, 0x02, 0x03, 0x26, 0x20, 0x01, 0x21, 0x58, 0x20] ++ x ++
      [0x22, 0x58, 0x20] ++ y)
  cbor_build_ok := fun _ => true
  cbor_serialize_ok := fun _ => true
  iso7816_ok := fun _ => true
  set_ok := fun _ _ => true
  set_fmt_ok := fun _ => true
  set_count := fun _ => FIDO_OK

/-- A device that answers nothing: every `tx` fails. -/
def dead_dev : fido_dev_t := ⟨[], false, [], none, []⟩

/-- A device on which every `tx` succeeds and whose `rx` calls return the
scripted replies, then fail. -/
def scripted_dev (replies : List Bytes) : fido_dev_t :=
  ⟨[], true, replies.map some, none, []⟩

/-- A well-formed registration request for the RP id "a": ES256, a 32-byte
client-data-hash, no options, no exclude list. -/
def sample_cred : fido_cred_t where
  rk := FIDO_OPT_OMIT
  uv := FIDO_OPT_OMIT
  type := COSE_ES256
  cdh := fido_blob_t.of (List.replicate 32 0x11)
  rp_id := some [0x61]
  excl := ⟨none⟩
  fmt := none
  authdata_cbor := none
  x5c := none
  sig := none

/-- A REGISTER reply accepted under `sample_env`: reserved byte, a 65-byte point
starting with `0x04`, a two-byte key handle, a three-byte certificate, a
two-byte signature and the status word `0x9000`. -/
def sample_register_reply : Bytes :=
  [0x05] ++ (0x04 :: List.replicate 64 0xaa) ++ [0x02] ++ [0xb1, 0xb2] ++
    [0x30, 0x01, 0xcc] ++ [0xd1, 0xd2] ++ [0x90, 0x00]

/-- The COSE key `sample_env` produces for the point of `sample_register_reply`. -/
def sample_pk : Bytes :=
  [0xa5, 0x01, 0x02, 0x03, 0x26, 0x20, 0x01, 0x21, 0x58, 0x20] ++ List.replicate 32 0xaa ++
    [0x22, 0x58, 0x20] ++ List.replicate 32 0xaa

/-- The REGISTER reply of the spec's scenario: a 64-byte key handle, a 200-byte
certificate and a 70-byte signature. -/
def scenario_register_reply : Bytes :=
  [0x05] ++ (0x04 :: List.replicate 64 0xaa) ++ [0x40] ++ List.replicate 64 0xbb ++
    (0x30 :: 0xc6 :: List.replicate 198 0xcc) ++ List.replicate 70 0xdd ++ [0x90, 0x00]

/-- The REGISTER APDU of `sample_cred`. -/
def sample_apdu : iso7816_apdu_t :=
  ⟨U2F_CMD_REGISTER, P1_NONE, 0, List.replicate 32 0x11 ++ List.replicate 32 0x01⟩

/-- Two key ids, of 3 and 2 bytes. -/
def sample_id_a : fido_blob_t := fido_blob_t.of [0xa1, 0xa2, 0xa3]

def sample_id_b : fido_blob_t := fido_blob_t.of [0xb1, 0xb2]

def sample_id_c : fido_blob_t := fido_blob_t.of [0xc1]

/-- An assertion request for the RP id "a" with the allow list `[A, B, C]`,
user presence required, and no statement yet. -/
def sample_assert : fido_assert_t where
  rp_id := some [0x61]
  cdh := fido_blob_t.of (List.replicate 32 0x11)
  allow_list := ⟨some [sample_id_a, sample_id_b, sample_id_c]⟩
  up := FIDO_OPT_TRUE
  uv := FIDO_OPT_OMIT
  stmt := []
  stmt_len := 0

/-- An AUTHENTICATE reply: user-presence byte, counter 42, a two-byte
signature and the status word `0x9000`. -/
def sample_auth_reply : Bytes := [0x01, 0x00, 0x00, 0x00, 0x2a, 0x30, 0x44, 0x90, 0x00]

/-- The digest SHA-256 of the one-byte message "a". -/
def sha256_a : Bytes :=
    [0xca, 0x97, 0x81, 0x12, 0xca, 0x1b, 0xbd, 0xca, 0xfa, 0xc2, 0x31, 0xb3, 0x9a, 0x23, 0xdc,
     0x4d, 0xa7, 0x86, 0xef, 0xf8, 0x14, 0x7c, 0x4e, 0x72, 0xb9, 0x80, 0x77, 0x85, 0xaf, 0xee,
     0x48, 0xbb]

/-- A certificate parser that accepts a DER SEQUENCE and consumes its header
(with a short, `81 n` or `82 hi lo` length) and contents: on a well-formed
certificate, the number of bytes `d2i_X509` consumes. -/
def der_tlv_length (b : Bytes) : Option Int :=
  if b.getD 0 0 ≠ 0x30 then none
  else if (b.getD 1 0).toNat < 0x80 then some (2 + ((b.getD 1 0).toNat : Int))
  else if b.getD 1 0 = 0x81 then some (3 + ((b.getD 2 0).toNat : Int))
  else if b.getD 1 0 = 0x82 then
    some (4 + 256 * ((b.getD 2 0).toNat : Int) + ((b.getD 3 0).toNat : Int))
  else none

/-- The environment `sample_env` with the true digest of the RP id "a" and the
certificate parser `der_tlv_length`. -/
def der_env (host : Endian) : Env :=
  { sample_env host with
    SHA256 := fun m =>
      if m = [0x61] then some ⟨sha256_a, by decide⟩ else (sample_env host).SHA256 m
    d2i_X509 := der_tlv_length }

/-- A P-256 public key as an uncompressed point (65 bytes). -/
def genuine_point : Bytes :=
    [0x04, 0xd6, 0x03, 0x56, 0xba, 0x2b, 0x5b, 0x28, 0x60, 0xe1, 0x2a, 0x52, 0x1f, 0x17, 0x9d,
     0x2b, 0x5d, 0x3e, 0xd7, 0x74, 0xe9, 0x44, 0xdc, 0x9e, 0xd6, 0x42, 0xfe, 0xdc, 0x7b, 0x4a,
     0xbd, 0x94, 0xf1, 0x08, 0x0a, 0xca, 0x6b, 0x97, 0xf2, 0xbb, 0x83, 0xb7, 0xa4, 0x4b, 0xd2,
     0xd7, 0xce, 0x72, 0xf8, 0x4b, 0x6e, 0x83, 0x99, 0x00, 0x70, 0x1a, 0x84, 0x06, 0xa9, 0x77,
     0xcd, 0x3f, 0x7e, 0x87, 0x17]

/-- A self-signed X.509 certificate (DER, 263 bytes) for the key
`genuine_point`, subject `CN=U2F`, signed with ECDSA and SHA-256. -/
def genuine_cert : Bytes :=
    [0x30, 0x82, 0x01, 0x03, 0x30, 0x81, 0xaa, 0x02, 0x01, 0x01, 0x30, 0x0a, 0x06, 0x08, 0x2a,
     0x86, 0x48, 0xce, 0x3d, 0x04, 0x03, 0x02, 0x30, 0x0e, 0x31, 0x0c, 0x30, 0x0a, 0x06, 0x03,
     0x55, 0x04, 0x03, 0x0c, 0x03, 0x55, 0x32, 0x46, 0x30, 0x1e, 0x17, 0x0d, 0x32, 0x36, 0x31,
     0x30, 0x33, 0x31, 0x30, 0x31, 0x34, 0x31, 0x34, 0x38, 0x5a, 0x17, 0x0d, 0x33, 0x36, 0x31,
     0x30, 0x32, 0x38, 0x30, 0x31, 0x34, 0x31, 0x34, 0x38, 0x5a, 0x30, 0x0e, 0x31, 0x0c, 0x30,
     0x0a, 0x06, 0x03, 0x55, 0x04, 0x03, 0x0c, 0x03, 0x55, 0x32, 0x46, 0x30, 0x59, 0x30, 0x13,
     0x06, 0x07, 0x2a, 0x86, 0x48, 0xce, 0x3d, 0x02, 0x01, 0x06, 0x08, 0x2a, 0x86, 0x48, 0xce,
     0x3d, 0x03, 0x01, 0x07, 0x03, 0x42, 0x00, 0x04, 0xd6, 0x03, 0x56, 0xba, 0x2b, 0x5b, 0x28,
     0x60, 0xe1, 0x2a, 0x52, 0x1f, 0x17, 0x9d, 0x2b, 0x5d, 0x3e, 0xd7, 0x74, 0xe9, 0x44, 0xdc,
     0x9e, 0xd6, 0x42, 0xfe, 0xdc, 0x7b, 0x4a, 0xbd, 0x94, 0xf1, 0x08, 0x0a, 0xca, 0x6b, 0x97,
     0xf2, 0xbb, 0x83, 0xb7, 0xa4, 0x4b, 0xd2, 0xd7, 0xce, 0x72, 0xf8, 0x4b, 0x6e, 0x83, 0x99,
     0x00, 0x70, 0x1a, 0x84, 0x06, 0xa9, 0x77, 0xcd, 0x3f, 0x7e, 0x87, 0x17, 0x30, 0x0a, 0x06,
     0x08, 0x2a, 0x86, 0x48, 0xce, 0x3d, 0x04, 0x03, 0x02, 0x03, 0x48, 0x00, 0x30, 0x45, 0x02,
     0x21, 0x00, 0xea, 0xfa, 0xca, 0x7d, 0x19, 0x70, 0x51, 0x45, 0x3e, 0xf2, 0x3a, 0xf2, 0xa0,
     0x3e, 0x16, 0x16, 0xc2, 0x9e, 0xd1, 0x9c, 0x1f, 0xae, 0x62, 0xfd, 0xbe, 0xe7, 0x97, 0x1a,
     0x12, 0xb5, 0xe3, 0x72, 0x02, 0x20, 0x6b, 0xd7, 0x32, 0x5b, 0x70, 0x8a, 0x3d, 0xda, 0xe9,
     0x6a, 0xdd, 0xdf, 0xbd, 0x97, 0xc9, 0x01, 0xba, 0xa5, 0x7e, 0x4e, 0x7f, 0x19, 0xc5, 0xf3,
     0x7a, 0xd9, 0x52, 0x6d, 0x7b, 0x84, 0x17, 0x0a]

/-- An ECDSA signature (DER, 71 bytes) made with the same key. -/
def genuine_sig : Bytes :=
    [0x30, 0x45, 0x02, 0x20, 0x38, 0x79, 0x97, 0xba, 0x0c, 0x95, 0xfb, 0x19, 0x8f, 0x7e, 0x2c,
     0x8f, 0x44, 0x73, 0xd1, 0xfa, 0x7a, 0x83, 0xb3, 0xed, 0xf4, 0xd9, 0x81, 0x59, 0x68, 0x0d,
     0xe0, 0x02, 0x98, 0xb9, 0x66, 0xce, 0x02, 0x21, 0x00, 0xa1, 0xbd, 0xc9, 0x20, 0x1b, 0x02,
     0xfb, 0x2b, 0x6f, 0x1d, 0x69, 0xfe, 0x85, 0x15, 0xad, 0x79, 0x1d, 0xb6, 0x2d, 0xeb, 0xf3,
     0x86, 0x09, 0xf1, 0x08, 0xc8, 0xf8, 0xd2, 0xb0, 0x06, 0x81, 0x99]

/-- The COSE key of `genuine_point`. -/
def genuine_pk : Bytes :=
  [0xa5, 0x01, 0x02, 0x03, 0x26, 0x20, 0x01, 0x21, 0x58, 0x20] ++
    (genuine_point.drop 1).take 32 ++ [0x22, 0x58, 0x20] ++ (genuine_point.drop 33).take 32

/-- A REGISTER reply as a token sends it: reserved byte, the public key, a
two-byte key handle `b1 b2`, the certificate, the signature and the status
word `0x9000`. -/
def genuine_register_reply : Bytes :=
  [0x05] ++ genuine_point ++ [0x02] ++ [0xb1, 0xb2] ++ genuine_cert ++ genuine_sig ++
    [0x90, 0x00]

/-! ## Basic facts -/

theorem sw_eq (hi lo : UInt8) : sw hi lo = 256 * hi.toNat + lo.toNat := by
  unfold sw
  have h : lo.toNat < 2 ^ 8 := lo.toNat_lt
  have := Nat.mul_add_lt_is_or h hi.toNat
  rw [Nat.shiftLeft_eq, Nat.mul_comm]
  simpa using this.symm

theorem sw_eq_iff (hi lo a b : UInt8) : sw hi lo = sw a b ↔ hi = a ∧ lo = b := by
  rw [sw_eq, sw_eq]
  have h1 : lo.toNat < 2 ^ 8 := lo.toNat_lt
  have h2 : b.toNat < 2 ^ 8 := b.toNat_lt
  constructor
  · intro h
    exact ⟨UInt8.ext (by omega), UInt8.ext (by omega)⟩
  · rintro ⟨rfl, rfl⟩
    rfl

theorem sw_conditions_iff (hi lo : UInt8) :
    sw hi lo = SW_CONDITIONS_NOT_SATISFIED ↔ hi = 0x69 ∧ lo = 0x85 := by
  have : SW_CONDITIONS_NOT_SATISFIED = sw 0x69 0x85 := by decide
  rw [this, sw_eq_iff]

theorem sw_wrong_data_iff (hi lo : UInt8) :
    sw hi lo = SW_WRONG_DATA ↔ hi = 0x6A ∧ lo = 0x80 := by
  have : SW_WRONG_DATA = sw 0x6A 0x80 := by decide
  rw [this, sw_eq_iff]

theorem sw_no_error_iff (hi lo : UInt8) :
    sw hi lo = SW_NO_ERROR ↔ hi = 0x90 ∧ lo = 0x00 := by
  have : SW_NO_ERROR = sw 0x90 0x00 := by decide
  rw [this, sw_eq_iff]

/-! ## Argument checks of `u2f_register` -/

/-- C1 (as stated, refuted): a request with algorithm RS256 and resident-key =
true is answered with `FIDO_ERR_UNSUPPORTED_OPTION`, not with
`FIDO_ERR_INVALID_ARGUMENT`: the option check of u2f.c:565 comes first. -/
theorem u2f_register_rs256_rk_unsupported :
    ({ sample_cred with type := COSE_RS256, rk := FIDO_OPT_TRUE } : fido_cred_t).type
        ≠ COSE_ES256 ∧
      u2f_register (sample_env .little) 1 dead_dev
          { sample_cred with type := COSE_RS256, rk := FIDO_OPT_TRUE } 0 =
        some (FIDO_ERR_UNSUPPORTED_OPTION,
          { sample_cred with type := COSE_RS256, rk := FIDO_OPT_TRUE }, dead_dev) := by
  decide

/-- C1 (amended): when neither resident-key nor user-verification is true, a
request whose algorithm is not ES256 or whose client-data-hash length is not 32
makes `u2f_register` return `FIDO_ERR_INVALID_ARGUMENT`, with the credential
and the device (scripts and log: no `tx`, no `rx`) unchanged, whatever the fuel
and the other fields. -/
theorem u2f_register_invalid_argument (env : Env) (fuel : Nat) (dev : fido_dev_t)
    (cred : fido_cred_t) (ms : Int)
    (hrk : cred.rk ≠ FIDO_OPT_TRUE) (huv : cred.uv ≠ FIDO_OPT_TRUE)
    (h : cred.type ≠ COSE_ES256 ∨ cred.cdh.len ≠ 32) :
    u2f_register env fuel dev cred ms = some (FIDO_ERR_INVALID_ARGUMENT, cred, dev) := by
  unfold u2f_register
  rw [if_neg (by simp [hrk, huv])]
  cases hrp : cred.rp_id with
  | none => rfl
  | some rp =>
    have h2 : cred.type ≠ COSE_ES256 ∨ cred.cdh.ptr = none ∨
        cred.cdh.len ≠ SHA256_DIGEST_LENGTH := by
      rcases h with h | h
      · exact Or.inl h
      · exact Or.inr (Or.inr h)
    simp only [if_pos h2]

/-- An RS256 request without options, on a device with one scripted reply: the
script and the log are left as they were. -/
theorem u2f_register_invalid_argument_witness :
    u2f_register (sample_env .little) 0 (scripted_dev [[0x90, 0x00]])
        { sample_cred with type := COSE_RS256 } (-1) =
      some (FIDO_ERR_INVALID_ARGUMENT, { sample_cred with type := COSE_RS256 },
        scripted_dev [[0x90, 0x00]]) :=
  u2f_register_invalid_argument (sample_env .little) 0 (scripted_dev [[0x90, 0x00]])
    { sample_cred with type := COSE_RS256 } (-1) (by decide) (by decide)
    (Or.inl (by decide))

/-- C2: with resident-key = true or user-verification = true `u2f_register`
returns `FIDO_ERR_UNSUPPORTED_OPTION`, with the credential and the device
(scripts and log: no `tx`, no `rx`) unchanged, whatever the fuel and the other
fields. -/
theorem u2f_register_unsupported_option (env : Env) (fuel : Nat) (dev : fido_dev_t)
    (cred : fido_cred_t) (ms : Int)
    (h : cred.rk = FIDO_OPT_TRUE ∨ cred.uv = FIDO_OPT_TRUE) :
    u2f_register env fuel dev cred ms = some (FIDO_ERR_UNSUPPORTED_OPTION, cred, dev) := by
  unfold u2f_register
  rw [if_pos h]

/-- A request with user verification = true and a null client-data-hash. -/
theorem u2f_register_unsupported_option_witness :
    u2f_register (sample_env .little) 5 (scripted_dev [[0x69, 0x85]])
        { sample_cred with uv := FIDO_OPT_TRUE, cdh := fido_blob_t.zero } 100 =
      some (FIDO_ERR_UNSUPPORTED_OPTION,
        { sample_cred with uv := FIDO_OPT_TRUE, cdh := fido_blob_t.zero },
        scripted_dev [[0x69, 0x85]]) :=
  u2f_register_unsupported_option (sample_env .little) 5 (scripted_dev [[0x69, 0x85]])
    { sample_cred with uv := FIDO_OPT_TRUE, cdh := fido_blob_t.zero } 100
    (Or.inr (by decide))

/-! ## Byte-order facts -/

theorem toNat_ofNat (x : Nat) : (UInt8.ofNat x).toNat = x % 256 := by
  simp [UInt8.ofNat, UInt8.toNat]

theorem ofNat_eq_of_mod (a : UInt8) (x : Nat) (h : x % 256 = a.toNat) : UInt8.ofNat x = a := by
  apply UInt8.ext
  rw [toNat_ofNat]
  exact h

/-- Storing a `uint32_t` that was loaded from four bytes gives the four bytes
back, on either byte order. -/
theorem store_load_u32 (host : Endian) (a b c d : UInt8) :
    store_u32 host (load_u32 host [a, b, c, d]) = [a, b, c, d] := by
  have ha : a.toNat < 2 ^ 8 := a.toNat_lt
  have hb : b.toNat < 2 ^ 8 := b.toNat_lt
  have hc : c.toNat < 2 ^ 8 := c.toNat_lt
  have hd : d.toNat < 2 ^ 8 := d.toNat_lt
  cases host
  · simp only [store_u32, load_u32, List.getD_cons_zero, List.getD_cons_succ]
    rw [ofNat_eq_of_mod a _ (by omega), ofNat_eq_of_mod b _ (by omega),
      ofNat_eq_of_mod c _ (by omega), ofNat_eq_of_mod d _ (by omega)]
  · simp only [store_u32, load_u32, List.getD_cons_zero, List.getD_cons_succ]
    rw [ofNat_eq_of_mod a _ (by omega), ofNat_eq_of_mod b _ (by omega),
      ofNat_eq_of_mod c _ (by omega), ofNat_eq_of_mod d _ (by omega)]

theorem store_u32_zero (host : Endian) : store_u32 host 0 = [0, 0, 0, 0] := by
  cases host <;> rfl

/-! ## Buffers and blobs -/

theorem buf_read_append (a b : Bytes) (n : Nat) (h : a.length = n) :
    buf_read (a ++ b) n = some (a, b) := by
  unfold buf_read
  rw [if_neg (by simp; omega), List.take_left' h, List.drop_left' h]

theorem buf_read_eq_some (buf : Bytes) (n : Nat) (a b : Bytes)
    (h : buf_read buf n = some (a, b)) : buf = a ++ b ∧ a.length = n := by
  unfold buf_read at h
  split at h
  · exact absurd h (by simp)
  · simp only [Option.some.injEq, Prod.mk.injEq] at h
    obtain ⟨rfl, rfl⟩ := h
    refine ⟨(List.take_append_drop n buf).symm, ?_⟩
    simp
    omega

theorem split_last_two (l : Bytes) (h : 2 ≤ l.length) :
    l = l.take (l.length - 2) ++ [l.getD (l.length - 2) 0, l.getD (l.length - 1) 0] := by
  have h1 : l.length - 2 < l.length := by omega
  have h2 : l.length - 2 + 1 < l.length := by omega
  have e : l.length - 1 = l.length - 2 + 1 := by omega
  conv_lhs => rw [← List.take_append_drop (l.length - 2) l]
  congr 1
  rw [List.drop_eq_getElem_cons h1, List.drop_eq_getElem_cons h2,
    List.drop_eq_nil_of_le (by omega), e, List.getD_eq_getElem _ _ h1, List.getD_eq_getElem _ _ h2]

theorem sig_get_ok (env : Env) (s : Bytes) (h : env.calloc s.length = true) :
    sig_get env s = (true, fido_blob_t.of s, []) := by
  unfold sig_get
  simp [h, buf_read, fido_blob_t.of]

theorem cbor_bytestring_37 (b : Bytes) (h : b.length = 37) :
    cbor_bytestring b = 0x58 :: 0x25 :: b := by
  unfold cbor_bytestring
  simp only [h]
  rfl

theorem bytes_of (b : Bytes) : (fido_blob_t.of b).bytes = b := by
  simp [fido_blob_t.of, fido_blob_t.bytes]

theorem authdata_fake_ok (env : Env) (rp_id : Bytes) (h : { d : Bytes // d.length = 32 })
    (flags : UInt8) (sigcount : Nat) (ad : fido_blob_t)
    (hsha : env.SHA256 rp_id = some h)
    (hbuild : env.cbor_build_ok (fido_authdata_bytes env.host h.val flags sigcount) = true)
    (hser : env.cbor_serialize_ok (fido_authdata_bytes env.host h.val flags sigcount) = true)
    (had : ad.ptr = none) :
    authdata_fake env rp_id flags sigcount ad =
      (true,
        fido_blob_t.of (cbor_bytestring (fido_authdata_bytes env.host h.val flags sigcount))) := by
  unfold authdata_fake
  simp [hsha, hbuild, hser, had]

/-! ## The AUTHENTICATE reply -/

/-- The parse of a reply given by its parts: a flags byte, four counter bytes,
the signature bytes and the status word `0x9000`. -/
theorem parse_auth_reply_parts (env : Env) (sig ad : fido_blob_t) (rp_id : Bytes)
    (h : { d : Bytes // d.length = 32 }) (flags c0 c1 c2 c3 : UInt8) (s : Bytes)
    (hsha : env.SHA256 rp_id = some h)
    (halloc : env.calloc s.length = true)
    (hbuild : env.cbor_build_ok (h.val ++ [flags, c0, c1, c2, c3]) = true)
    (hser : env.cbor_serialize_ok (h.val ++ [flags, c0, c1, c2, c3]) = true)
    (had : ad.ptr = none) :
    parse_auth_reply env sig ad rp_id (flags :: c0 :: c1 :: c2 :: c3 :: (s ++ [0x90, 0x00])) =
      (FIDO_OK, fido_blob_t.of s,
        fido_blob_t.of (0x58 :: 0x25 :: (h.val ++ [flags, c0, c1, c2, c3]))) := by
  have hlen : (flags :: c0 :: c1 :: c2 :: c3 :: (s ++ [0x90, 0x00])).length = s.length + 7 := by
    simp
  have hsplit : flags :: c0 :: c1 :: c2 :: c3 :: (s ++ [0x90, 0x00]) =
      (flags :: c0 :: c1 :: c2 :: c3 :: s) ++ [0x90, 0x00] := by simp
  have hl5 : (flags :: c0 :: c1 :: c2 :: c3 :: s).length = s.length + 5 := by simp
  have hsw : sw ((flags :: c0 :: c1 :: c2 :: c3 :: (s ++ [0x90, 0x00])).getD (s.length + 7 - 2) 0)
      ((flags :: c0 :: c1 :: c2 :: c3 :: (s ++ [0x90, 0x00])).getD (s.length + 7 - 1) 0) =
      SW_NO_ERROR := by
    rw [hsplit, List.getD_append_right _ _ _ _ (by rw [hl5]; omega),
      List.getD_append_right _ _ _ _ (by rw [hl5]; omega), hl5]
    have e1 : s.length + 7 - 2 - (s.length + 5) = 0 := by omega
    have e2 : s.length + 7 - 1 - (s.length + 5) = 1 := by omega
    rw [e1, e2]
    decide
  have htake : (flags :: c0 :: c1 :: c2 :: c3 :: (s ++ [0x90, 0x00])).take (s.length + 7 - 2) =
      flags :: c0 :: c1 :: c2 :: c3 :: s := by
    rw [hsplit]
    exact List.take_left' (by rw [hl5]; omega)
  have hblob : fido_authdata_bytes env.host h.val flags (load_u32 env.host [c0, c1, c2, c3]) =
      h.val ++ [flags, c0, c1, c2, c3] := by
    simp [fido_authdata_bytes, store_load_u32]
  have hr1 : buf_read (flags :: c0 :: c1 :: c2 :: c3 :: s) 1 =
      some ([flags], c0 :: c1 :: c2 :: c3 :: s) :=
    buf_read_append [flags] _ 1 rfl
  have hr4 : buf_read (c0 :: c1 :: c2 :: c3 :: s) 4 = some ([c0, c1, c2, c3], s) :=
    buf_read_append [c0, c1, c2, c3] _ 4 rfl
  have hfake := authdata_fake_ok env rp_id h flags (load_u32 env.host [c0, c1, c2, c3]) ad hsha
    (by rw [hblob]; exact hbuild) (by rw [hblob]; exact hser) had
  rw [hblob, cbor_bytestring_37 _ (by simp [h.property])] at hfake
  unfold parse_auth_reply
  simp only [hlen, hsw, htake, hr1, hr4, sig_get_ok env s halloc, List.getD_cons_zero, hfake]
  simp

/-- The parse of a reply of at least 7 bytes that ends with `0x90 0x00`, by
positions in the reply. -/
theorem parse_auth_reply_index (env : Env) (sig ad : fido_blob_t) (rp_id reply : Bytes)
    (h : { d : Bytes // d.length = 32 })
    (hn : 7 ≤ reply.length)
    (hsw1 : reply.getD (reply.length - 2) 0 = 0x90)
    (hsw2 : reply.getD (reply.length - 1) 0 = 0x00)
    (hsha : env.SHA256 rp_id = some h)
    (halloc : env.calloc (reply.length - 7) = true)
    (hbuild : env.cbor_build_ok (h.val ++ reply.take 5) = true)
    (hser : env.cbor_serialize_ok (h.val ++ reply.take 5) = true)
    (had : ad.ptr = none) :
    parse_auth_reply env sig ad rp_id reply =
      (FIDO_OK, fido_blob_t.of ((reply.drop 5).take (reply.length - 7)),
        fido_blob_t.of (0x58 :: 0x25 ::
          (h.val ++ reply.getD 0 0 :: (reply.drop 1).take 4))) := by
  have hsplit := split_last_two reply (by omega)
  rw [hsw1, hsw2] at hsplit
  have hpre : (reply.take (reply.length - 2)).length = reply.length - 2 := by
    simp
  generalize reply.take (reply.length - 2) = pre at hsplit hpre
  match pre, hpre with
  | flags :: c0 :: c1 :: c2 :: c3 :: s, hpre =>
    have hs : s.length = reply.length - 7 := by
      simp only [List.length_cons] at hpre
      omega
    have hrep : reply = flags :: c0 :: c1 :: c2 :: c3 :: (s ++ [0x90, 0x00]) := by
      rw [hsplit]
      simp
    have e5 : reply.take 5 = [flags, c0, c1, c2, c3] := by rw [hrep]; simp
    have e0 : reply.getD 0 0 = flags := by rw [hrep]; simp
    have e1 : (reply.drop 1).take 4 = [c0, c1, c2, c3] := by rw [hrep]; simp
    have es : (reply.drop 5).take (reply.length - 7) = s := by
      rw [← hs, hrep]
      simp
    rw [e5] at hbuild hser
    rw [← hs] at halloc
    rw [e0, e1, es]
    have := parse_auth_reply_parts env sig ad rp_id h flags c0 c1 c2 c3 s hsha halloc
      hbuild hser had
    rw [← hrep] at this
    exact this
  | [], hpre | [_], hpre | [_, _], hpre | [_, _, _], hpre | [_, _, _, _], hpre =>
    simp only [List.length_cons, List.length_nil] at hpre
    omega

/-- C4: a reply of length `n ≥ 7` whose last two bytes are `0x90 0x00` is parsed
with `FIDO_OK` (given that SHA-256, the allocation of the signature and the
CBOR calls succeed and that the output blob `ad` is still empty, as
`u2f_authenticate_single` passes it): the signature is `reply[5 .. n-2)` and the
authdata is `0x58 0x25` followed by the 37 bytes `SHA256(rp_id) ‖ reply[0] ‖
reply[1..5)`, on either host byte order. -/
theorem parse_auth_reply_ok (env : Env) (sig ad : fido_blob_t) (rp_id reply : Bytes)
    (h : { d : Bytes // d.length = 32 })
    (hn : 7 ≤ reply.length)
    (hsw1 : reply.getD (reply.length - 2) 0 = 0x90)
    (hsw2 : reply.getD (reply.length - 1) 0 = 0x00)
    (hsha : env.SHA256 rp_id = some h)
    (halloc : env.calloc (reply.length - 7) = true)
    (hbuild : env.cbor_build_ok (h.val ++ reply.take 5) = true)
    (hser : env.cbor_serialize_ok (h.val ++ reply.take 5) = true)
    (had : ad.ptr = none) :
    parse_auth_reply env sig ad rp_id reply =
      (FIDO_OK, fido_blob_t.of ((reply.drop 5).take (reply.length - 7)),
        fido_blob_t.of (0x58 :: 0x25 ::
          (h.val ++ reply.getD 0 0 :: (reply.drop 1).take 4))) :=
  parse_auth_reply_index env sig ad rp_id reply h hn hsw1 hsw2 hsha halloc hbuild hser had

/-- A 9-byte reply with counter 42 on a big-endian host. -/
theorem parse_auth_reply_ok_witness :
    parse_auth_reply (sample_env .big) fido_blob_t.zero fido_blob_t.zero [0x61]
        [0x01, 0x00, 0x00, 0x00, 0x2a, 0x30, 0x44, 0x90, 0x00] =
      (FIDO_OK, fido_blob_t.of [0x30, 0x44],
        fido_blob_t.of (0x58 :: 0x25 ::
          (List.replicate 32 0x01 ++ [0x01, 0x00, 0x00, 0x00, 0x2a]))) :=
  parse_auth_reply_ok (sample_env .big) fido_blob_t.zero fido_blob_t.zero [0x61]
    [0x01, 0x00, 0x00, 0x00, 0x2a, 0x30, 0x44, 0x90, 0x00]
    ⟨List.replicate 32 0x01, by decide⟩
    (by decide) (by decide) (by decide) (by rfl) (by rfl) (by rfl) (by rfl) (by rfl)

/-! ## The REGISTER reply -/

theorem x5c_get_eq_some (env : Env) (buf rest : Bytes) (x5c : fido_blob_t)
    (h : x5c_get env buf = some (x5c, rest)) :
    ∃ c : Int, env.d2i_X509 buf = some c ∧ 0 < c ∧ c.toNat < buf.length ∧
      env.calloc c.toNat = true ∧
      x5c = fido_blob_t.of (buf.take c.toNat) ∧ rest = buf.drop c.toNat := by
  unfold x5c_get at h
  simp only at h
  split at h
  · simp at h
  · split at h
    · simp at h
    · rename_i c hc
      split at h
      · simp at h
      · rename_i hpos
        split at h
        · simp at h
        · rename_i hlt
          split at h
          · simp at h
          · rename_i hca
            split at h
            · simp at h
            · rename_i a b hr
              obtain ⟨hab, hal⟩ := buf_read_eq_some _ _ _ _ hr
              simp only [Option.some.injEq, Prod.mk.injEq] at h
              obtain ⟨rfl, rfl⟩ := h
              refine ⟨c, hc, by omega, by omega, by simpa using hca, ?_, ?_⟩
              · unfold buf_read at hr
                split at hr
                · simp at hr
                · simp only [Option.some.injEq, Prod.mk.injEq] at hr
                  rw [← hr.1]
                  simp [fido_blob_t.of]
                  omega
              · unfold buf_read at hr
                split at hr
                · simp at hr
                · simp only [Option.some.injEq, Prod.mk.injEq] at hr
                  exact hr.2.symm

theorem sig_get_eq_true (env : Env) (buf rest : Bytes) (sig : fido_blob_t)
    (h : sig_get env buf = (true, sig, rest)) :
    (env.calloc buf.length = true ∧ sig = fido_blob_t.of buf) ∨
      (env.calloc buf.length = false ∧ sig = ⟨none, buf.length⟩) := by
  unfold sig_get at h
  simp only at h
  by_cases hca : env.calloc buf.length = false
  · rw [if_pos hca] at h
    simp only [Prod.mk.injEq, true_and] at h
    exact Or.inr ⟨hca, h.1.symm⟩
  · rw [if_neg hca] at h
    left
    have hb : buf_read buf buf.length = some (buf, []) := by
      have := buf_read_append buf [] buf.length rfl
      simpa using this
    rw [hb] at h
    simp only [Prod.mk.injEq, true_and] at h
    exact ⟨by simpa using hca, by rw [← h.1]; rfl⟩

theorem fido_cred_set_fmt_eq_some (env : Env) (c c' : fido_cred_t) (fmt : String)
    (h : fido_cred_set_fmt env c fmt = some c') : c' = { c with fmt := some fmt } := by
  unfold fido_cred_set_fmt at h
  split at h
  · simpa using h.symm
  · simp at h

theorem fido_cred_set_authdata_eq_some (env : Env) (c c' : fido_cred_t) (b : fido_blob_t)
    (h : fido_cred_set_authdata env c b = some c') :
    b.ptr ≠ none ∧ c' = { c with authdata_cbor := some b.bytes } := by
  unfold fido_cred_set_authdata at h
  split at h
  · rename_i hb
    exact ⟨hb.1, by simpa using h.symm⟩
  · simp at h

theorem fido_cred_set_x509_eq_some (env : Env) (c c' : fido_cred_t) (b : fido_blob_t)
    (h : fido_cred_set_x509 env c b = some c') :
    b.ptr ≠ none ∧ c' = { c with x5c := some b.bytes } := by
  unfold fido_cred_set_x509 at h
  split at h
  · rename_i hb
    exact ⟨hb.1, by simpa using h.symm⟩
  · simp at h

theorem fido_cred_set_sig_eq_some (env : Env) (c c' : fido_cred_t) (b : fido_blob_t)
    (h : fido_cred_set_sig env c b = some c') :
    b.ptr ≠ none ∧ c' = { c with sig := some b.bytes } := by
  unfold fido_cred_set_sig at h
  split at h
  · rename_i hb
    exact ⟨hb.1, by simpa using h.symm⟩
  · simp at h

theorem cbor_blob_from_ec_point_eq_true (env : Env) (ec_point : Bytes) (b0 b : fido_blob_t)
    (h : cbor_blob_from_ec_point env ec_point b0 = (true, b)) :
    ∃ pk, ec_point.length = 65 ∧ ec_point.getD 0 0 = 0x04 ∧
      env.es256_pk_cbor ((ec_point.drop 1).take 32) ((ec_point.drop 33).take 32) = some pk ∧
      pk.length = 77 ∧ b = fido_blob_t.of pk := by
  unfold cbor_blob_from_ec_point at h
  split at h
  · simp at h
  · rename_i hfmt
    rw [not_or, not_not, not_not] at hfmt
    split at h
    · simp at h
    · rename_i pk hpk
      split at h
      · simp at h
      · rename_i hlen
        rw [not_not] at hlen
        simp only [Prod.mk.injEq, true_and] at h
        exact ⟨pk, hfmt.1, hfmt.2, hpk, hlen, h.symm⟩


theorem buf_write_ok (w : Bytes) (room : Nat) (src : Bytes) (h : src.length ≤ room) :
    buf_write (w, room) src = some (w ++ src, room - src.length) := by
  unfold buf_write
  rw [if_neg (by simp; omega)]

theorem store_u16_length (host : Endian) (n : Nat) : (store_u16 host n).length = 2 := by
  cases host <;> rfl

theorem store_u32_length (host : Endian) (n : Nat) : (store_u32 host n).length = 4 := by
  cases host <;> rfl

/-- The four `buf_write` calls of `encode_cred_authdata` fill the buffer exactly. -/
theorem buf_write_chain (a r k p : Bytes) (n : Nat) (ha : a.length = 37) (hr : r.length = 18)
    (hn : n = 37 + 18 + k.length + p.length) :
    (((buf_write ([], n) a).bind (fun w => buf_write w r)).bind
      (fun w => buf_write w k)).bind (fun w => buf_write w p) =
      some (a ++ r ++ k ++ p, 0) := by
  subst hn
  rw [buf_write_ok _ _ _ (by omega), Option.some_bind, buf_write_ok _ _ _ (by omega),
    Option.some_bind, buf_write_ok _ _ _ (by omega), Option.some_bind,
    buf_write_ok _ _ _ (by omega)]
  simp only [List.nil_append, Option.some.injEq, Prod.mk.injEq, true_and]
  omega

theorem encode_cred_authdata_eq_true (env : Env) (rp_id : Option Bytes) (kh : Bytes)
    (kh_len : UInt8) (pubkey : Bytes) (ad : fido_blob_t) (hkh : kh.length = kh_len.toNat)
    (h : encode_cred_authdata env rp_id kh kh_len pubkey = (true, ad)) :
    ∃ rp hd pk, rp_id = some rp ∧ env.SHA256 rp = some hd ∧
      pubkey.length = 65 ∧ pubkey.getD 0 0 = 0x04 ∧
      env.es256_pk_cbor ((pubkey.drop 1).take 32) ((pubkey.drop 33).take 32) = some pk ∧
      pk.length = 77 ∧
      ad = fido_blob_t.of
        (cbor_bytestring (cred_authdata_payload env.host hd.val kh_len kh pk)) := by
  unfold encode_cred_authdata at h
  rcases rp_id with _ | rp
  · simp at h
  simp only at h
  rcases hcb : cbor_blob_from_ec_point env pubkey fido_blob_t.zero with ⟨_ | _, pk_blob⟩
  · simp [hcb] at h
  simp only [hcb] at h
  obtain ⟨pk, hl, h0, hpk, hpl, rfl⟩ := cbor_blob_from_ec_point_eq_true _ _ _ _ hcb
  rcases hsha : env.SHA256 rp with _ | hd
  · simp [hsha] at h
  simp only [hsha] at h
  have hchain := buf_write_chain (fido_authdata_bytes env.host hd.val 0x41 0)
    (fido_attcred_raw_bytes env.host (List.replicate 16 0) ((kh_len.toNat <<< 8) % 65536))
    (kh.take kh_len.toNat) (fido_blob_t.of pk).bytes
    (37 + 18 + kh_len.toNat + (fido_blob_t.of pk).len)
    (by simp [fido_authdata_bytes, store_u32_length, hd.property])
    (by simp [fido_attcred_raw_bytes, store_u16_length])
    (by rw [bytes_of]; simp [fido_blob_t.of, hkh])
  rw [hchain] at h
  by_cases hca : env.calloc (37 + 18 + kh_len.toNat + (fido_blob_t.of pk).len) = false
  · rw [if_pos hca] at h
    simp at h
  rw [if_neg hca] at h
  simp only [List.replicate_zero, List.append_nil] at h
  have hk : kh.take kh_len.toNat = kh := by
    rw [← hkh]
    exact List.take_length kh
  rw [hk, bytes_of] at h
  split at h
  · simp at h
  · split at h
    · simp at h
    · simp only [Prod.mk.injEq, true_and] at h
      exact ⟨rp, hd, pk, rfl, hsha, hl, h0, hpk, hpl, h.symm⟩

/-- What a successful parse went through: every step of `parse_register_reply`
succeeded, with these intermediate values. -/
theorem parse_register_reply_steps (env : Env) (cred cred' : fido_cred_t) (reply : Bytes)
    (h : parse_register_reply env cred reply = (FIDO_OK, cred')) :
    2 ≤ reply.length ∧
    sw (reply.getD (reply.length - 2) 0) (reply.getD (reply.length - 1) 0) = SW_NO_ERROR ∧
    ∃ dummy buf1 pubkey buf2 khb buf3 kh buf4 x5c buf5 sig buf6 ad c1 c2 c3,
      buf_read (reply.take (reply.length - 2)) 1 = some (dummy, buf1) ∧
      dummy.getD 0 0 = 0x05 ∧
      buf_read buf1 65 = some (pubkey, buf2) ∧
      buf_read buf2 1 = some (khb, buf3) ∧
      env.calloc (khb.getD 0 0).toNat = true ∧
      buf_read buf3 (khb.getD 0 0).toNat = some (kh, buf4) ∧
      x5c_get env buf4 = some (x5c, buf5) ∧
      sig_get env buf5 = (true, sig, buf6) ∧
      encode_cred_authdata env cred.rp_id kh (khb.getD 0 0) pubkey = (true, ad) ∧
      fido_cred_set_fmt env cred "fido-u2f" = some c1 ∧
      fido_cred_set_authdata env c1 ad = some c2 ∧
      fido_cred_set_x509 env c2 x5c = some c3 ∧
      fido_cred_set_sig env c3 sig = some cred' := by
  unfold parse_register_reply at h
  simp only [List.getD_eq_getElem?_getD] at h ⊢
  by_cases hsw : reply.length < 2 ∨
      sw (reply[reply.length - 2]?.getD 0) (reply[reply.length - 1]?.getD 0) ≠ SW_NO_ERROR
  · rw [if_pos hsw] at h
    simp at h
  rw [if_neg hsw] at h
  rw [not_or, not_lt, not_not] at hsw
  refine ⟨hsw.1, hsw.2, ?_⟩
  rcases hr1 : buf_read (reply.take (reply.length - 2)) 1 with _ | ⟨dummy, buf1⟩
  · simp [hr1] at h
  simp only [hr1] at h
  by_cases hd : dummy[0]?.getD 0 ≠ 0x05
  · rw [if_pos hd] at h
    simp at h
  rw [if_neg hd] at h
  rw [not_not] at hd
  rcases hr2 : buf_read buf1 65 with _ | ⟨pubkey, buf2⟩
  · simp [hr2] at h
  simp only [hr2] at h
  rcases hr3 : buf_read buf2 1 with _ | ⟨khb, buf3⟩
  · simp [hr3] at h
  simp only [hr3] at h
  by_cases hca : env.calloc (khb[0]?.getD 0).toNat = false
  · rw [if_pos hca] at h
    simp at h
  rw [if_neg hca] at h
  rw [Bool.not_eq_false] at hca
  rcases hr4 : buf_read buf3 (khb[0]?.getD 0).toNat with _ | ⟨kh, buf4⟩
  · simp [hr4] at h
  simp only [hr4] at h
  rcases hx : x5c_get env buf4 with _ | ⟨x5c, buf5⟩
  · simp [hx] at h
  simp only [hx] at h
  rcases hsg : sig_get env buf5 with ⟨_ | _, sig, buf6⟩
  · simp [hsg] at h
  simp only [hsg] at h
  rcases hen : encode_cred_authdata env cred.rp_id kh (khb[0]?.getD 0) pubkey with ⟨_ | _, ad⟩
  · simp [hen] at h
  simp only [hen] at h
  rcases h1 : fido_cred_set_fmt env cred "fido-u2f" with _ | c1
  · simp [h1] at h
  simp only [h1] at h
  rcases h2 : fido_cred_set_authdata env c1 ad with _ | c2
  · simp [h2] at h
  simp only [h2] at h
  rcases h3 : fido_cred_set_x509 env c2 x5c with _ | c3
  · simp [h3] at h
  simp only [h3] at h
  rcases h4 : fido_cred_set_sig env c3 sig with _ | c4
  · simp [h4] at h
  simp only [h4, Prod.mk.injEq, true_and] at h
  subst h
  exact ⟨dummy, buf1, pubkey, buf2, khb, buf3, kh, buf4, x5c, buf5, sig, buf6, ad, c1, c2, c3,
    rfl, hd, hr2, hr3, hca, hr4, hx, hsg, hen, rfl, h2, h3, h4⟩

theorem singleton_of_length_one (l : Bytes) (h : l.length = 1) : l = [l.getD 0 0] := by
  match l, h with
  | [a], _ => rfl

/-- The shape of every REGISTER reply that `parse_register_reply` accepts, and
the credential it leaves: the reply is `0x05 ‖ P ‖ L ‖ KH ‖ X ‖ S ‖ 0x90 0x00`,
where `P` has 65 bytes and starts with `0x04`, `KH` has `L` bytes, `X` is the
non-empty part the certificate parser consumed and `S` the non-empty rest. -/
theorem parse_register_reply_inv (env : Env) (cred cred' : fido_cred_t) (reply : Bytes)
    (h : parse_register_reply env cred reply = (FIDO_OK, cred')) :
    ∃ (P KH X S : Bytes) (L : UInt8) (rp : Bytes) (hd : { d : Bytes // d.length = 32 })
      (pk : Bytes),
      reply = 0x05 :: (P ++ L :: (KH ++ (X ++ (S ++ [0x90, 0x00])))) ∧
      P.length = 65 ∧ KH.length = L.toNat ∧
      env.d2i_X509 (X ++ S) = some (X.length : Int) ∧ 0 < X.length ∧ 0 < S.length ∧
      P.getD 0 0 = 0x04 ∧ cred.rp_id = some rp ∧ env.SHA256 rp = some hd ∧
      env.es256_pk_cbor ((P.drop 1).take 32) ((P.drop 33).take 32) = some pk ∧
      pk.length = 77 ∧
      cred' = { cred with
        fmt := some "fido-u2f"
        authdata_cbor := some (cbor_bytestring (cred_authdata_payload env.host hd.val L KH pk))
        x5c := some X
        sig := some S } := by
  obtain ⟨hlen, hsw, dummy, buf1, pubkey, buf2, khb, buf3, kh, buf4, x5c, buf5, sig, buf6, ad,
    c1, c2, c3, hr1, hd5, hr2, hr3, -, hr4, hx, hsg, hen, h1, h2, h3, h4⟩ :=
    parse_register_reply_steps env cred cred' reply h
  obtain ⟨e1, l1⟩ := buf_read_eq_some _ _ _ _ hr1
  obtain ⟨e2, l2⟩ := buf_read_eq_some _ _ _ _ hr2
  obtain ⟨e3, l3⟩ := buf_read_eq_some _ _ _ _ hr3
  obtain ⟨e4, l4⟩ := buf_read_eq_some _ _ _ _ hr4
  obtain ⟨c, hc, hcpos, hclt, -, rfl, rfl⟩ := x5c_get_eq_some _ _ _ _ hx
  obtain ⟨rp, hd, pk, hrp, hsha, hpl, hp0, hpk, hpkl, rfl⟩ :=
    encode_cred_authdata_eq_true _ _ _ _ _ _ l4 hen
  have hc1 := fido_cred_set_fmt_eq_some _ _ _ _ h1
  obtain ⟨-, hc2⟩ := fido_cred_set_authdata_eq_some _ _ _ _ h2
  obtain ⟨-, hc3⟩ := fido_cred_set_x509_eq_some _ _ _ _ h3
  obtain ⟨hsp, hc4⟩ := fido_cred_set_sig_eq_some _ _ _ _ h4
  have hsig : sig = fido_blob_t.of (buf4.drop c.toNat) := by
    rcases sig_get_eq_true _ _ _ _ hsg with ⟨-, hs⟩ | ⟨-, hs⟩
    · exact hs
    · rw [hs] at hsp
      exact absurd rfl hsp
  have hsplit := split_last_two reply hlen
  rw [sw_no_error_iff] at hsw
  rw [hsw.1, hsw.2, e1, e2, e3, e4] at hsplit
  have hdummy := singleton_of_length_one dummy l1
  have hkhb := singleton_of_length_one khb l3
  rw [hd5] at hdummy
  refine ⟨pubkey, kh, buf4.take c.toNat, buf4.drop c.toNat, khb.getD 0 0, rp, hd, pk,
    ?_, l2, l4, ?_, ?_, ?_, hp0, hrp, hsha, hpk, hpkl, ?_⟩
  · conv_lhs => rw [hsplit]
    rw [hdummy]
    conv_lhs => rw [hkhb]
    have hb4 : buf4.take c.toNat ++ (buf4.drop c.toNat ++ [0x90, 0x00]) = buf4 ++ [0x90, 0x00] := by
      rw [← List.append_assoc, List.take_append_drop]
    rw [hb4]
    simp
  · rw [List.take_append_drop, hc]
    congr 1
    rw [List.length_take, Nat.min_eq_left (by omega)]
    exact (Int.toNat_of_nonneg (by omega)).symm
  · rw [List.length_take, Nat.min_eq_left (by omega)]
    omega
  · rw [List.length_drop]
    omega
  · rw [hc4, hc3, hc2, hc1, hsig, bytes_of, bytes_of, bytes_of]

/-- C5: on every successfully parsed REGISTER reply of length `n`, with
`L = reply[66]` and `c` the number of bytes the certificate parser consumed on
`reply[67+L .. n-2)`: the format is "fido-u2f", x5c is `reply[67+L .. 67+L+c)`
(`c` bytes), the signature is `reply[67+L+c .. n-2)` (`n-69-L-c` bytes), the
lengths add up to `n`, and the authdata wraps a payload of `37+18+L+77` bytes. -/
theorem parse_register_reply_x5c_sig (env : Env) (cred cred' : fido_cred_t) (reply : Bytes)
    (h : parse_register_reply env cred reply = (FIDO_OK, cred')) :
    ∃ L c : Nat, ∃ x5c sig payload : Bytes,
      L = (reply.getD 66 0).toNat ∧
      env.d2i_X509 ((reply.drop (67 + L)).take (reply.length - 2 - (67 + L))) = some (c : Int) ∧
      cred'.fmt = some "fido-u2f" ∧
      cred'.x5c = some x5c ∧ x5c = (reply.drop (67 + L)).take c ∧ x5c.length = c ∧
      cred'.sig = some sig ∧
      sig = (reply.drop (67 + L + c)).take (reply.length - 2 - (67 + L + c)) ∧
      1 + 65 + 1 + L + x5c.length + sig.length + 2 = reply.length ∧
      cred'.authdata_cbor = some (cbor_bytestring payload) ∧
      payload.length = 37 + 18 + L + 77 := by
  obtain ⟨P, KH, X, S, Lb, rp, hd, pk, hrep, hP, hKH, hd2i, hX, hS, -, -, -, -, hpk, hcred⟩ :=
    parse_register_reply_inv env cred cred' reply h
  have hA : reply = (0x05 :: (P ++ Lb :: KH)) ++ (X ++ (S ++ [0x90, 0x00])) := by
    rw [hrep]
    simp
  have hAl : (0x05 :: (P ++ Lb :: KH)).length = 67 + Lb.toNat := by
    simp only [List.length_cons, List.length_append, hP, hKH]
    omega
  have hAX : reply = ((0x05 :: (P ++ Lb :: KH)) ++ X) ++ (S ++ [0x90, 0x00]) := by
    rw [hrep]
    simp
  have hAXl : ((0x05 :: (P ++ Lb :: KH)) ++ X).length = 67 + Lb.toNat + X.length := by
    rw [List.length_append, hAl]
  have hn : reply.length = 67 + Lb.toNat + X.length + S.length + 2 := by
    rw [hAX, List.length_append, hAXl]
    simp only [List.length_append, List.length_cons, List.length_nil]
    omega
  have hL : reply.getD 66 0 = Lb := by
    rw [hrep, List.getD_cons_succ, List.getD_append_right _ _ _ _ (by omega), hP]
    rfl
  have hdropA : reply.drop (67 + Lb.toNat) = X ++ (S ++ [0x90, 0x00]) := by
    conv_lhs => rw [hA]
    exact List.drop_left' hAl
  have hdropAX : reply.drop (67 + Lb.toNat + X.length) = S ++ [0x90, 0x00] := by
    conv_lhs => rw [hAX]
    exact List.drop_left' hAXl
  have hXS : (X ++ (S ++ [0x90, 0x00])).take (reply.length - 2 - (67 + Lb.toNat)) = X ++ S := by
    rw [← List.append_assoc]
    exact List.take_left' (by rw [hn, List.length_append]; omega)
  refine ⟨Lb.toNat, X.length, X, S, cred_authdata_payload env.host hd.val Lb KH pk,
    by rw [hL], ?_, by rw [hcred], by rw [hcred], ?_, rfl, by rw [hcred], ?_, ?_,
    by rw [hcred], ?_⟩
  · rw [hdropA, hXS]
    exact hd2i
  · rw [hdropA]
    exact (List.take_left' rfl).symm
  · rw [hdropAX]
    exact (List.take_left' (by rw [hn]; omega)).symm
  · omega
  · simp only [cred_authdata_payload, fido_authdata_bytes, fido_attcred_raw_bytes,
      List.length_append, List.length_cons, List.length_nil, List.length_replicate,
      store_u16_length, store_u32_length, hd.property, hKH, hpk]

set_option maxRecDepth 100000 in
/-- The scenario reply: a 64-byte key handle, a 200-byte certificate and a
70-byte signature give x5c of 200 bytes, a signature of 70 bytes and an
authdata of 2 + 196 bytes. -/
theorem parse_register_reply_x5c_sig_witness :
    ((parse_register_reply (sample_env .little) sample_cred scenario_register_reply).1 = FIDO_OK ∧
      (parse_register_reply (sample_env .little) sample_cred scenario_register_reply).2.x5c =
        some (0x30 :: 0xc6 :: List.replicate 198 0xcc) ∧
      (parse_register_reply (sample_env .little) sample_cred scenario_register_reply).2.sig =
        some (List.replicate 70 0xdd) ∧
      (parse_register_reply (sample_env .little) sample_cred
        scenario_register_reply).2.authdata_cbor.map List.length = some (2 + 196)) ∧
    ∃ L c : Nat, ∃ x5c sig payload : Bytes,
      L = (scenario_register_reply.getD 66 0).toNat ∧
      (sample_env .little).d2i_X509 ((scenario_register_reply.drop (67 + L)).take
        (scenario_register_reply.length - 2 - (67 + L))) = some (c : Int) ∧
      (parse_register_reply (sample_env .little) sample_cred scenario_register_reply).2.fmt =
        some "fido-u2f" ∧
      (parse_register_reply (sample_env .little) sample_cred scenario_register_reply).2.x5c =
        some x5c ∧
      x5c = (scenario_register_reply.drop (67 + L)).take c ∧ x5c.length = c ∧
      (parse_register_reply (sample_env .little) sample_cred scenario_register_reply).2.sig =
        some sig ∧
      sig = (scenario_register_reply.drop (67 + L + c)).take
        (scenario_register_reply.length - 2 - (67 + L + c)) ∧
      1 + 65 + 1 + L + x5c.length + sig.length + 2 = scenario_register_reply.length ∧
      (parse_register_reply (sample_env .little) sample_cred
        scenario_register_reply).2.authdata_cbor = some (cbor_bytestring payload) ∧
      payload.length = 37 + 18 + L + 77 :=
  ⟨by decide,
    parse_register_reply_x5c_sig (sample_env .little) sample_cred _ scenario_register_reply
      (Prod.ext (by decide) rfl)⟩

/-! ## The attested authenticator data -/

theorem store_u16_shift_little (L : UInt8) :
    store_u16 .little ((L.toNat <<< 8) % 65536) = [0x00, L] := by
  have hL : L.toNat < 2 ^ 8 := L.toNat_lt
  have e : L.toNat <<< 8 = L.toNat * 256 := by rw [Nat.shiftLeft_eq]
  simp only [store_u16, e]
  rw [ofNat_eq_of_mod 0 (L.toNat * 256 % 65536 % 256) (by change _ = 0; omega),
    ofNat_eq_of_mod L (L.toNat * 256 % 65536 / 256 % 256) (by omega)]

theorem store_u16_shift_big (L : UInt8) :
    store_u16 .big ((L.toNat <<< 8) % 65536) = [L, 0x00] := by
  have hL : L.toNat < 2 ^ 8 := L.toNat_lt
  have e : L.toNat <<< 8 = L.toNat * 256 := by rw [Nat.shiftLeft_eq]
  simp only [store_u16, e]
  rw [ofNat_eq_of_mod 0 (L.toNat * 256 % 65536 % 256) (by change _ = 0; omega),
    ofNat_eq_of_mod L (L.toNat * 256 % 65536 / 256 % 256) (by omega)]

/-- On a little-endian host the bytes `encode_cred_authdata` wraps are the
layout of the spec. -/
theorem cred_authdata_payload_little (h : Bytes) (L : UInt8) (kh pk : Bytes)
    (hkh : kh.length = L.toNat) :
    cred_authdata_payload .little h L kh pk = spec_cred_authdata h kh pk := by
  have hL : L.toNat < 2 ^ 8 := L.toNat_lt
  unfold cred_authdata_payload spec_cred_authdata fido_authdata_bytes fido_attcred_raw_bytes
  rw [store_u16_shift_little, store_u32_zero, hkh,
    ofNat_eq_of_mod 0 (L.toNat / 256 % 256) (by change _ = 0; omega),
    ofNat_eq_of_mod L (L.toNat % 256) (by omega)]
  simp only [List.append_assoc]

/-- On a big-endian host the two id-length bytes are `[L, 0x00]`. -/
theorem cred_authdata_payload_big (h : Bytes) (L : UInt8) (kh pk : Bytes) :
    cred_authdata_payload .big h L kh pk =
      h ++ [0x41] ++ [0, 0, 0, 0] ++ List.replicate 16 0 ++ [L, 0x00] ++ kh ++ pk := by
  unfold cred_authdata_payload fido_authdata_bytes fido_attcred_raw_bytes
  rw [store_u16_shift_big, store_u32_zero]
  simp

/-- On a little-endian host every successfully parsed REGISTER reply, with
point `P` and key handle `KH`, leaves as authdata the CBOR byte string of the
`37 + 18 + L + 77` bytes of the spec's layout around `SHA256(rp_id)`, `KH` and
the 77-byte COSE key of `P[1..33)` and `P[33..65)`. -/
theorem parse_register_reply_authdata_little (env : Env) (cred cred' : fido_cred_t)
    (reply : Bytes) (hhost : env.host = .little)
    (h : parse_register_reply env cred reply = (FIDO_OK, cred')) :
    ∃ (rp : Bytes) (hd : { d : Bytes // d.length = 32 }) (pk : Bytes),
      cred.rp_id = some rp ∧ env.SHA256 rp = some hd ∧
      env.es256_pk_cbor (((reply.drop 1).take 65).drop 1 |>.take 32)
        (((reply.drop 1).take 65).drop 33 |>.take 32) = some pk ∧
      pk.length = 77 ∧
      (spec_cred_authdata hd.val ((reply.drop 67).take (reply.getD 66 0).toNat) pk).length =
        37 + 18 + (reply.getD 66 0).toNat + 77 ∧
      cred'.authdata_cbor = some (cbor_bytestring
        (spec_cred_authdata hd.val ((reply.drop 67).take (reply.getD 66 0).toNat) pk)) := by
  obtain ⟨P, KH, X, S, Lb, rp, hd, pk, hrep, hP, hKH, -, -, -, -, hrp, hsha, hpk, hpkl,
    hcred⟩ :=
    parse_register_reply_inv env cred cred' reply h
  have hL : reply.getD 66 0 = Lb := by
    rw [hrep, List.getD_cons_succ, List.getD_append_right _ _ _ _ (by omega), hP]
    rfl
  have hPe : (reply.drop 1).take 65 = P := by
    rw [hrep]
    exact List.take_left' hP
  have hKe : (reply.drop 67).take Lb.toNat = KH := by
    have : reply = (0x05 :: (P ++ [Lb])) ++ (KH ++ (X ++ (S ++ [0x90, 0x00]))) := by
      rw [hrep]
      simp
    rw [this, List.drop_left' (by simp [hP])]
    exact List.take_left' hKH
  rw [hL, hPe, hKe]
  refine ⟨rp, hd, pk, hrp, hsha, hpk, hpkl, ?_, ?_⟩
  · simp only [spec_cred_authdata, List.length_append, List.length_cons, List.length_nil,
      List.length_replicate, hd.property, hKH, hpkl]
  · rw [hcred, hhost, cred_authdata_payload_little _ _ _ _ hKH]

set_option maxRecDepth 100000 in
/-- The reply `sample_register_reply` on a little-endian host. -/
theorem parse_register_reply_authdata_little_witness :
    ∃ (rp : Bytes) (hd : { d : Bytes // d.length = 32 }) (pk : Bytes),
      sample_cred.rp_id = some rp ∧ (sample_env .little).SHA256 rp = some hd ∧
      (sample_env .little).es256_pk_cbor
        (((sample_register_reply.drop 1).take 65).drop 1 |>.take 32)
        (((sample_register_reply.drop 1).take 65).drop 33 |>.take 32) = some pk ∧
      pk.length = 77 ∧
      (spec_cred_authdata hd.val
        ((sample_register_reply.drop 67).take (sample_register_reply.getD 66 0).toNat) pk).length =
        37 + 18 + (sample_register_reply.getD 66 0).toNat + 77 ∧
      (parse_register_reply (sample_env .little) sample_cred sample_register_reply).2.authdata_cbor
        = some (cbor_bytestring (spec_cred_authdata hd.val
          ((sample_register_reply.drop 67).take (sample_register_reply.getD 66 0).toNat) pk)) :=
  parse_register_reply_authdata_little (sample_env .little) sample_cred _ sample_register_reply
    rfl (Prod.ext (by decide) rfl)

/-- On a big-endian host every successfully parsed REGISTER reply, with key
handle length `L = reply[66]`, leaves an authdata whose two id-length bytes
are `[L, 0x00]`, whatever the certificate parser, the hash and the key encoder
are. -/
theorem parse_register_reply_authdata_big (env : Env) (cred cred' : fido_cred_t)
    (reply : Bytes) (hhost : env.host = .big)
    (h : parse_register_reply env cred reply = (FIDO_OK, cred')) :
    ∃ (rp : Bytes) (hd : { d : Bytes // d.length = 32 }) (pk : Bytes),
      cred.rp_id = some rp ∧ env.SHA256 rp = some hd ∧ pk.length = 77 ∧
      cred'.authdata_cbor = some (cbor_bytestring
        (hd.val ++ [0x41] ++ [0, 0, 0, 0] ++ List.replicate 16 0 ++ [reply.getD 66 0, 0x00] ++
          (reply.drop 67).take (reply.getD 66 0).toNat ++ pk)) := by
  obtain ⟨P, KH, X, S, Lb, rp, hd, pk, hrep, hP, hKH, -, -, -, -, hrp, hsha, -, hpkl,
    hcred⟩ :=
    parse_register_reply_inv env cred cred' reply h
  have hL : reply.getD 66 0 = Lb := by
    rw [hrep, List.getD_cons_succ, List.getD_append_right _ _ _ _ (by omega), hP]
    rfl
  have hKe : (reply.drop 67).take Lb.toNat = KH := by
    have : reply = (0x05 :: (P ++ [Lb])) ++ (KH ++ (X ++ (S ++ [0x90, 0x00]))) := by
      rw [hrep]
      simp
    rw [this, List.drop_left' (by simp [hP])]
    exact List.take_left' hKH
  rw [hL, hKe]
  refine ⟨rp, hd, pk, hrp, hsha, hpkl, ?_⟩
  rw [hcred, hhost, cred_authdata_payload_big]

set_option maxRecDepth 100000 in
/-- C3 (the code at a failing input): on a big-endian host the reply
`genuine_register_reply` (a DER certificate of 263 bytes, a key handle of 2
bytes) is parsed successfully, certificate and signature are set as received,
and the authdata carries the id-length bytes `0x02 0x00` where the layout of
the claim has the big-endian encoding `0x00 0x02`. -/
theorem parse_register_reply_big_endian_id_len :
    (parse_register_reply (der_env .big) sample_cred genuine_register_reply).1 = FIDO_OK ∧
    (parse_register_reply (der_env .big) sample_cred genuine_register_reply).2.x5c =
      some genuine_cert ∧
    (parse_register_reply (der_env .big) sample_cred genuine_register_reply).2.sig =
      some genuine_sig ∧
    (parse_register_reply (der_env .big) sample_cred genuine_register_reply).2.authdata_cbor =
      some (0x58 :: 0x86 :: (sha256_a ++ [0x41] ++ [0, 0, 0, 0] ++ List.replicate 16 0 ++
        [0x02, 0x00] ++ [0xb1, 0xb2] ++ genuine_pk)) ∧
    cbor_bytestring (spec_cred_authdata sha256_a [0xb1, 0xb2] genuine_pk) =
      0x58 :: 0x86 :: (sha256_a ++ [0x41] ++ [0, 0, 0, 0] ++ List.replicate 16 0 ++
        [0x00, 0x02] ++ [0xb1, 0xb2] ++ genuine_pk) ∧
    (parse_register_reply (der_env .big) sample_cred genuine_register_reply).2.authdata_cbor ≠
      some (cbor_bytestring (spec_cred_authdata sha256_a [0xb1, 0xb2] genuine_pk)) := by
  decide

/-! ## The poll loop -/

theorem tx_eq (dev : fido_dev_t) (apdu : iso7816_apdu_t) :
    tx dev apdu = (tx_outcome dev 0,
      { dev with tx_script := dev.tx_script.tail, log := dev.log ++ [Event.tx apdu] }) := by
  unfold tx tx_outcome
  cases h : dev.tx_script <;> simp

theorem rx_cons (dev : fido_dev_t) (cap : Nat) (ms : Int) (r : Option Bytes)
    (s : List (Option Bytes)) (h : dev.rx_script = r :: s) :
    rx dev cap ms = (r, { dev with rx_script := s, log := dev.log ++ [Event.rx cap ms] }) := by
  unfold rx
  rw [h]

/-- One pass through the loop body when `tx` succeeds and `rx` delivers at least
two bytes: the loop goes round again exactly when the first two bytes of the
reply are `0x69 0x85`. -/
theorem poll_step (apdu : iso7816_apdu_t) (cap : Nat) (ms : Int) (fuel : Nat)
    (dev dev1 dev2 : fido_dev_t) (reply : Bytes)
    (htx : tx dev apdu = (true, dev1)) (hrx : rx dev1 cap ms = (some reply, dev2))
    (hlen : 2 ≤ reply.length) :
    poll apdu cap ms (fuel + 1) dev =
      if reply.getD 0 0 = 0x69 ∧ reply.getD 1 0 = 0x85 then
        poll apdu cap ms fuel (usleep dev2 (poll_usec ms))
      else some (.ok reply, usleep dev2 (poll_usec ms)) := by
  rw [poll]
  simp only [htx, hrx]
  rw [if_neg (by omega)]
  simp only [sw_conditions_iff, poll_usec]

/-- The loop never ends with a reply that starts with `0x69 0x85`. -/
theorem poll_ok_reply (apdu : iso7816_apdu_t) (cap : Nat) (ms : Int) :
    ∀ (fuel : Nat) (dev dev' : fido_dev_t) (reply : Bytes),
      poll apdu cap ms fuel dev = some (.ok reply, dev') →
      2 ≤ reply.length ∧ ¬ (reply.getD 0 0 = 0x69 ∧ reply.getD 1 0 = 0x85) := by
  intro fuel
  induction fuel with
  | zero =>
    intro dev dev' reply h
    simp [poll] at h
  | succ fuel ih =>
    intro dev dev' reply h
    rw [poll] at h
    rcases htx : tx dev apdu with ⟨_ | _, dev1⟩
    · simp [htx] at h
    simp only [htx] at h
    rcases hrx : rx dev1 cap ms with ⟨_ | r, dev2⟩
    · simp [hrx] at h
    simp only [hrx] at h
    by_cases hlen : r.length < 2
    · simp [hlen] at h
    rw [if_neg hlen] at h
    by_cases hsw : sw (r.getD 0 0) (r.getD 1 0) = SW_CONDITIONS_NOT_SATISFIED
    · rw [if_pos hsw] at h
      exact ih _ _ _ h
    · rw [if_neg hsw] at h
      simp only [Option.some.injEq, Prod.mk.injEq, Except.ok.injEq] at h
      obtain ⟨rfl, -⟩ := h
      rw [sw_conditions_iff] at hsw
      exact ⟨by omega, hsw⟩

/-- The loop on a device whose coming `rx` calls deliver first the replies
`retries`, all starting with `0x69 0x85`, and then a reply of at least two bytes
that does not, while the `tx` calls succeed: with enough fuel it ends with that
reply after `retries.length + 1` passes. -/
theorem poll_retries (apdu : iso7816_apdu_t) (cap : Nat) (ms : Int) (retries : List Bytes) :
    ∀ (fuel : Nat) (dev : fido_dev_t) (reply : Bytes) (rest : List (Option Bytes)),
      retries.length + 1 ≤ fuel →
      (∀ i, i < retries.length + 1 → tx_outcome dev i = true) →
      (∀ r ∈ retries, starts_with_6985 r) →
      dev.rx_script = retries.map some ++ some reply :: rest →
      2 ≤ reply.length → ¬ (reply.getD 0 0 = 0x69 ∧ reply.getD 1 0 = 0x85) →
      poll apdu cap ms fuel dev =
        some (.ok reply,
          ⟨dev.tx_script.drop (retries.length + 1), dev.tx_rest, rest, dev.rx_rest,
            dev.log ++ round_trips apdu cap ms (retries.length + 1)⟩) := by
  induction retries with
  | nil =>
    intro fuel dev reply rest hfuel htx _ hrx hlen hne
    obtain ⟨fuel, rfl⟩ : ∃ f, fuel = f + 1 := ⟨fuel - 1, by simp at hfuel; omega⟩
    have h0 := htx 0 (by simp)
    have htx' := tx_eq dev apdu
    rw [h0] at htx'
    have hrx' := rx_cons (⟨dev.tx_script.tail, dev.tx_rest, dev.rx_script, dev.rx_rest,
      dev.log ++ [Event.tx apdu]⟩ : fido_dev_t) cap ms (some reply) rest (by simpa using hrx)
    rw [poll_step apdu cap ms fuel dev _ _ reply htx' hrx' hlen, if_neg hne]
    simp [usleep, round_trips, round_trip, List.drop_one]
  | cons r retries ih =>
    intro fuel dev reply rest hfuel htx hall hrx hlen hne
    obtain ⟨fuel, rfl⟩ : ∃ f, fuel = f + 1 := ⟨fuel - 1, by simp at hfuel; omega⟩
    have h0 := htx 0 (by simp)
    have htx' := tx_eq dev apdu
    rw [h0] at htx'
    have hr := hall r (by simp)
    have hrx' := rx_cons (⟨dev.tx_script.tail, dev.tx_rest, dev.rx_script, dev.rx_rest,
      dev.log ++ [Event.tx apdu]⟩ : fido_dev_t) cap ms (some r)
      (retries.map some ++ some reply :: rest) (by simpa using hrx)
    rw [poll_step apdu cap ms fuel dev _ _ r htx' hrx' hr.1, if_pos hr.2]
    rw [ih fuel _ reply rest (by simp at hfuel ⊢; omega) ?_ (fun x hx => hall x (by simp [hx]))
      (by simp [usleep]) hlen hne]
    · simp [usleep, round_trips, round_trip, List.drop_one, List.append_assoc]
    · intro i hi
      have := htx (i + 1) (by simp at hi ⊢; omega)
      simp only [tx_outcome, usleep] at this ⊢
      cases hs : dev.tx_script with
      | nil => simpa [hs] using this
      | cons b s => simpa [hs] using this

/-- The loop reports no error other than a transport error. -/
theorem poll_error (apdu : iso7816_apdu_t) (cap : Nat) (ms : Int) :
    ∀ (fuel : Nat) (dev dev' : fido_dev_t) (e : fido_err),
      poll apdu cap ms fuel dev = some (.error e, dev') →
      e = FIDO_ERR_TX ∨ e = FIDO_ERR_RX := by
  intro fuel
  induction fuel with
  | zero =>
    intro dev dev' e h
    simp [poll] at h
  | succ fuel ih =>
    intro dev dev' e h
    rw [poll] at h
    rcases htx : tx dev apdu with ⟨_ | _, dev1⟩
    · simp only [htx, Option.some.injEq, Prod.mk.injEq, Except.error.injEq] at h
      exact Or.inl h.1.symm
    simp only [htx] at h
    rcases hrx : rx dev1 cap ms with ⟨_ | r, dev2⟩
    · simp only [hrx, Option.some.injEq, Prod.mk.injEq, Except.error.injEq] at h
      exact Or.inr h.1.symm
    simp only [hrx] at h
    by_cases hlen : r.length < 2
    · simp only [hlen, if_true, Option.some.injEq, Prod.mk.injEq, Except.error.injEq] at h
      exact Or.inr h.1.symm
    rw [if_neg hlen] at h
    by_cases hsw : sw (r.getD 0 0) (r.getD 1 0) = SW_CONDITIONS_NOT_SATISFIED
    · rw [if_pos hsw] at h
      exact ih _ _ _ h
    · rw [if_neg hsw] at h
      simp at h

/-- Whatever `do_auth` returns is either an error that leaves `*sig` and `*ad`
as they were, or the result of `parse_auth_reply` on a reply of at least two
bytes that does not start with `0x69 0x85`. -/
theorem do_auth_parser_input (env : Env) (fuel : Nat) (dev dev' : fido_dev_t)
    (cdh key_id sig ad sig' ad' : fido_blob_t) (rp_id : Option Bytes) (ms : Int) (r : fido_err)
    (h : do_auth env fuel dev cdh rp_id key_id sig ad ms = some (r, sig', ad', dev')) :
    (r ≠ FIDO_OK ∧ sig' = sig ∧ ad' = ad) ∨
      ∃ rp reply, rp_id = some rp ∧ 2 ≤ reply.length ∧
        ¬ (reply.getD 0 0 = 0x69 ∧ reply.getD 1 0 = 0x85) ∧
        parse_auth_reply env sig ad rp reply = (r, sig', ad') := by
  unfold do_auth at h
  rcases rp_id with _ | rp
  · simp only [Option.some.injEq, Prod.mk.injEq] at h
    exact Or.inl ⟨by rw [← h.1]; decide, h.2.1.symm, h.2.2.1.symm⟩
  simp only at h
  split at h
  · simp only [Option.some.injEq, Prod.mk.injEq] at h
    exact Or.inl ⟨by rw [← h.1]; decide, h.2.1.symm, h.2.2.1.symm⟩
  split at h
  · simp only [Option.some.injEq, Prod.mk.injEq] at h
    exact Or.inl ⟨by rw [← h.1]; decide, h.2.1.symm, h.2.2.1.symm⟩
  split at h
  · simp only [Option.some.injEq, Prod.mk.injEq] at h
    exact Or.inl ⟨by rw [← h.1]; decide, h.2.1.symm, h.2.2.1.symm⟩
  rename_i apdu _
  rcases hp : poll apdu 128 ms fuel dev with _ | ⟨e | reply, d⟩
  · simp [hp] at h
  · simp only [hp, Option.some.injEq, Prod.mk.injEq] at h
    have he := poll_error _ _ _ _ _ _ _ hp
    refine Or.inl ⟨?_, h.2.1.symm, h.2.2.1.symm⟩
    rw [← h.1]
    rcases he with rfl | rfl <;> decide
  · simp only [hp, Option.some.injEq, Prod.mk.injEq] at h
    have hr := poll_ok_reply _ _ _ _ _ _ _ hp
    refine Or.inr ⟨rp, reply, rfl, hr.1, hr.2, ?_⟩
    obtain ⟨h1, h2, h3, -⟩ := h
    rw [← h1, ← h2, ← h3]

theorem send_dummy_register_ne_ok_pattern (env : Env) (fuel : Nat) (dev dev' : fido_dev_t)
    (ms : Int) (r : fido_err)
    (h : send_dummy_register env fuel dev ms = some (r, dev')) (hr : r ≠ FIDO_OK) :
    r = FIDO_ERR_INTERNAL ∨ r = FIDO_ERR_TX ∨ r = FIDO_ERR_RX := by
  unfold send_dummy_register at h
  simp only at h
  split at h
  · simp only [Option.some.injEq, Prod.mk.injEq] at h
    exact Or.inl h.1.symm
  · rename_i apdu _
    rcases hp : poll apdu 2048 ms fuel dev with _ | ⟨e | reply, d⟩
    · simp [hp] at h
    · simp only [hp, Option.some.injEq, Prod.mk.injEq] at h
      rw [← h.1]
      exact Or.inr (poll_error _ _ _ _ _ _ _ hp)
    · simp only [hp, Option.some.injEq, Prod.mk.injEq] at h
      exact absurd h.1.symm hr

theorem count_round_trips (apdu : iso7816_apdu_t) (cap : Nat) (ms : Int) (n : Nat) :
    count_tx (round_trips apdu cap ms n) = n ∧ count_rx (round_trips apdu cap ms n) = n ∧
      count_usleep (round_trips apdu cap ms n) = n := by
  induction n with
  | zero => exact ⟨rfl, rfl, rfl⟩
  | succ n ih =>
    obtain ⟨h1, h2, h3⟩ := ih
    unfold count_tx count_rx count_usleep at *
    simp only [round_trips, round_trip, List.cons_append, List.nil_append, List.filter_cons,
      List.length_cons, if_true, h1, h2, h3]
    simp
    exact ⟨h1, h2, h3⟩

/-- C7 (as stated, refuted): when the device answers `69 85` three times and
then a valid REGISTER response, the loop makes four `tx`/`rx` round-trips and
four sleeps, not three: it sleeps after every reply, the last one included. -/
theorem poll_three_retries_four_sleeps :
    (poll sample_apdu 2048 (-1) 10
        (scripted_dev [[0x69, 0x85], [0x69, 0x85], [0x69, 0x85], sample_register_reply])).map
      (fun p => (p.1, p.2.log, count_tx p.2.log, count_rx p.2.log, count_usleep p.2.log)) =
      some (.ok sample_register_reply, round_trips sample_apdu 2048 (-1) 4, 4, 4, 4) := by
  decide

/-- C7 (amended): for every `k`, if the device answers the APDU with the
two-byte reply `69 85` exactly `k` times and then with a response of at least
two bytes that does not start with `69 85` (and every `tx` succeeds), then with
fuel for `k+1` passes the loop ends with that response after exactly `k+1`
`tx`/`rx` round-trips and exactly `k+1` sleeps. -/
theorem poll_round_trips_and_sleeps (apdu : iso7816_apdu_t) (cap : Nat) (ms : Int) (k fuel : Nat)
    (dev : fido_dev_t) (reply : Bytes) (rest : List (Option Bytes))
    (hfuel : k + 1 ≤ fuel) (htx : ∀ i, i < k + 1 → tx_outcome dev i = true)
    (hrx : dev.rx_script = List.replicate k (some [0x69, 0x85]) ++ some reply :: rest)
    (hlen : 2 ≤ reply.length) (hne : ¬ (reply.getD 0 0 = 0x69 ∧ reply.getD 1 0 = 0x85)) :
    ∃ dev', poll apdu cap ms fuel dev = some (.ok reply, dev') ∧
      dev'.log = dev.log ++ round_trips apdu cap ms (k + 1) ∧
      dev'.rx_script = rest ∧
      count_tx (round_trips apdu cap ms (k + 1)) = k + 1 ∧
      count_rx (round_trips apdu cap ms (k + 1)) = k + 1 ∧
      count_usleep (round_trips apdu cap ms (k + 1)) = k + 1 := by
  have h := poll_retries apdu cap ms (List.replicate k [0x69, 0x85]) fuel dev reply rest
    (by simpa using hfuel) (by simpa using htx)
    (by
      intro r hr
      rw [List.eq_of_mem_replicate hr]
      decide)
    (by simpa using hrx) hlen hne
  rw [List.length_replicate] at h
  obtain ⟨c1, c2, c3⟩ := count_round_trips apdu cap ms (k + 1)
  exact ⟨_, h, rfl, rfl, c1, c2, c3⟩

/-- Three answers `69 85` and then `sample_register_reply`: four passes. -/
theorem poll_round_trips_and_sleeps_witness :
    ∃ dev', poll sample_apdu 2048 (-1) 4
        (scripted_dev [[0x69, 0x85], [0x69, 0x85], [0x69, 0x85], sample_register_reply]) =
        some (.ok sample_register_reply, dev') ∧
      dev'.log = (scripted_dev [[0x69, 0x85], [0x69, 0x85], [0x69, 0x85],
        sample_register_reply]).log ++ round_trips sample_apdu 2048 (-1) (3 + 1) ∧
      dev'.rx_script = [] ∧
      count_tx (round_trips sample_apdu 2048 (-1) (3 + 1)) = 3 + 1 ∧
      count_rx (round_trips sample_apdu 2048 (-1) (3 + 1)) = 3 + 1 ∧
      count_usleep (round_trips sample_apdu 2048 (-1) (3 + 1)) = 3 + 1 :=
  poll_round_trips_and_sleeps sample_apdu 2048 (-1) 3 4
    (scripted_dev [[0x69, 0x85], [0x69, 0x85], [0x69, 0x85], sample_register_reply])
    sample_register_reply [] (by decide) (by decide) (by decide) (by decide) (by decide)

/-! ## Exchanges with a scripted device -/

theorem dev_after_dev_after (dev : fido_dev_t) (a b : Nat) (r1 r2 : List (Option Bytes))
    (e1 e2 : List Event) :
    dev_after (dev_after dev a r1 e1) b r2 e2 = dev_after dev (a + b) r2 (e1 ++ e2) := by
  simp [dev_after, List.drop_drop, Nat.add_comm, List.append_assoc]

theorem dev_after_zero (dev : fido_dev_t) : dev_after dev 0 dev.rx_script [] = dev := by
  simp [dev_after]

theorem tx_outcome_dev_after (dev : fido_dev_t) (a : Nat) (r : List (Option Bytes))
    (e : List Event) (j : Nat) : tx_outcome (dev_after dev a r e) j = tx_outcome dev (a + j) := by
  simp only [tx_outcome, dev_after, List.getD_eq_getElem?_getD, List.getElem?_drop]

theorem iso7816_auth_chain (env : Env) (p1 : u2f_p1) (challenge rp_id_hash : Bytes)
    (key_id : fido_blob_t) (hc : challenge.length = 32) (hh : rp_id_hash.length = 32)
    (hlen : key_id.len ≤ 255) (hiso : env.iso7816_ok (65 + key_id.len) = true) :
    ((((iso7816_new env U2F_CMD_AUTH p1
        (2 * SHA256_DIGEST_LENGTH + 1 + (UInt8.ofNat key_id.len).toNat)).bind
        (fun a => iso7816_add a challenge)).bind
        (fun a => iso7816_add a rp_id_hash)).bind
        (fun a => iso7816_add a [UInt8.ofNat key_id.len])).bind
        (fun a => iso7816_add a ((key_id.ptr.getD []).take (UInt8.ofNat key_id.len).toNat)) =
      some (auth_apdu p1 challenge rp_id_hash key_id) := by
  have hl : (UInt8.ofNat key_id.len).toNat = key_id.len := by
    rw [toNat_ofNat]
    omega
  have hcap : 2 * SHA256_DIGEST_LENGTH + 1 + key_id.len = 65 + key_id.len := by
    simp only [SHA256_DIGEST_LENGTH]
  have htk : ((key_id.ptr.getD []).take key_id.len).length ≤ key_id.len := by
    simp
  rw [hl, hcap]
  simp only [iso7816_new, hiso, if_true, Option.some_bind, iso7816_add, hc, hh,
    List.length_singleton, List.nil_append]
  rw [if_neg (by omega)]
  simp only [Option.some_bind]
  rw [if_neg (by omega)]
  simp only [Option.some_bind]
  rw [if_neg (by omega)]
  simp only [Option.some_bind]
  rw [if_neg (by omega)]
  simp only [auth_apdu, Option.some.injEq, iso7816_apdu_t.mk.injEq, true_and, and_true]
  omega

/-- The call `key_lookup` on a device that takes the APDU and answers with the
two bytes `69 85`: the key exists. -/
theorem key_lookup_found (env : Env) (dev : fido_dev_t) (rp : Bytes) (key_id : fido_blob_t)
    (ms : Int) (h : { d : Bytes // d.length = 32 }) (rest : List (Option Bytes))
    (hlen : key_id.len ≤ 255) (hsha : env.SHA256 rp = some h)
    (hiso : env.iso7816_ok (65 + key_id.len) = true)
    (htx : tx_outcome dev 0 = true) (hrx : dev.rx_script = some [0x69, 0x85] :: rest) :
    key_lookup env dev (some rp) key_id ms =
      (FIDO_OK, some true, dev_after dev 1 rest (lookup_log h.val ms [key_id])) := by
  unfold key_lookup
  simp only
  rw [if_neg (by simp only [UINT8_MAX]; omega)]
  simp only [hsha]
  rw [iso7816_auth_chain env U2F_AUTH_CHECK _ h.val key_id (by simp [SHA256_DIGEST_LENGTH])
    h.property hlen hiso]
  simp only [tx_eq, htx]
  rw [rx_cons _ 8 ms (some [0x69, 0x85]) rest (by simpa using hrx)]
  simp only [SHA256_DIGEST_LENGTH]
  simp [dev_after, lookup_log, List.drop_one, sw_conditions_iff]

/-- The call `key_lookup` on a device that takes the APDU and answers with the
two bytes `6a 80`: the key does not exist. -/
theorem key_lookup_not_found (env : Env) (dev : fido_dev_t) (rp : Bytes) (key_id : fido_blob_t)
    (ms : Int) (h : { d : Bytes // d.length = 32 }) (rest : List (Option Bytes))
    (hlen : key_id.len ≤ 255) (hsha : env.SHA256 rp = some h)
    (hiso : env.iso7816_ok (65 + key_id.len) = true)
    (htx : tx_outcome dev 0 = true) (hrx : dev.rx_script = some [0x6a, 0x80] :: rest) :
    key_lookup env dev (some rp) key_id ms =
      (FIDO_OK, some false, dev_after dev 1 rest (lookup_log h.val ms [key_id])) := by
  unfold key_lookup
  simp only
  rw [if_neg (by simp only [UINT8_MAX]; omega)]
  simp only [hsha]
  rw [iso7816_auth_chain env U2F_AUTH_CHECK _ h.val key_id (by simp [SHA256_DIGEST_LENGTH])
    h.property hlen hiso]
  simp only [tx_eq, htx]
  rw [rx_cons _ 8 ms (some [0x6a, 0x80]) rest (by simpa using hrx)]
  simp only [SHA256_DIGEST_LENGTH]
  simp [dev_after, lookup_log, List.drop_one, sw_conditions_iff, sw_wrong_data_iff]

theorem tx_mem_round_trips (apdu : iso7816_apdu_t) (cap : Nat) (ms : Int) (n : Nat)
    (a : iso7816_apdu_t) (h : Event.tx a ∈ round_trips apdu cap ms n) : a = apdu := by
  induction n with
  | zero => simp [round_trips] at h
  | succ n ih =>
    simp only [round_trips, round_trip, List.cons_append, List.nil_append, List.mem_cons,
      Event.tx.injEq] at h
    rcases h with h | h | h | h
    · exact h
    · exact absurd h (by simp)
    · exact absurd h (by simp)
    · exact ih h

theorem take_five (reply : Bytes) (h : 5 ≤ reply.length) :
    reply.getD 0 0 :: (reply.drop 1).take 4 = reply.take 5 := by
  match reply, h with
  | a :: b :: c :: d :: e :: t, _ => rfl

/-- The call `do_auth` on a device that answers the SIGN APDU with the
replies `retries`, all starting with `69 85`, and then with a valid reply. -/
theorem do_auth_ok (env : Env) (fuel : Nat) (dev : fido_dev_t) (cdh : fido_blob_t) (rp : Bytes)
    (key_id : fido_blob_t) (ms : Int) (h : { d : Bytes // d.length = 32 })
    (retries : List Bytes) (reply : Bytes) (rest : List (Option Bytes))
    (hcdh : cdh.len = 32) (hcdhb : cdh.bytes.length = 32) (hsha : env.SHA256 rp = some h)
    (hok : answer_ok env h.val key_id (.present retries reply))
    (hfuel : retries.length + 1 ≤ fuel)
    (htx : ∀ i, i < retries.length + 1 → tx_outcome dev i = true)
    (hrx : dev.rx_script = retries.map some ++ some reply :: rest) :
    do_auth env fuel dev cdh (some rp) key_id fido_blob_t.zero fido_blob_t.zero ms =
      some (FIDO_OK, fido_blob_t.of ((reply.drop 5).take (reply.length - 7)),
        fido_blob_t.of (0x58 :: 0x25 :: (h.val ++ reply.take 5)),
        dev_after dev (retries.length + 1) rest
          (round_trips (auth_apdu U2F_AUTH_SIGN cdh.bytes h.val key_id) 128 ms
            (retries.length + 1))) := by
  obtain ⟨hlen, hiso, hall, h7, hne, hs1, hs2, hca, hb, hser, -, -, -, -⟩ := hok
  unfold do_auth
  simp only
  rw [if_neg (by simp only [UINT8_MAX, SHA256_DIGEST_LENGTH]; omega)]
  simp only [hsha]
  rw [iso7816_auth_chain env U2F_AUTH_SIGN cdh.bytes h.val key_id hcdhb h.property hlen hiso]
  simp only
  rw [poll_retries _ 128 ms retries fuel dev reply rest hfuel htx hall hrx (by omega) hne]
  simp only
  rw [parse_auth_reply_index env _ _ rp reply h h7 hs1 hs2 hsha hca hb hser rfl,
    take_five reply (by omega)]
  rfl

theorem set_length_append {α : Type} (done : List α) (s0 st : α) (slots : List α) :
    (done ++ s0 :: slots).set done.length st = done ++ st :: slots := by
  induction done with
  | nil => rfl
  | cons a done ih => simp [ih]

/-- The three setter calls of `u2f_authenticate_single` on a free slot. -/
theorem fido_assert_set_three (env : Env) (fa : fido_assert_t) (done slots : List fido_assert_stmt)
    (s0 : fido_assert_stmt) (key_id : fido_blob_t) (ad sig : Bytes)
    (hstmt : fa.stmt = done ++ s0 :: slots)
    (hkp : key_id.ptr ≠ none) (hk : env.set_ok Setter.assert_id key_id.bytes = true)
    (had : env.set_ok Setter.assert_authdata ad = true)
    (hsig : env.set_ok Setter.assert_sig sig = true) :
    ((fido_assert_set_id env fa done.length key_id).bind
      (fun fa1 => fido_assert_set_authdata env fa1 done.length (fido_blob_t.of ad))).bind
      (fun fa2 => fido_assert_set_sig env fa2 done.length (fido_blob_t.of sig)) =
      some { fa with stmt := done ++ ⟨some key_id.bytes, some ad, some sig⟩ :: slots } := by
  have hidx : done.length < (done ++ s0 :: slots).length := by simp
  have hget : ∀ (x : fido_assert_stmt) (l : List fido_assert_stmt),
      (done ++ x :: l).getD done.length fido_assert_stmt.empty = x := by
    intro x l
    rw [List.getD_append_right _ _ _ _ (Nat.le_refl _)]
    simp
  have hof : ∀ b : Bytes, (fido_blob_t.of b).ptr ≠ none := by
    intro b
    simp [fido_blob_t.of]
  unfold fido_assert_set_id
  rw [if_pos ⟨by rw [hstmt]; exact hidx, hkp, hk⟩]
  simp only [Option.some_bind, hstmt, set_length_append, hget]
  unfold fido_assert_set_authdata
  rw [if_pos ⟨by simp, hof ad, by rw [bytes_of]; exact had⟩]
  simp only [Option.some_bind, set_length_append, hget, bytes_of]
  unfold fido_assert_set_sig
  rw [if_pos ⟨by simp, hof sig, by rw [bytes_of]; exact hsig⟩]
  simp only [set_length_append, hget, bytes_of]

/-- The call `u2f_authenticate_single` on an entry the device does not
recognise. -/
theorem u2f_authenticate_single_absent (env : Env) (fuel : Nat) (dev : fido_dev_t)
    (key_id : fido_blob_t) (fa : fido_assert_t) (idx : Nat) (ms : Int) (rp : Bytes)
    (h : { d : Bytes // d.length = 32 }) (rest : List (Option Bytes))
    (hrp : fa.rp_id = some rp) (hsha : env.SHA256 rp = some h)
    (hok : answer_ok env h.val key_id .absent)
    (htx : ∀ i, i < answer_ntx .absent → tx_outcome dev i = true)
    (hrx : dev.rx_script = answer_rx .absent ++ rest) :
    u2f_authenticate_single env fuel dev key_id fa idx ms =
      some (FIDO_ERR_CREDENTIAL_EXCLUDED, fa,
        dev_after dev (answer_ntx .absent) rest
          (answer_log fa.cdh.bytes h.val ms key_id .absent)) := by
  unfold u2f_authenticate_single
  rw [hrp, key_lookup_not_found env dev rp key_id ms h rest hok.1 hsha hok.2
    (htx 0 (by simp [answer_ntx])) (by simpa [answer_rx] using hrx)]
  simp [answer_ntx, answer_log]

/-- The call `u2f_authenticate_single` on an entry the device recognises, when
user presence is not switched off and slot `done.length` is free. -/
theorem u2f_authenticate_single_present (env : Env) (fuel : Nat) (dev : fido_dev_t)
    (key_id : fido_blob_t) (fa : fido_assert_t) (ms : Int) (rp : Bytes)
    (h : { d : Bytes // d.length = 32 }) (retries : List Bytes) (reply : Bytes)
    (rest : List (Option Bytes)) (done slots : List fido_assert_stmt) (s0 : fido_assert_stmt)
    (hrp : fa.rp_id = some rp) (hsha : env.SHA256 rp = some h)
    (hup : fa.up ≠ FIDO_OPT_FALSE) (hcdh : fa.cdh.len = 32) (hcdhb : fa.cdh.bytes.length = 32)
    (hok : answer_ok env h.val key_id (.present retries reply))
    (hfuel : retries.length + 1 ≤ fuel)
    (hstmt : fa.stmt = done ++ s0 :: slots)
    (htx : ∀ i, i < answer_ntx (.present retries reply) → tx_outcome dev i = true)
    (hrx : dev.rx_script = answer_rx (.present retries reply) ++ rest) :
    u2f_authenticate_single env fuel dev key_id fa done.length ms =
      some (FIDO_OK,
        { fa with stmt := done ++ ⟨some key_id.bytes,
          some (0x58 :: 0x25 :: (h.val ++ reply.take 5)),
          some ((reply.drop 5).take (reply.length - 7))⟩ :: slots },
        dev_after dev (answer_ntx (.present retries reply)) rest
          (answer_log fa.cdh.bytes h.val ms key_id (.present retries reply))) := by
  have hok' := hok
  obtain ⟨hlen, hiso, -, -, -, -, -, -, -, -, hkp, hk, had, hsig⟩ := hok'
  have h3 := fido_assert_set_three env fa done slots s0 key_id _ _ hstmt hkp hk had hsig
  unfold u2f_authenticate_single
  rw [hrp, key_lookup_found env dev rp key_id ms h (retries.map some ++ some reply :: rest)
    hlen hsha hiso (htx 0 (by simp [answer_ntx])) (by simpa [answer_rx] using hrx)]
  simp only [ne_eq, not_true_eq_false, if_false, if_neg hup]
  rw [do_auth_ok env fuel _ fa.cdh rp key_id ms h retries reply rest hcdh hcdhb hsha hok hfuel
    (by
      intro i hi
      rw [tx_outcome_dev_after]
      exact htx (1 + i) (by simp [answer_ntx] at hi ⊢; omega))
    rfl]
  simp only [dev_after_dev_after, answer_ntx, answer_log]
  rcases h1 : fido_assert_set_id env fa done.length key_id with _ | fa1
  · simp [h1] at h3
  simp only [h1, Option.some_bind] at h3 ⊢
  rcases h2 : fido_assert_set_authdata env fa1 done.length
    (fido_blob_t.of (0x58 :: 0x25 :: (h.val ++ reply.take 5))) with _ | fa2
  · simp [h2] at h3
  simp only [h2, Option.some_bind] at h3 ⊢
  rw [h3]
  simp [hrp]

/-- The allow-list loop on a device that serves the entries one after the
other, from a statement vector `done ++ slots` with `nauth_ok = done.length`:
the statements of the recognised entries fill the first free slots. -/
theorem u2f_authenticate_loop_answers (env : Env) (fuel : Nat) (ms : Int) (rp : Bytes)
    (h : { d : Bytes // d.length = 32 }) (hsha : env.SHA256 rp = some h) :
    ∀ (entries : List (fido_blob_t × device_answer)) (fa : fido_assert_t) (dev : fido_dev_t)
      (done slots : List fido_assert_stmt) (rest : List (Option Bytes)),
      fa.rp_id = some rp → fa.up ≠ FIDO_OPT_FALSE → fa.cdh.len = 32 →
      fa.cdh.bytes.length = 32 →
      (∀ e ∈ entries, answer_ok env h.val e.1 e.2 ∧ answer_fuel e.2 ≤ fuel) →
      fa.stmt = done ++ slots → (answers_stmts h.val entries).length ≤ slots.length →
      (∀ i, i < answers_ntx entries → tx_outcome dev i = true) →
      dev.rx_script = answers_rx entries ++ rest →
      u2f_authenticate_loop env fuel ms (entries.map Prod.fst) done.length fa dev =
        some (none, done.length + (answers_stmts h.val entries).length,
          { fa with stmt := done ++ answers_stmts h.val entries ++
              slots.drop (answers_stmts h.val entries).length },
          dev_after dev (answers_ntx entries) rest
            (answers_log fa.cdh.bytes h.val ms entries)) := by
  intro entries
  induction entries with
  | nil =>
    intro fa dev done slots rest _ _ _ _ _ hstmt _ _ hrx
    simp only [answers_rx, List.flatMap_nil, List.nil_append] at hrx
    simp only [List.map_nil, u2f_authenticate_loop, answers_stmts, List.filterMap_nil,
      List.length_nil, Nat.add_zero, List.append_nil, List.drop_zero, answers_ntx, List.sum_nil,
      answers_log, List.flatMap_nil, ← hstmt, ← hrx, dev_after_zero]
  | cons e entries ih =>
    intro fa dev done slots rest hrp hup hcdh hcdhb hall hstmt hslots htx hrx
    obtain ⟨key_id, a⟩ := e
    have he := hall (key_id, a) (by simp)
    have hall' : ∀ e ∈ entries, answer_ok env h.val e.1 e.2 ∧ answer_fuel e.2 ≤ fuel :=
      fun e he => hall e (by simp [he])
    have hntx : answers_ntx ((key_id, a) :: entries) = answer_ntx a + answers_ntx entries := by
      simp [answers_ntx]
    have hrx' : dev.rx_script = answer_rx a ++ (answers_rx entries ++ rest) := by
      rw [hrx]
      simp [answers_rx]
    have htx1 : ∀ i, i < answer_ntx a → tx_outcome dev i = true :=
      fun i hi => htx i (by rw [hntx]; omega)
    have htx2 : ∀ (r : List (Option Bytes)) (ev : List Event) (i : Nat),
        i < answers_ntx entries → tx_outcome (dev_after dev (answer_ntx a) r ev) i = true := by
      intro r ev i hi
      rw [tx_outcome_dev_after]
      exact htx _ (by rw [hntx]; omega)
    rw [List.map_cons, u2f_authenticate_loop]
    cases a with
    | absent =>
      rw [u2f_authenticate_single_absent env fuel dev key_id fa done.length ms rp h
        (answers_rx entries ++ rest) hrp hsha he.1 htx1 hrx']
      simp only [reduceCtorEq, if_false, ne_eq, not_true_eq_false]
      have hst : answers_stmts h.val ((key_id, device_answer.absent) :: entries) =
          answers_stmts h.val entries := by
        simp [answers_stmts, answer_stmt]
      rw [hst] at hslots ⊢
      rw [ih fa _ done slots rest hrp hup hcdh hcdhb hall' hstmt hslots (htx2 _ _) rfl]
      simp only [dev_after_dev_after, hntx, answers_log, List.flatMap_cons]
    | present retries reply =>
      have hst : answers_stmts h.val ((key_id, device_answer.present retries reply) :: entries) =
          ⟨some key_id.bytes, some (0x58 :: 0x25 :: (h.val ++ reply.take 5)),
            some ((reply.drop 5).take (reply.length - 7))⟩ :: answers_stmts h.val entries := by
        simp [answers_stmts, answer_stmt]
      rw [hst] at hslots ⊢
      match slots, hslots, hstmt with
      | s0 :: slots, hslots, hstmt =>
        rw [u2f_authenticate_single_present env fuel dev key_id fa ms rp h retries reply
          (answers_rx entries ++ rest) done slots s0 hrp hsha hup hcdh hcdhb he.1 he.2 hstmt
          htx1 hrx']
        simp only [if_true]
        have hdone : done.length + 1 = (done ++ [(⟨some key_id.bytes,
            some (0x58 :: 0x25 :: (h.val ++ reply.take 5)),
            some ((reply.drop 5).take (reply.length - 7))⟩ : fido_assert_stmt)]).length := by
          simp
        rw [hdone, ih ({ fa with stmt := done ++ ⟨some key_id.bytes,
            some (0x58 :: 0x25 :: (h.val ++ reply.take 5)),
            some ((reply.drop 5).take (reply.length - 7))⟩ :: slots })
          _ _ slots rest hrp hup hcdh hcdhb hall' (by simp)
          (by simp at hslots; omega) (htx2 _ _) rfl]
        simp only [dev_after_dev_after, hntx, answers_log, List.flatMap_cons, List.length_append,
          List.length_singleton, List.length_cons, List.append_assoc, List.singleton_append,
          List.drop_succ_cons, Nat.add_assoc, Nat.add_comm 1, List.length_nil, Nat.zero_add]

theorem answers_stmts_length (rp_id_hash : Bytes) (entries : List (fido_blob_t × device_answer)) :
    (answers_stmts rp_id_hash entries).length =
      (entries.filter (fun e => recognised e.2)).length := by
  induction entries with
  | nil => rfl
  | cons e entries ih =>
    obtain ⟨k, a⟩ := e
    cases a <;> simp [answers_stmts, answer_stmt, recognised] at ih ⊢ <;> exact ih

theorem answers_stmts_length_le (rp_id_hash : Bytes)
    (entries : List (fido_blob_t × device_answer)) :
    (answers_stmts rp_id_hash entries).length ≤ entries.length := by
  rw [answers_stmts_length]
  exact List.length_filter_le _ _

/-- The call `u2f_authenticate` on a device that serves the allow-list entries
one after the other without transport or parse error. -/
theorem u2f_authenticate_answers (env : Env) (fuel : Nat) (dev : fido_dev_t)
    (fa : fido_assert_t) (ms : Int) (rp : Bytes) (h : { d : Bytes // d.length = 32 })
    (entries : List (fido_blob_t × device_answer)) (rest : List (Option Bytes))
    (huv : fa.uv ≠ FIDO_OPT_TRUE) (hup : fa.up ≠ FIDO_OPT_FALSE)
    (hallow : fa.allow_list.ptr = some (entries.map Prod.fst))
    (hrp : fa.rp_id = some rp) (hcdh : fa.cdh.len = 32) (hcdhb : fa.cdh.bytes.length = 32)
    (hsha : env.SHA256 rp = some h) (hcount : env.set_count entries.length = FIDO_OK)
    (hall : ∀ e ∈ entries, answer_ok env h.val e.1 e.2 ∧ answer_fuel e.2 ≤ fuel)
    (htx : ∀ i, i < answers_ntx entries → tx_outcome dev i = true)
    (hrx : dev.rx_script = answers_rx entries ++ rest) :
    u2f_authenticate env fuel dev fa ms =
      some (FIDO_OK,
        { fa with
          stmt := answers_stmts h.val entries ++
            ((fa.stmt ++ List.replicate entries.length fido_assert_stmt.empty).take
              entries.length).drop (answers_stmts h.val entries).length
          stmt_len := (answers_stmts h.val entries).length },
        dev_after dev (answers_ntx entries) rest
          (answers_log fa.cdh.bytes h.val ms entries)) := by
  have hlen : fa.allow_list.len = entries.length := by
    simp [fido_blob_array_t.len, hallow]
  have helems : fa.allow_list.elems = entries.map Prod.fst := by
    simp [fido_blob_array_t.elems, hallow]
  unfold u2f_authenticate
  rw [if_neg (by simp [huv, hallow])]
  simp only [fido_assert_set_count, hlen, hcount, if_true, helems]
  have hloop := u2f_authenticate_loop_answers env fuel ms rp h hsha entries
    ⟨fa.rp_id, fa.cdh, fa.allow_list, fa.up, fa.uv,
      List.take entries.length (fa.stmt ++ List.replicate entries.length fido_assert_stmt.empty),
      fa.stmt_len⟩ dev []
    (List.take entries.length (fa.stmt ++ List.replicate entries.length fido_assert_stmt.empty))
    rest hrp hup hcdh hcdhb hall (by simp)
    (by
      have := answers_stmts_length_le h.val entries
      simp only [List.length_take, List.length_append, List.length_replicate]
      omega)
    htx hrx
  simp only [List.length_nil, Nat.zero_add, List.nil_append] at hloop
  rw [hloop]

/-- C9: when user presence is required, the allow list is not null and the
device serves the entries one after the other without transport or parse error
(`answer_ok`), `u2f_authenticate` returns `FIDO_OK`; the final statement count
is the number of entries the device recognises, the first `stmt_len` slots hold
the statements (key id, authdata, signature) of the recognised entries in
allow-list order, and unrecognised entries leave no statement: the slots from
`stmt_len` on are as `fido_assert_set_count` left them. -/
theorem u2f_authenticate_statements (env : Env) (fuel : Nat) (dev : fido_dev_t)
    (fa : fido_assert_t) (ms : Int) (rp : Bytes) (h : { d : Bytes // d.length = 32 })
    (entries : List (fido_blob_t × device_answer)) (rest : List (Option Bytes))
    (huv : fa.uv ≠ FIDO_OPT_TRUE) (hup : fa.up ≠ FIDO_OPT_FALSE)
    (hallow : fa.allow_list.ptr = some (entries.map Prod.fst))
    (hrp : fa.rp_id = some rp) (hcdh : fa.cdh.len = 32) (hcdhb : fa.cdh.bytes.length = 32)
    (hsha : env.SHA256 rp = some h) (hcount : env.set_count entries.length = FIDO_OK)
    (hall : ∀ e ∈ entries, answer_ok env h.val e.1 e.2 ∧ answer_fuel e.2 ≤ fuel)
    (htx : ∀ i, i < answers_ntx entries → tx_outcome dev i = true)
    (hrx : dev.rx_script = answers_rx entries ++ rest) :
    ∃ fa' dev', u2f_authenticate env fuel dev fa ms = some (FIDO_OK, fa', dev') ∧
      fa'.stmt_len = (entries.filter (fun e => recognised e.2)).length ∧
      fa'.stmt.take fa'.stmt_len = answers_stmts h.val entries ∧
      fa'.stmt.drop fa'.stmt_len =
        (fido_assert_set_count env fa entries.length).2.stmt.drop fa'.stmt_len ∧
      fa'.stmt.length = entries.length ∧
      dev'.log = dev.log ++ answers_log fa.cdh.bytes h.val ms entries := by
  refine ⟨_, _, u2f_authenticate_answers env fuel dev fa ms rp h entries rest huv hup hallow hrp
    hcdh hcdhb hsha hcount hall htx hrx, answers_stmts_length _ _, ?_, ?_, ?_, rfl⟩
  · exact List.take_left' rfl
  · simp only [fido_assert_set_count, hcount, if_true]
    exact List.drop_left' rfl
  · have := answers_stmts_length_le h.val entries
    simp only [List.length_append, List.length_drop, List.length_take, List.length_replicate]
    omega

/-- Allow list `[A, B, C]` on a device that recognises only `B`. -/
theorem u2f_authenticate_statements_witness :
    ∃ fa' dev', u2f_authenticate (sample_env .little) 1
        (scripted_dev [[0x6a, 0x80], [0x69, 0x85], sample_auth_reply, [0x6a, 0x80]])
        sample_assert (-1) = some (FIDO_OK, fa', dev') ∧
      fa'.stmt_len = ([(sample_id_a, device_answer.absent),
        (sample_id_b, device_answer.present [] sample_auth_reply),
        (sample_id_c, device_answer.absent)].filter (fun e => recognised e.2)).length ∧
      fa'.stmt.take fa'.stmt_len = answers_stmts (List.replicate 32 0x01)
        [(sample_id_a, device_answer.absent),
          (sample_id_b, device_answer.present [] sample_auth_reply),
          (sample_id_c, device_answer.absent)] ∧
      fa'.stmt.drop fa'.stmt_len =
        (fido_assert_set_count (sample_env .little) sample_assert
          [(sample_id_a, device_answer.absent),
            (sample_id_b, device_answer.present [] sample_auth_reply),
            (sample_id_c, device_answer.absent)].length).2.stmt.drop fa'.stmt_len ∧
      fa'.stmt.length = [(sample_id_a, device_answer.absent),
        (sample_id_b, device_answer.present [] sample_auth_reply),
        (sample_id_c, device_answer.absent)].length ∧
      dev'.log = (scripted_dev [[0x6a, 0x80], [0x69, 0x85], sample_auth_reply,
          [0x6a, 0x80]]).log ++
        answers_log sample_assert.cdh.bytes (List.replicate 32 0x01) (-1)
          [(sample_id_a, device_answer.absent),
            (sample_id_b, device_answer.present [] sample_auth_reply),
            (sample_id_c, device_answer.absent)] :=
  u2f_authenticate_statements (sample_env .little) 1
    (scripted_dev [[0x6a, 0x80], [0x69, 0x85], sample_auth_reply, [0x6a, 0x80]])
    sample_assert (-1) [0x61] ⟨List.replicate 32 0x01, by decide⟩
    [(sample_id_a, device_answer.absent),
      (sample_id_b, device_answer.present [] sample_auth_reply),
      (sample_id_c, device_answer.absent)] []
    (by decide) (by decide) (by rfl) (by rfl) (by decide) (by decide) (by rfl) (by rfl)
    (by
      intro e he
      simp only [List.mem_cons, List.mem_singleton, List.not_mem_nil, or_false] at he
      rcases he with rfl | rfl | rfl
      · exact ⟨⟨by decide, rfl⟩, by decide⟩
      · refine ⟨⟨by decide, rfl, ?_, by decide, by decide, by decide, by decide, rfl, rfl, rfl,
          by decide, rfl, rfl, rfl⟩, by decide⟩
        intro r hr
        simp at hr
      · exact ⟨⟨by decide, rfl⟩, by decide⟩)
    (by decide) (by decide)

/-- The scenario evaluated: allow list `[A, B, C]`, only `B` recognised,
gives `FIDO_OK`, one statement (for `B`) in slot 0 and statement count 1. -/
theorem u2f_authenticate_scenario :
    (u2f_authenticate (sample_env .little) 1
        (scripted_dev [[0x6a, 0x80], [0x69, 0x85], sample_auth_reply, [0x6a, 0x80]])
        sample_assert (-1)).map (fun p => (p.1, p.2.1.stmt, p.2.1.stmt_len)) =
      some (FIDO_OK,
        [⟨some [0xb1, 0xb2],
            some (0x58 :: 0x25 :: (List.replicate 32 0x01 ++ [0x01, 0x00, 0x00, 0x00, 0x2a])),
            some [0x30, 0x44]⟩,
          fido_assert_stmt.empty, fido_assert_stmt.empty], 1) := by
  decide

/-! ## Authentication without user presence -/

/-- The allow-list loop when user presence is switched off, on a device that
does not recognise the ids `pre` and recognises the next id `key_id`: the loop
is left with `FIDO_ERR_USER_PRESENCE_REQUIRED` right after the lookup of
`key_id`. -/
theorem u2f_authenticate_loop_up_false (env : Env) (fuel : Nat) (ms : Int) (rp : Bytes)
    (h : { d : Bytes // d.length = 32 }) (hsha : env.SHA256 rp = some h)
    (key_id : fido_blob_t) (post : List fido_blob_t) (rest : List (Option Bytes))
    (fa : fido_assert_t) (hrp : fa.rp_id = some rp) (hup : fa.up = FIDO_OPT_FALSE) :
    ∀ (pre : List fido_blob_t) (dev : fido_dev_t) (nauth_ok : Nat),
      (∀ k ∈ pre ++ [key_id], k.len ≤ 255 ∧ env.iso7816_ok (65 + k.len) = true) →
      (∀ j, j < pre.length + 1 → tx_outcome dev j = true) →
      dev.rx_script = List.replicate pre.length (some [0x6a, 0x80]) ++ some [0x69, 0x85] :: rest →
      u2f_authenticate_loop env fuel ms (pre ++ key_id :: post) nauth_ok fa dev =
        some (some FIDO_ERR_USER_PRESENCE_REQUIRED, nauth_ok, fa,
          dev_after dev (pre.length + 1) rest (lookup_log h.val ms (pre ++ [key_id]))) := by
  intro pre
  induction pre with
  | nil =>
    intro dev nauth_ok hk htx hrx
    have hk0 := hk key_id (by simp)
    rw [List.nil_append, u2f_authenticate_loop, u2f_authenticate_single, hrp,
      key_lookup_found env dev rp key_id ms h rest hk0.1 hsha hk0.2 (htx 0 (by simp))
        (by simpa using hrx)]
    simp [hup]
  | cons k pre ih =>
    intro dev nauth_ok hk htx hrx
    have hk0 := hk k (by simp)
    rw [List.cons_append, u2f_authenticate_loop, u2f_authenticate_single, hrp,
      key_lookup_not_found env dev rp k ms h _ hk0.1 hsha hk0.2 (htx 0 (by simp))
        (by simpa [List.replicate_succ] using hrx)]
    simp only [ne_eq, Option.some.injEq, Bool.false_eq_true, not_false_eq_true, if_true,
      reduceCtorEq, if_false, not_true_eq_false]
    rw [ih _ nauth_ok (fun x hx => hk x (by simp at hx ⊢; tauto))
      (by
        intro j hj
        rw [tx_outcome_dev_after]
        exact htx (1 + j) (by simp at hj ⊢; omega))
      rfl]
    simp only [dev_after_dev_after, List.length_cons, lookup_log, List.flatMap_cons,
      List.cons_append, List.nil_append, List.append_assoc, Nat.add_comm 1, List.flatMap_nil]

/-- C10 (as stated, refuted): with user presence switched off and the allow list
`[A, B, C]`, a device that recognises `A` makes `u2f_authenticate` return
`FIDO_ERR_USER_PRESENCE_REQUIRED` right after the lookup of `A`: the entry is not
skipped, the loop does not continue (the answers for `B` and `C` are never
read) and the entry by itself makes the call fail. -/
theorem u2f_authenticate_up_false_recognised_aborts :
    u2f_authenticate (sample_env .little) 1
        (scripted_dev [[0x69, 0x85], [0x6a, 0x80], [0x6a, 0x80]])
        { sample_assert with up := FIDO_OPT_FALSE } (-1) =
      some (FIDO_ERR_USER_PRESENCE_REQUIRED,
        { sample_assert with
          up := FIDO_OPT_FALSE
          stmt := [fido_assert_stmt.empty, fido_assert_stmt.empty, fido_assert_stmt.empty] },
        ⟨[], true, [some [0x6a, 0x80], some [0x6a, 0x80]], none,
          [Event.tx (auth_apdu U2F_AUTH_CHECK (List.replicate 32 0xff) (List.replicate 32 0x01)
            sample_id_a), Event.rx 8 (-1)]⟩) := by
  decide

/-- C10 (amended): in `u2f_authenticate` with user presence = false, the first
allow-list entry that the device recognises (after entries it does not
recognise) makes `u2f_authenticate_single` return
`FIDO_ERR_USER_PRESENCE_REQUIRED`, and `u2f_authenticate` returns that code at
once: no statement slot is written (the assertion is as
`fido_assert_set_count` left it), no SIGN APDU is sent (the log holds the
lookups up to that entry only) and the remaining entries are not probed. -/
theorem u2f_authenticate_user_presence_required (env : Env) (fuel : Nat) (dev : fido_dev_t)
    (fa : fido_assert_t) (ms : Int) (rp : Bytes) (h : { d : Bytes // d.length = 32 })
    (pre : List fido_blob_t) (key_id : fido_blob_t) (post : List fido_blob_t)
    (rest : List (Option Bytes))
    (huv : fa.uv ≠ FIDO_OPT_TRUE) (hup : fa.up = FIDO_OPT_FALSE)
    (hallow : fa.allow_list.ptr = some (pre ++ key_id :: post))
    (hrp : fa.rp_id = some rp) (hsha : env.SHA256 rp = some h)
    (hcount : env.set_count (pre ++ key_id :: post).length = FIDO_OK)
    (hk : ∀ k ∈ pre ++ [key_id], k.len ≤ 255 ∧ env.iso7816_ok (65 + k.len) = true)
    (htx : ∀ j, j < pre.length + 1 → tx_outcome dev j = true)
    (hrx : dev.rx_script =
      List.replicate pre.length (some [0x6a, 0x80]) ++ some [0x69, 0x85] :: rest) :
    u2f_authenticate env fuel dev fa ms =
      some (FIDO_ERR_USER_PRESENCE_REQUIRED,
        (fido_assert_set_count env fa (pre ++ key_id :: post).length).2,
        dev_after dev (pre.length + 1) rest (lookup_log h.val ms (pre ++ [key_id]))) := by
  have hlen : fa.allow_list.len = (pre ++ key_id :: post).length := by
    simp [fido_blob_array_t.len, hallow]
  have helems : fa.allow_list.elems = pre ++ key_id :: post := by
    simp [fido_blob_array_t.elems, hallow]
  unfold u2f_authenticate
  rw [if_neg (by simp [huv, hallow])]
  simp only [fido_assert_set_count, hlen, hcount, if_true, helems]
  rw [u2f_authenticate_loop_up_false env fuel ms rp h hsha key_id post rest
    ⟨fa.rp_id, fa.cdh, fa.allow_list, fa.up, fa.uv,
      List.take (pre ++ key_id :: post).length
        (fa.stmt ++ List.replicate (pre ++ key_id :: post).length fido_assert_stmt.empty),
      fa.stmt_len⟩ hrp hup pre dev 0 hk htx hrx]

/-- Allow list `[A, B, C]` with user presence = false on a device that does not
recognise `A` and recognises `B`: `C` is not probed. -/
theorem u2f_authenticate_user_presence_required_witness :
    u2f_authenticate (sample_env .little) 1
        (scripted_dev [[0x6a, 0x80], [0x69, 0x85], [0x6a, 0x80]])
        { sample_assert with up := FIDO_OPT_FALSE } (-1) =
      some (FIDO_ERR_USER_PRESENCE_REQUIRED,
        (fido_assert_set_count (sample_env .little) { sample_assert with up := FIDO_OPT_FALSE }
          ([sample_id_a] ++ sample_id_b :: [sample_id_c]).length).2,
        dev_after (scripted_dev [[0x6a, 0x80], [0x69, 0x85], [0x6a, 0x80]])
          ([sample_id_a].length + 1) [some [0x6a, 0x80]]
          (lookup_log (List.replicate 32 0x01) (-1) ([sample_id_a] ++ [sample_id_b]))) :=
  u2f_authenticate_user_presence_required (sample_env .little) 1
    (scripted_dev [[0x6a, 0x80], [0x69, 0x85], [0x6a, 0x80]])
    { sample_assert with up := FIDO_OPT_FALSE } (-1) [0x61]
    ⟨List.replicate 32 0x01, by decide⟩ [sample_id_a] sample_id_b [sample_id_c]
    [some [0x6a, 0x80]] (by decide) (by decide) (by rfl) (by rfl) (by rfl) (by rfl)
    (by decide) (by decide) (by decide)

/-! ## Replies that the parsers reject -/

theorem bad_status_word (reply : Bytes)
    (h : reply.length < 2 ∨
      ¬ (reply.getD (reply.length - 2) 0 = 0x90 ∧ reply.getD (reply.length - 1) 0 = 0x00)) :
    reply.length < 2 ∨
      sw (reply.getD (reply.length - 2) 0) (reply.getD (reply.length - 1) 0) ≠ SW_NO_ERROR := by
  rcases h with h | h
  · exact Or.inl h
  · right
    rw [Ne, sw_no_error_iff]
    exact h

/-- C13: a reply shorter than 2 bytes, or whose trailing two bytes are not
`0x90 0x00`, makes both `parse_auth_reply` and `parse_register_reply` return
`FIDO_ERR_RX` with their outputs untouched: the blobs `*sig` and `*ad` are as
they were passed in and the credential is unchanged (no setter ran). -/
theorem parse_reply_bad_status_word (env : Env) (sig ad : fido_blob_t) (rp_id : Bytes)
    (cred : fido_cred_t) (reply : Bytes)
    (h : reply.length < 2 ∨
      ¬ (reply.getD (reply.length - 2) 0 = 0x90 ∧ reply.getD (reply.length - 1) 0 = 0x00)) :
    parse_auth_reply env sig ad rp_id reply = (FIDO_ERR_RX, sig, ad) ∧
      parse_register_reply env cred reply = (FIDO_ERR_RX, cred) := by
  have hb := bad_status_word reply h
  constructor
  · unfold parse_auth_reply
    simp only [if_pos hb]
  · unfold parse_register_reply
    simp only [if_pos hb]

/-- A REGISTER reply ending in `69 85` instead of `90 00`, for both parsers. -/
theorem parse_reply_bad_status_word_witness :
    parse_auth_reply (sample_env .little) fido_blob_t.zero fido_blob_t.zero [0x61]
        ([0x05, 0x04, 0x69, 0x85] : Bytes) = (FIDO_ERR_RX, fido_blob_t.zero, fido_blob_t.zero) ∧
      parse_register_reply (sample_env .little) sample_cred ([0x05, 0x04, 0x69, 0x85] : Bytes) =
        (FIDO_ERR_RX, sample_cred) :=
  parse_reply_bad_status_word (sample_env .little) fido_blob_t.zero fido_blob_t.zero [0x61]
    sample_cred [0x05, 0x04, 0x69, 0x85] (Or.inr (by decide))

/-- Whatever `parse_register_reply` does with a reply, either it returns
`FIDO_ERR_RX` and leaves the credential alone, or the reply has a status word,
starts with the reserved byte `0x05` and its payload holds the reserved byte,
the 65-byte key, the length byte `L = reply[66]` and `L` more bytes. -/
theorem parse_register_reply_rx_or_prefix (env : Env) (cred : fido_cred_t) (reply : Bytes) :
    parse_register_reply env cred reply = (FIDO_ERR_RX, cred) ∨
      (2 ≤ reply.length ∧ reply.getD 0 0 = 0x05 ∧
        1 + 65 + 1 + (reply.getD 66 0).toNat ≤ reply.length - 2) := by
  unfold parse_register_reply
  simp only
  by_cases hsw : reply.length < 2 ∨
      sw (reply.getD (reply.length - 2) 0) (reply.getD (reply.length - 1) 0) ≠ SW_NO_ERROR
  · rw [if_pos hsw]
    exact Or.inl rfl
  rw [if_neg hsw]
  rw [not_or, not_lt] at hsw
  rcases hr1 : buf_read (reply.take (reply.length - 2)) 1 with _ | ⟨dummy, buf1⟩
  · exact Or.inl rfl
  simp only
  by_cases hd : dummy.getD 0 0 ≠ 0x05
  · rw [if_pos hd]
    exact Or.inl rfl
  rw [if_neg hd]
  rw [not_not] at hd
  rcases hr2 : buf_read buf1 65 with _ | ⟨pubkey, buf2⟩
  · exact Or.inl rfl
  simp only
  rcases hr3 : buf_read buf2 1 with _ | ⟨khb, buf3⟩
  · exact Or.inl rfl
  simp only
  by_cases hca : env.calloc (khb.getD 0 0).toNat = false
  · rw [if_pos hca]
    exact Or.inl rfl
  rw [if_neg hca]
  rcases hr4 : buf_read buf3 (khb.getD 0 0).toNat with _ | ⟨kh, buf4⟩
  · exact Or.inl rfl
  right
  obtain ⟨e1, l1⟩ := buf_read_eq_some _ _ _ _ hr1
  obtain ⟨e2, l2⟩ := buf_read_eq_some _ _ _ _ hr2
  obtain ⟨e3, l3⟩ := buf_read_eq_some _ _ _ _ hr3
  obtain ⟨e4, l4⟩ := buf_read_eq_some _ _ _ _ hr4
  have hdummy := singleton_of_length_one dummy l1
  have hkhb := singleton_of_length_one khb l3
  have hsplit := split_last_two reply hsw.1
  rw [e1, e2, e3, e4] at hsplit
  have hlen : reply.length = 1 + 65 + 1 + (khb.getD 0 0).toNat + buf4.length + 2 := by
    have := congrArg List.length hsplit
    simp only [List.length_append, List.length_cons, List.length_nil, l1, l2, l3, l4] at this
    omega
  have h0 : reply.getD 0 0 = dummy.getD 0 0 := by
    rw [hsplit, hdummy]
    rfl
  have h66 : reply.getD 66 0 = khb.getD 0 0 := by
    have e : reply = (dummy ++ pubkey) ++ (khb ++ (kh ++ buf4 ++
        [reply.getD (reply.length - 2) 0, reply.getD (reply.length - 1) 0])) := by
      conv_lhs => rw [hsplit]
      simp only [List.append_assoc]
    rw [e, List.getD_append_right _ _ _ _ (by simp [l1, l2]), hkhb]
    simp [l1, l2]
  refine ⟨hsw.1, by rw [h0, hd], ?_⟩
  rw [h66, hlen]
  omega

/-- C14: a REGISTER reply (ending in `0x90 0x00` or not) whose first byte is not
`0x05`, or whose payload (the reply without its status word) is too short to
hold the reserved byte, the 65-byte public key, the key-handle length byte
`L = reply[66]` and `L` key-handle bytes, makes `parse_register_reply` return
`FIDO_ERR_RX` with the credential unchanged (no setter ran). -/
theorem parse_register_reply_bad_prefix (env : Env) (cred : fido_cred_t) (reply : Bytes)
    (h : reply.getD 0 0 ≠ 0x05 ∨ reply.length - 2 < 1 + 65 + 1 + (reply.getD 66 0).toNat) :
    parse_register_reply env cred reply = (FIDO_ERR_RX, cred) := by
  rcases parse_register_reply_rx_or_prefix env cred reply with hr | ⟨-, h0, hl⟩
  · exact hr
  · rcases h with h | h
    · exact absurd h0 h
    · omega

/-- A reply ending in `90 00` with reserved byte `0x04` instead of `0x05`. -/
theorem parse_register_reply_bad_prefix_witness :
    (0x04 :: sample_register_reply.drop 1).getLast? = some 0x00 ∧
    parse_register_reply (sample_env .little) sample_cred
        (0x04 :: sample_register_reply.drop 1) = (FIDO_ERR_RX, sample_cred) :=
  ⟨by decide, parse_register_reply_bad_prefix (sample_env .little) sample_cred
    (0x04 :: sample_register_reply.drop 1) (Or.inl (by decide))⟩

/-! ## Argument checks of `u2f_authenticate` -/

/-- C15: with user verification = true or a null allow list `u2f_authenticate`
returns `FIDO_ERR_UNSUPPORTED_OPTION`, with the assertion (statement vector and
statement count included) and the device (scripts and log: no `tx`, no `rx`)
unchanged, whatever the fuel and the other fields. -/
theorem u2f_authenticate_unsupported_option (env : Env) (fuel : Nat) (dev : fido_dev_t)
    (fa : fido_assert_t) (ms : Int)
    (h : fa.uv = FIDO_OPT_TRUE ∨ fa.allow_list.ptr = none) :
    u2f_authenticate env fuel dev fa ms = some (FIDO_ERR_UNSUPPORTED_OPTION, fa, dev) := by
  unfold u2f_authenticate
  rw [if_pos h]

/-- A request with a null allow list and two statements already recorded. -/
theorem u2f_authenticate_unsupported_option_witness :
    u2f_authenticate (sample_env .little) 3 (scripted_dev [[0x69, 0x85]])
        { sample_assert with
          allow_list := ⟨none⟩
          stmt := [fido_assert_stmt.empty, ⟨some [0x01], none, none⟩]
          stmt_len := 2 } 100 =
      some (FIDO_ERR_UNSUPPORTED_OPTION,
        { sample_assert with
          allow_list := ⟨none⟩
          stmt := [fido_assert_stmt.empty, ⟨some [0x01], none, none⟩]
          stmt_len := 2 },
        scripted_dev [[0x69, 0x85]]) :=
  u2f_authenticate_unsupported_option (sample_env .little) 3 (scripted_dev [[0x69, 0x85]])
    ⟨some [0x61], fido_blob_t.of (List.replicate 32 0x11), ⟨none⟩, FIDO_OPT_TRUE, FIDO_OPT_OMIT,
      [fido_assert_stmt.empty, ⟨some [0x01], none, none⟩], 2⟩ 100 (Or.inr rfl)


/-! ## The probe `key_lookup` -/

theorem rx_log (dev : fido_dev_t) (cap : Nat) (ms : Int) :
    (rx dev cap ms).2.log = dev.log ++ [Event.rx cap ms] := by
  unfold rx
  cases dev.rx_script <;> rfl

theorem two_bytes_eq (reply : Bytes) (a b : UInt8) (h : reply.length = 2) :
    (reply.getD 0 0 = a ∧ reply.getD 1 0 = b) ↔ reply = [a, b] := by
  match reply, h with
  | [x, y], _ => simp

/-- The probe `key_lookup` on a device that takes the APDU, in terms of what `rx`
then delivers: the outcome is the one the spec words, and the log grows by one
`tx` of the CHECK-ONLY APDU and one `rx` into the 8-byte buffer. -/
theorem key_lookup_eq_spec (env : Env) (dev : fido_dev_t) (rp : Bytes) (key_id : fido_blob_t)
    (ms : Int) (h : { d : Bytes // d.length = 32 })
    (hlen : key_id.len ≤ 255) (hsha : env.SHA256 rp = some h)
    (hiso : env.iso7816_ok (65 + key_id.len) = true)
    (htx : tx_outcome dev 0 = true) :
    key_lookup env dev (some rp) key_id ms =
      ((spec_key_lookup (rx (tx dev
          (auth_apdu U2F_AUTH_CHECK (List.replicate 32 0xff) h.val key_id)).2 8 ms).1).1,
        (spec_key_lookup (rx (tx dev
          (auth_apdu U2F_AUTH_CHECK (List.replicate 32 0xff) h.val key_id)).2 8 ms).1).2,
        (rx (tx dev
          (auth_apdu U2F_AUTH_CHECK (List.replicate 32 0xff) h.val key_id)).2 8 ms).2) := by
  unfold key_lookup
  simp only
  rw [if_neg (by simp only [UINT8_MAX]; omega)]
  simp only [hsha]
  rw [iso7816_auth_chain env U2F_AUTH_CHECK _ h.val key_id (by simp [SHA256_DIGEST_LENGTH])
    h.property hlen hiso]
  simp only [tx_eq, htx, SHA256_DIGEST_LENGTH]
  rcases hrx : rx _ 8 ms with ⟨_ | reply, dev2⟩
  · rfl
  · simp only [spec_key_lookup]
    by_cases hl : reply.length ≠ 2
    · rw [if_pos hl, if_pos hl]
    · rw [if_neg hl, if_neg hl]
      rw [not_not] at hl
      simp only [sw_conditions_iff, sw_wrong_data_iff, two_bytes_eq reply _ _ hl]
      by_cases h1 : reply = [0x69, 0x85]
      · simp only [if_pos h1]
      · simp only [if_neg h1]
        by_cases h2 : reply = [0x6a, 0x80]
        · simp only [if_pos h2]
        · simp only [if_neg h2]

theorem spec_key_lookup_found (d : Option Bytes) :
    ((spec_key_lookup d).1 = FIDO_OK ∧ (spec_key_lookup d).2 = some true) ↔
      d = some [0x69, 0x85] := by
  unfold spec_key_lookup
  constructor
  · intro hh
    rcases d with _ | reply
    · simp at hh
    · simp only at hh
      split_ifs at hh with h1 h2 h3
      · simp at hh
      · rw [h2]
      · simp at hh
      · simp at hh
  · rintro rfl
    decide

theorem spec_key_lookup_not_found (d : Option Bytes) :
    ((spec_key_lookup d).1 = FIDO_OK ∧ (spec_key_lookup d).2 = some false) ↔
      d = some [0x6a, 0x80] := by
  unfold spec_key_lookup
  constructor
  · intro hh
    rcases d with _ | reply
    · simp at hh
    · simp only at hh
      split_ifs at hh with h1 h2 h3
      · simp at hh
      · simp at hh
      · rw [h3]
      · simp at hh
  · rintro rfl
    decide

theorem spec_key_lookup_internal (d : Option Bytes) :
    (spec_key_lookup d).1 = FIDO_ERR_INTERNAL ↔
      ∃ a b, d = some [a, b] ∧ [a, b] ≠ [0x69, 0x85] ∧ [a, b] ≠ [0x6a, 0x80] := by
  unfold spec_key_lookup
  constructor
  · intro hh
    rcases d with _ | reply
    · simp at hh
    · simp only at hh
      split_ifs at hh with h1 h2 h3
      rw [not_not] at h1
      match reply, h1 with
      | [x, y], _ => exact ⟨x, y, rfl, h2, h3⟩
  · rintro ⟨a, b, rfl, h1, h2⟩
    simp only [List.length_cons, List.length_nil]
    rw [if_neg (by simp), if_neg h1, if_neg h2]

theorem spec_key_lookup_rx (d : Option Bytes) :
    (spec_key_lookup d).1 = FIDO_ERR_RX ↔ ∀ reply, d = some reply → reply.length ≠ 2 := by
  unfold spec_key_lookup
  constructor
  · intro hh reply hd
    subst hd
    simp only at hh
    split_ifs at hh with h1 h2 h3
    exact h1
  · intro hh
    rcases d with _ | reply
    · rfl
    · simp only
      rw [if_pos (hh reply rfl)]

/-- C12: the probe `key_lookup` (RP id present, key id of at most 255 bytes,
hash and APDU builders succeeding) on a device that takes the APDU. With
`delivered` what `rx` then delivers (`none` = a negative return value): the
outcome is the one the spec words, so the probe returns `FIDO_OK` with
`found = 1` exactly when exactly the two bytes `69 85` were delivered,
`FIDO_OK` with `found = 0` exactly when exactly `6a 80` were, `FIDO_ERR_INTERNAL`
exactly for two bytes with another status word, and `FIDO_ERR_RX` exactly when
the number of bytes is not 2 (or `rx` failed); and the log grows by one `tx`
of the CHECK-ONLY APDU followed by one `rx` into the 8-byte buffer, in
every case. -/
theorem key_lookup_by_delivered_bytes (env : Env) (dev : fido_dev_t) (rp : Bytes)
    (key_id : fido_blob_t) (ms : Int) (h : { d : Bytes // d.length = 32 })
    (delivered : Option Bytes)
    (hlen : key_id.len ≤ 255) (hsha : env.SHA256 rp = some h)
    (hiso : env.iso7816_ok (65 + key_id.len) = true)
    (htx : tx_outcome dev 0 = true)
    (hrx : (rx (tx dev
      (auth_apdu U2F_AUTH_CHECK (List.replicate 32 0xff) h.val key_id)).2 8 ms).1 = delivered) :
    ((key_lookup env dev (some rp) key_id ms).1,
        (key_lookup env dev (some rp) key_id ms).2.1) = spec_key_lookup delivered ∧
      (((key_lookup env dev (some rp) key_id ms).1 = FIDO_OK ∧
          (key_lookup env dev (some rp) key_id ms).2.1 = some true) ↔
        delivered = some [0x69, 0x85]) ∧
      (((key_lookup env dev (some rp) key_id ms).1 = FIDO_OK ∧
          (key_lookup env dev (some rp) key_id ms).2.1 = some false) ↔
        delivered = some [0x6a, 0x80]) ∧
      ((key_lookup env dev (some rp) key_id ms).1 = FIDO_ERR_INTERNAL ↔
        ∃ a b, delivered = some [a, b] ∧ [a, b] ≠ [0x69, 0x85] ∧ [a, b] ≠ [0x6a, 0x80]) ∧
      ((key_lookup env dev (some rp) key_id ms).1 = FIDO_ERR_RX ↔
        ∀ reply, delivered = some reply → reply.length ≠ 2) ∧
      (key_lookup env dev (some rp) key_id ms).2.2.log = dev.log ++
        [Event.tx (auth_apdu U2F_AUTH_CHECK (List.replicate 32 0xff) h.val key_id),
          Event.rx 8 ms] ∧
      count_tx [Event.tx (auth_apdu U2F_AUTH_CHECK (List.replicate 32 0xff) h.val key_id),
          Event.rx 8 ms] = 1 := by
  rw [key_lookup_eq_spec env dev rp key_id ms h hlen hsha hiso htx, hrx]
  refine ⟨rfl, spec_key_lookup_found _, spec_key_lookup_not_found _,
    spec_key_lookup_internal _, spec_key_lookup_rx _, ?_, rfl⟩
  simp only [rx_log, tx_eq, List.append_assoc, List.singleton_append]

/-- The probe for `sample_id_a` on a device that delivers the three bytes
`69 85 00`: a receive error, after one `tx` and one `rx`. -/
theorem key_lookup_by_delivered_bytes_witness :
    (key_lookup (sample_env .little) (scripted_dev [[0x69, 0x85, 0x00]]) (some [0x61])
        sample_id_a 100).1 = FIDO_ERR_RX ↔
      ∀ reply, some ([0x69, 0x85, 0x00] : Bytes) = some reply → reply.length ≠ 2 :=
  (key_lookup_by_delivered_bytes (sample_env .little) (scripted_dev [[0x69, 0x85, 0x00]]) [0x61]
    sample_id_a 100 ⟨List.replicate 32 0x01, rfl⟩ (some [0x69, 0x85, 0x00])
    (by decide) rfl rfl rfl rfl).2.2.2.2.1


/-! ## The allow-list loop stops at the first failure -/

/-- The allow-list loop over `pre ++ rest` is the loop over `pre` followed, when
that one runs to its end, by the loop over `rest` from where it ended. -/
theorem u2f_authenticate_loop_append (env : Env) (fuel : Nat) (ms : Int)
    (rest : List fido_blob_t) :
    ∀ (pre : List fido_blob_t) (n : Nat) (fa : fido_assert_t) (dev : fido_dev_t),
      u2f_authenticate_loop env fuel ms (pre ++ rest) n fa dev =
        match u2f_authenticate_loop env fuel ms pre n fa dev with
        | none => none
        | some (some r, x) => some (some r, x)
        | some (none, n1, fa1, dev1) => u2f_authenticate_loop env fuel ms rest n1 fa1 dev1 := by
  intro pre
  induction pre with
  | nil =>
    intro n fa dev
    rfl
  | cons k pre ih =>
    intro n fa dev
    simp only [List.cons_append, u2f_authenticate_loop]
    rcases hs : u2f_authenticate_single env fuel dev k fa n ms with _ | ⟨r, fa1, dev1⟩
    · rfl
    · simp only
      by_cases h1 : r = FIDO_OK
      · rw [if_pos h1, if_pos h1]
        exact ih _ _ _
      · rw [if_neg h1, if_neg h1]
        by_cases h2 : r ≠ FIDO_ERR_CREDENTIAL_EXCLUDED
        · rw [if_pos h2, if_pos h2]
        · rw [if_neg h2, if_neg h2]
          exact ih _ _ _

/-- C11: in `u2f_authenticate`, when the allow-list entries before entry `i`
(`pre`) were all processed without a return (each gave `FIDO_OK` or
`FIDO_ERR_CREDENTIAL_EXCLUDED`) and `u2f_authenticate_single` on entry `i`
gives a result `r` other than `FIDO_OK`: if `r` is
`FIDO_ERR_CREDENTIAL_EXCLUDED` the loop goes on with the entries after `i`
(`post`) with `nauth_ok` unchanged; any other `r` is returned at once, with the
assertion and the device exactly as entry `i` left them, so nothing is sent
for the entries after `i`. -/
theorem u2f_authenticate_first_failure (env : Env) (fuel : Nat) (dev : fido_dev_t)
    (fa : fido_assert_t) (ms : Int)
    (pre : List fido_blob_t) (key_id : fido_blob_t) (post : List fido_blob_t)
    (n1 : Nat) (fa1 : fido_assert_t) (dev1 : fido_dev_t)
    (r : fido_err) (fa2 : fido_assert_t) (dev2 : fido_dev_t)
    (huv : fa.uv ≠ FIDO_OPT_TRUE)
    (hallow : fa.allow_list.ptr = some (pre ++ key_id :: post))
    (hcount : env.set_count (pre ++ key_id :: post).length = FIDO_OK)
    (hpre : u2f_authenticate_loop env fuel ms pre 0
      (fido_assert_set_count env fa (pre ++ key_id :: post).length).2 dev =
        some (none, n1, fa1, dev1))
    (hk : u2f_authenticate_single env fuel dev1 key_id fa1 n1 ms = some (r, fa2, dev2))
    (hr : r ≠ FIDO_OK) :
    u2f_authenticate env fuel dev fa ms =
      if r = FIDO_ERR_CREDENTIAL_EXCLUDED then
        match u2f_authenticate_loop env fuel ms post n1 fa2 dev2 with
        | none => none
        | some (some r3, _, fa3, dev3) => some (r3, fa3, dev3)
        | some (none, n3, fa3, dev3) => some (FIDO_OK, { fa3 with stmt_len := n3 }, dev3)
      else some (r, fa2, dev2) := by
  have hlen : fa.allow_list.len = (pre ++ key_id :: post).length := by
    simp [fido_blob_array_t.len, hallow]
  have helems : fa.allow_list.elems = pre ++ key_id :: post := by
    simp [fido_blob_array_t.elems, hallow]
  have hset : fido_assert_set_count env fa (pre ++ key_id :: post).length =
      (FIDO_OK, (fido_assert_set_count env fa (pre ++ key_id :: post).length).2) := by
    simp only [fido_assert_set_count, hcount, if_true]
  unfold u2f_authenticate
  rw [if_neg (by simp [huv, hallow]), hlen, hset]
  have hal : (fido_assert_set_count env fa (pre ++ key_id :: post).length).2.allow_list =
      fa.allow_list := by
    simp only [fido_assert_set_count, hcount, if_true]
  simp only [hal, helems]
  rw [u2f_authenticate_loop_append env fuel ms (key_id :: post) pre, hpre]
  simp only [u2f_authenticate_loop, hk, if_neg hr]
  by_cases h2 : r = FIDO_ERR_CREDENTIAL_EXCLUDED
  · rw [if_neg (by simp [h2]), if_pos h2]
  · rw [if_pos h2, if_neg h2]

set_option maxRecDepth 100000 in
/-- Allow list `[A, B, C]` on a device that does not recognise `A` (the result
`FIDO_ERR_CREDENTIAL_EXCLUDED` is swallowed) and answers the probe for `B` with
three bytes: `FIDO_ERR_RX` is returned, after two `tx` and two `rx` calls, and
`C` is not probed. -/
theorem u2f_authenticate_first_failure_witness :
    u2f_authenticate (sample_env .little) 1
        (scripted_dev [[0x6a, 0x80], [0x69, 0x85, 0x00], [0x6a, 0x80]]) sample_assert 100 =
      some (FIDO_ERR_RX, (fido_assert_set_count (sample_env .little) sample_assert 3).2,
        ⟨[], true, [some [0x6a, 0x80]], none,
          lookup_log (List.replicate 32 0x01) 100 [sample_id_a, sample_id_b]⟩) :=
  (u2f_authenticate_first_failure (sample_env .little) 1
    (scripted_dev [[0x6a, 0x80], [0x69, 0x85, 0x00], [0x6a, 0x80]]) sample_assert 100
    [sample_id_a] sample_id_b [sample_id_c] 0
    (fido_assert_set_count (sample_env .little) sample_assert 3).2
    ⟨[], true, [some [0x69, 0x85, 0x00], some [0x6a, 0x80]], none,
      lookup_log (List.replicate 32 0x01) 100 [sample_id_a]⟩
    FIDO_ERR_RX (fido_assert_set_count (sample_env .little) sample_assert 3).2
    ⟨[], true, [some [0x6a, 0x80]], none,
      lookup_log (List.replicate 32 0x01) 100 [sample_id_a, sample_id_b]⟩
    (by decide) rfl rfl (by decide) (by decide) (by decide)).trans (if_neg (by decide))


/-! ## The log of a poll loop -/

theorem tx_log (dev : fido_dev_t) (apdu : iso7816_apdu_t) :
    (tx dev apdu).2.log = dev.log ++ [Event.tx apdu] := by
  unfold tx
  cases dev.tx_script <;> rfl

theorem round_trips_succ_right (apdu : iso7816_apdu_t) (cap : Nat) (ms : Int) (n : Nat) :
    round_trips apdu cap ms (n + 1) = round_trips apdu cap ms n ++ round_trip apdu cap ms := by
  induction n with
  | zero => simp [round_trips]
  | succ n ih =>
    show round_trip apdu cap ms ++ round_trips apdu cap ms (n + 1) =
      (round_trip apdu cap ms ++ round_trips apdu cap ms n) ++ round_trip apdu cap ms
    rw [ih, List.append_assoc]

/-- Whenever a poll loop ends, the calls it has made are some number `n` of full
passes (`tx`, `rx`, `usleep`) followed by the pass it ends in: a full pass when
it ends with a reply, a lone `tx` when `tx` fails, a `tx` and an `rx` when `rx`
fails or delivers fewer than two bytes. -/
theorem poll_log (apdu : iso7816_apdu_t) (cap : Nat) (ms : Int) :
    ∀ (fuel : Nat) (dev : fido_dev_t) (res : Except fido_err Bytes) (dev' : fido_dev_t),
      poll apdu cap ms fuel dev = some (res, dev') →
      ∃ n, n < fuel ∧
        ((∃ reply, res = .ok reply ∧
            dev'.log = dev.log ++ round_trips apdu cap ms (n + 1)) ∨
          (res = .error FIDO_ERR_TX ∧
            dev'.log = dev.log ++ round_trips apdu cap ms n ++ [Event.tx apdu]) ∨
          (res = .error FIDO_ERR_RX ∧
            dev'.log = dev.log ++ round_trips apdu cap ms n ++
              [Event.tx apdu, Event.rx cap ms])) := by
  intro fuel
  induction fuel with
  | zero =>
    intro dev res dev' h
    simp [poll] at h
  | succ fuel ih =>
    intro dev res dev' h
    rw [poll] at h
    have hl1 := tx_log dev apdu
    rcases htx : tx dev apdu with ⟨b, dev1⟩
    rw [htx] at hl1 h
    simp only at hl1
    cases b
    · simp only [Option.some.injEq, Prod.mk.injEq] at h
      obtain ⟨rfl, rfl⟩ := h
      exact ⟨0, Nat.succ_pos _, Or.inr (Or.inl ⟨rfl, by simp [round_trips, hl1]⟩)⟩
    · simp only at h
      have hl2 := rx_log dev1 cap ms
      rcases hrx : rx dev1 cap ms with ⟨_ | reply, dev2⟩
      · rw [hrx] at h hl2
        simp only [Option.some.injEq, Prod.mk.injEq] at h hl2
        obtain ⟨rfl, rfl⟩ := h
        exact ⟨0, Nat.succ_pos _, Or.inr (Or.inr ⟨rfl, by simp [round_trips, hl2, hl1]⟩)⟩
      · rw [hrx] at h hl2
        simp only at h hl2
        by_cases hlen : reply.length < 2
        · rw [if_pos hlen] at h
          simp only [Option.some.injEq, Prod.mk.injEq] at h
          obtain ⟨rfl, rfl⟩ := h
          exact ⟨0, Nat.succ_pos _, Or.inr (Or.inr ⟨rfl, by simp [round_trips, hl2, hl1]⟩)⟩
        · rw [if_neg hlen] at h
          have hl3 : (usleep dev2 (((if ms = -1 then 100 else ms) * 1000) % 2 ^ 32)).log =
              dev.log ++ round_trip apdu cap ms := by
            simp [usleep, hl2, hl1, round_trip, poll_usec]
          by_cases hsw : sw (reply.getD 0 0) (reply.getD 1 0) = SW_CONDITIONS_NOT_SATISFIED
          · simp only [if_pos hsw] at h
            obtain ⟨n, hn, hcase⟩ := ih _ _ _ h
            rw [hl3] at hcase
            refine ⟨n + 1, Nat.succ_lt_succ hn, ?_⟩
            rcases hcase with ⟨r, hr, hlog⟩ | ⟨hr, hlog⟩ | ⟨hr, hlog⟩
            · refine Or.inl ⟨r, hr, ?_⟩
              rw [hlog]
              simp only [round_trips, List.append_assoc]
            · refine Or.inr (Or.inl ⟨hr, ?_⟩)
              rw [hlog]
              simp only [round_trips, List.append_assoc]
            · refine Or.inr (Or.inr ⟨hr, ?_⟩)
              rw [hlog]
              simp only [round_trips, List.append_assoc]
          · simp only [if_neg hsw, Option.some.injEq, Prod.mk.injEq] at h
            obtain ⟨rfl, rfl⟩ := h
            exact ⟨0, Nat.succ_pos _, Or.inl ⟨reply, rfl, by rw [hl3]; simp [round_trips]⟩⟩

theorem usleep_mem_round_trips (apdu : iso7816_apdu_t) (cap : Nat) (ms : Int) (u : Int) :
    ∀ n, Event.usleep u ∈ round_trips apdu cap ms n → u = poll_usec ms := by
  intro n
  induction n with
  | zero => simp [round_trips]
  | succ n ih =>
    intro h
    rw [round_trips, List.mem_append] at h
    rcases h with h | h
    · simpa [round_trip] using h
    · exact ih h

/-- Every `usleep` call a poll loop makes has the argument `poll_usec ms`. -/
theorem poll_usleep_arg (apdu : iso7816_apdu_t) (cap : Nat) (ms : Int) (fuel : Nat)
    (dev dev' : fido_dev_t) (res : Except fido_err Bytes)
    (h : poll apdu cap ms fuel dev = some (res, dev')) :
    ∃ events, dev'.log = dev.log ++ events ∧
      ∀ u, Event.usleep u ∈ events → u = poll_usec ms := by
  obtain ⟨n, -, hcase⟩ := poll_log apdu cap ms fuel dev res dev' h
  rcases hcase with ⟨r, -, hlog⟩ | ⟨-, hlog⟩ | ⟨-, hlog⟩
  · exact ⟨_, hlog, fun u hu => usleep_mem_round_trips apdu cap ms u _ hu⟩
  · refine ⟨round_trips apdu cap ms n ++ [Event.tx apdu], by rw [hlog, List.append_assoc], ?_⟩
    intro u hu
    rw [List.mem_append] at hu
    rcases hu with hu | hu
    · exact usleep_mem_round_trips apdu cap ms u _ hu
    · simp at hu
  · refine ⟨round_trips apdu cap ms n ++ [Event.tx apdu, Event.rx cap ms],
      by rw [hlog, List.append_assoc], ?_⟩
    intro u hu
    rw [List.mem_append] at hu
    rcases hu with hu | hu
    · exact usleep_mem_round_trips apdu cap ms u _ hu
    · simp at hu


/-! ## Sleep durations -/

set_option maxRecDepth 100000 in
/-- C17 (as stated, refuted): with the timeout `ms = 5000000` on a device that
answers `69 85` once and then `90 00`, the product `5000000 * 1000` does not
fit in 32 bits and `usleep` receives `5000000000 mod 2^32 = 705032704`
microseconds both times: the sleep does not last 5000000 milliseconds. With
`ms = -2` it receives `4294965296`. -/
theorem poll_sleep_overflows :
    (poll sample_apdu 128 5000000 2 (scripted_dev [[0x69, 0x85], [0x90, 0x00]])).map
        (fun p => (p.1, p.2.log)) =
      some (.ok [0x90, 0x00],
        [Event.tx sample_apdu, Event.rx 128 5000000, Event.usleep 705032704,
          Event.tx sample_apdu, Event.rx 128 5000000, Event.usleep 705032704]) ∧
      (705032704 : Int) ≠ 5000000 * 1000 ∧
      (poll sample_apdu 128 (-2) 1 (scripted_dev [[0x90, 0x00]])).map
        (fun p => (p.1, p.2.log)) =
      some (.ok [0x90, 0x00],
        [Event.tx sample_apdu, Event.rx 128 (-2), Event.usleep 4294965296]) := by
  decide

/-- C17 (amended): in the poll loops of `send_dummy_register`, `do_auth` and
`u2f_register` (one loop `poll`, whatever the APDU and the reply buffer), for a
timeout `ms` from `-1` to `INT_MAX / 1000 = 2147483`, every `usleep` call the
loop makes has the argument `(ms == -1 ? 100 : ms) * 1000` microseconds: `ms`
milliseconds, and 100 milliseconds when `ms = -1`; the product lies in
`0 .. INT_MAX`, so the `int` multiplication does not overflow. -/
theorem poll_sleep_duration (apdu : iso7816_apdu_t) (cap : Nat) (ms : Int) (fuel : Nat)
    (dev dev' : fido_dev_t) (res : Except fido_err Bytes)
    (hlo : -1 ≤ ms) (hhi : ms ≤ 2147483)
    (h : poll apdu cap ms fuel dev = some (res, dev')) :
    ∃ events, dev'.log = dev.log ++ events ∧
      ∀ u, Event.usleep u ∈ events →
        u = (if ms = -1 then 100 else ms) * 1000 ∧
        (ms = -1 → u = 100 * 1000) ∧ (ms ≠ -1 → u = ms * 1000) ∧
        0 ≤ u ∧ u ≤ 2147483647 := by
  obtain ⟨events, hlog, hev⟩ := poll_usleep_arg apdu cap ms fuel dev dev' res h
  refine ⟨events, hlog, ?_⟩
  intro u hu
  have hu := hev u hu
  unfold poll_usec at hu
  by_cases hm : ms = -1
  · rw [if_pos hm] at hu
    rw [if_pos hm]
    refine ⟨hu, fun _ => hu, fun hne => absurd hm hne, ?_, ?_⟩ <;> omega
  · rw [if_neg hm, Int.emod_eq_of_lt (by omega) (by omega)] at hu
    rw [if_neg hm]
    refine ⟨hu, fun he => absurd he hm, fun _ => hu, ?_, ?_⟩ <;> omega

/-- Timeout `-1` on a device that answers `69 85` once and then `90 00`: two
sleeps of 100000 microseconds. -/
theorem poll_sleep_duration_witness :
    ∃ events,
      (⟨[], true, [], none, round_trips sample_apdu 128 (-1) 2⟩ : fido_dev_t).log =
        (scripted_dev [[0x69, 0x85], [0x90, 0x00]]).log ++ events ∧
      ∀ u, Event.usleep u ∈ events →
        u = (if (-1 : Int) = -1 then 100 else -1) * 1000 ∧
        ((-1 : Int) = -1 → u = 100 * 1000) ∧ ((-1 : Int) ≠ -1 → u = -1 * 1000) ∧
        0 ≤ u ∧ u ≤ 2147483647 :=
  poll_sleep_duration sample_apdu 128 (-1) 2 (scripted_dev [[0x69, 0x85], [0x90, 0x00]])
    ⟨[], true, [], none, round_trips sample_apdu 128 (-1) 2⟩ (.ok [0x90, 0x00])
    (by decide) (by decide) (by decide)

/-- C18 (as stated, refuted): with the timeout `ms = 50` on a device that answers
`69 85` once and then `90 00`, the loop sleeps 50000 microseconds between the
two transmissions, not `max(50, 100) * 1000 = 100000`. -/
theorem poll_sleeps_ms_not_max :
    (poll sample_apdu 128 50 2 (scripted_dev [[0x69, 0x85], [0x90, 0x00]])).map
        (fun p => (p.1, p.2.log)) =
      some (.ok [0x90, 0x00],
        [Event.tx sample_apdu, Event.rx 128 50, Event.usleep 50000,
          Event.tx sample_apdu, Event.rx 128 50, Event.usleep 50000]) ∧
      (50000 : Int) ≠ max 50 100 * 1000 := by
  decide

/-- C18 (amended): for a timeout `ms` from `-1` to `INT_MAX / 1000`, the calls a
poll loop makes are `n` full passes, each a `tx` and an `rx` followed by a
`usleep` of `(ms == -1 ? 100 : ms) * 1000` microseconds, and then at most a
`tx` and an `rx`: between two consecutive transmissions the loop sleeps
`(ms == -1 ? 100 : ms)` milliseconds, which is `max(ms, 100)` exactly when
`ms = -1` or `ms ≥ 100`. -/
theorem poll_sleeps_between_transmissions (apdu : iso7816_apdu_t) (cap : Nat) (ms : Int)
    (fuel : Nat) (dev dev' : fido_dev_t) (res : Except fido_err Bytes)
    (hlo : -1 ≤ ms) (hhi : ms ≤ 2147483)
    (h : poll apdu cap ms fuel dev = some (res, dev')) :
    (∃ n tail, dev'.log = dev.log ++ round_trips apdu cap ms n ++ tail ∧
      (tail = [] ∨ tail = [Event.tx apdu] ∨ tail = [Event.tx apdu, Event.rx cap ms])) ∧
      round_trip apdu cap ms =
        [Event.tx apdu, Event.rx cap ms, Event.usleep ((if ms = -1 then 100 else ms) * 1000)] ∧
      0 ≤ (if ms = -1 then 100 else ms) * 1000 ∧
      (if ms = -1 then 100 else ms) * 1000 ≤ 2147483647 ∧
      ((if ms = -1 then 100 else ms) = max ms 100 ↔ (ms = -1 ∨ 100 ≤ ms)) := by
  refine ⟨?_, ?_, ?_, ?_, ?_⟩
  · obtain ⟨n, -, hcase⟩ := poll_log apdu cap ms fuel dev res dev' h
    rcases hcase with ⟨r, -, hlog⟩ | ⟨-, hlog⟩ | ⟨-, hlog⟩
    · exact ⟨n + 1, [], by rw [hlog, List.append_nil], Or.inl rfl⟩
    · exact ⟨n, _, hlog, Or.inr (Or.inl rfl)⟩
    · exact ⟨n, _, hlog, Or.inr (Or.inr rfl)⟩
  · unfold round_trip poll_usec
    rw [Int.emod_eq_of_lt (by split_ifs <;> omega) (by split_ifs <;> omega)]
  · split_ifs <;> omega
  · split_ifs <;> omega
  · split_ifs with hm
    · subst hm
      decide
    · rw [eq_comm, max_eq_left_iff]
      constructor
      · intro hh
        exact Or.inr hh
      · rintro (hh | hh)
        · exact absurd hh hm
        · exact hh

/-- Timeout 50 on a device that answers `69 85` once and then `90 00`. -/
theorem poll_sleeps_between_transmissions_witness :
    (∃ n tail,
      (⟨[], true, [], none, round_trips sample_apdu 128 50 2⟩ : fido_dev_t).log =
        (scripted_dev [[0x69, 0x85], [0x90, 0x00]]).log ++ round_trips sample_apdu 128 50 n ++
          tail ∧
      (tail = [] ∨ tail = [Event.tx sample_apdu] ∨
        tail = [Event.tx sample_apdu, Event.rx 128 50])) ∧
      round_trip sample_apdu 128 50 =
        [Event.tx sample_apdu, Event.rx 128 50,
          Event.usleep ((if (50 : Int) = -1 then 100 else 50) * 1000)] ∧
      0 ≤ (if (50 : Int) = -1 then (100 : Int) else 50) * 1000 ∧
      (if (50 : Int) = -1 then (100 : Int) else 50) * 1000 ≤ 2147483647 ∧
      ((if (50 : Int) = -1 then (100 : Int) else 50) = max 50 100 ↔
        ((50 : Int) = -1 ∨ 100 ≤ (50 : Int))) :=
  poll_sleeps_between_transmissions sample_apdu 128 50 2
    (scripted_dev [[0x69, 0x85], [0x90, 0x00]])
    ⟨[], true, [], none, round_trips sample_apdu 128 50 2⟩ (.ok [0x90, 0x00])
    (by decide) (by decide) (by decide)

/-! ## The id-length bytes on a big-endian host -/

set_option maxRecDepth 100000 in
/-- C16 (the code at a failing input): on a big-endian host
`encode_cred_authdata`, called with a key handle of `L = 2` bytes, succeeds
and writes the id-length bytes `02 00` (bytes 53 and 54 of the authdata, after
the two-byte CBOR head), where the claim has `00 02`; on a little-endian host
the same call writes `00 02`. -/
theorem encode_cred_authdata_big_endian_id_len :
    (encode_cred_authdata (sample_env .big) (some [0x61]) [0xb1, 0xb2] 2
        (0x04 :: List.replicate 64 0xaa)).1 = true ∧
      (((encode_cred_authdata (sample_env .big) (some [0x61]) [0xb1, 0xb2] 2
        (0x04 :: List.replicate 64 0xaa)).2.bytes.drop (2 + 37 + 16)).take 2) = [0x02, 0x00] ∧
      (((encode_cred_authdata (sample_env .little) (some [0x61]) [0xb1, 0xb2] 2
        (0x04 :: List.replicate 64 0xaa)).2.bytes.drop (2 + 37 + 16)).take 2) = [0x00, 0x02] := by
  decide


/-! ## The APDUs handed to `tx` -/

/-- Whenever a poll loop ends, its first call was `tx` of its APDU, and every
later `tx` it made carried the same APDU. -/
theorem poll_tx_events (apdu : iso7816_apdu_t) (cap : Nat) (ms : Int) (fuel : Nat)
    (dev dev' : fido_dev_t) (res : Except fido_err Bytes)
    (h : poll apdu cap ms fuel dev = some (res, dev')) :
    ∃ rest, dev'.log = dev.log ++ Event.tx apdu :: rest ∧
      ∀ a, Event.tx a ∈ rest → a = apdu := by
  have key : ∀ (n : Nat) (tail : List Event), (n = 0 → tail ≠ []) →
      (tail = [] ∨ tail = [Event.tx apdu] ∨ tail = [Event.tx apdu, Event.rx cap ms]) →
      ∃ rest, round_trips apdu cap ms n ++ tail = Event.tx apdu :: rest ∧
        ∀ a, Event.tx a ∈ rest → a = apdu := by
    intro n tail hn ht
    have hall : ∀ a, Event.tx a ∈ round_trips apdu cap ms n ++ tail → a = apdu := by
      intro a ha
      rw [List.mem_append] at ha
      rcases ha with ha | ha
      · exact tx_mem_round_trips apdu cap ms n a ha
      · rcases ht with rfl | rfl | rfl
        · simp at ha
        · simpa using ha
        · simpa using ha
    have hhead : ∃ rest, round_trips apdu cap ms n ++ tail = Event.tx apdu :: rest := by
      cases n with
      | zero =>
        rcases ht with rfl | rfl | rfl
        · exact absurd rfl (hn rfl)
        · exact ⟨[], rfl⟩
        · exact ⟨[Event.rx cap ms], rfl⟩
      | succ m =>
        exact ⟨Event.rx cap ms :: Event.usleep (poll_usec ms) ::
          (round_trips apdu cap ms m ++ tail),
          by simp only [round_trips, round_trip, List.cons_append, List.nil_append]⟩
    obtain ⟨rest, hrest⟩ := hhead
    refine ⟨rest, hrest, ?_⟩
    intro a ha
    exact hall a (by rw [hrest]; exact List.mem_cons_of_mem _ ha)
  obtain ⟨n, -, hcase⟩ := poll_log apdu cap ms fuel dev res dev' h
  rcases hcase with ⟨r, -, hlog⟩ | ⟨-, hlog⟩ | ⟨-, hlog⟩
  · obtain ⟨rest, hrest, hall⟩ := key (n + 1) [] (by omega) (Or.inl rfl)
    rw [List.append_nil] at hrest
    exact ⟨rest, by rw [hlog, hrest], hall⟩
  · obtain ⟨rest, hrest, hall⟩ := key n [Event.tx apdu] (by simp) (Or.inr (Or.inl rfl))
    exact ⟨rest, by rw [hlog, List.append_assoc, hrest], hall⟩
  · obtain ⟨rest, hrest, hall⟩ := key n [Event.tx apdu, Event.rx cap ms] (by simp)
      (Or.inr (Or.inr rfl))
    exact ⟨rest, by rw [hlog, List.append_assoc, hrest], hall⟩

theorem blob_bytes_length (b : fido_blob_t) (hwf : b.len ≤ (b.ptr.getD []).length) :
    b.bytes.length = b.len := by
  unfold fido_blob_t.bytes
  rw [List.length_take]
  omega

/-- The AUTHENTICATE APDU for a key id whose pointer addresses at least `len`
bytes: no capacity is left over. -/
theorem auth_apdu_eq (p1 : u2f_p1) (challenge rp_id_hash : Bytes) (key_id : fido_blob_t)
    (hwf : key_id.len ≤ (key_id.ptr.getD []).length) :
    auth_apdu p1 challenge rp_id_hash key_id =
      ⟨U2F_CMD_AUTH, p1, 0,
        challenge ++ rp_id_hash ++ [UInt8.ofNat key_id.len] ++ key_id.bytes⟩ := by
  have hl := blob_bytes_length key_id hwf
  unfold fido_blob_t.bytes at hl
  simp only [auth_apdu, fido_blob_t.bytes, hl, Nat.sub_self]

/-- The builder calls of `u2f_register`: capacity 64, then the client-data-hash
and the hash of the RP id. -/
theorem iso7816_register_chain (env : Env) (cdh rp_id_hash : Bytes)
    (hc : cdh.length = 32) (hh : rp_id_hash.length = 32)
    (hiso : env.iso7816_ok 64 = true) :
    ((iso7816_new env U2F_CMD_REGISTER P1_NONE (2 * SHA256_DIGEST_LENGTH)).bind
        (fun a => iso7816_add a cdh)).bind (fun a => iso7816_add a rp_id_hash) =
      some ⟨U2F_CMD_REGISTER, P1_NONE, 0, cdh ++ rp_id_hash⟩ := by
  simp [iso7816_new, SHA256_DIGEST_LENGTH, hiso, iso7816_add, hc, hh]

/-- The calls of `key_lookup` on the device: `tx` of the CHECK-ONLY APDU, then at
most an `rx`. -/
theorem key_lookup_log (env : Env) (dev : fido_dev_t) (rp : Bytes) (key_id : fido_blob_t)
    (ms : Int) (h : { d : Bytes // d.length = 32 })
    (hlen : key_id.len ≤ 255) (hsha : env.SHA256 rp = some h)
    (hiso : env.iso7816_ok (65 + key_id.len) = true) :
    ∃ rest, (key_lookup env dev (some rp) key_id ms).2.2.log = dev.log ++
        Event.tx (auth_apdu U2F_AUTH_CHECK (List.replicate 32 0xff) h.val key_id) :: rest ∧
      (rest = [] ∨ rest = [Event.rx 8 ms]) := by
  unfold key_lookup
  simp only
  rw [if_neg (by simp only [UINT8_MAX]; omega)]
  simp only [hsha]
  rw [iso7816_auth_chain env U2F_AUTH_CHECK _ h.val key_id (by simp [SHA256_DIGEST_LENGTH])
    h.property hlen hiso]
  simp only [SHA256_DIGEST_LENGTH]
  have hl1 := tx_log dev (auth_apdu U2F_AUTH_CHECK (List.replicate 32 0xff) h.val key_id)
  rcases htx : tx dev (auth_apdu U2F_AUTH_CHECK (List.replicate 32 0xff) h.val key_id)
    with ⟨b, dev1⟩
  rw [htx] at hl1
  simp only at hl1
  cases b
  · exact ⟨[], hl1, Or.inl rfl⟩
  · simp only
    have hl2 := rx_log dev1 8 ms
    rcases hrx : rx dev1 8 ms with ⟨_ | reply, dev2⟩
    · rw [hrx] at hl2
      simp only at hl2
      exact ⟨[Event.rx 8 ms], by simp [hl2, hl1], Or.inr rfl⟩
    · rw [hrx] at hl2
      simp only at hl2
      refine ⟨[Event.rx 8 ms], ?_, Or.inr rfl⟩
      have e : dev2.log = dev.log ++ [Event.tx
          (auth_apdu U2F_AUTH_CHECK (List.replicate 32 0xff) h.val key_id), Event.rx 8 ms] := by
        simp [hl2, hl1]
      simp only
      split_ifs <;> exact e


/-- Whatever `do_auth` returns after its argument checks, the hash and the
builder succeeded, its first call on the device was `tx` of the SIGN APDU, and
every later `tx` carried the same APDU. -/
theorem do_auth_tx_events (env : Env) (fuel : Nat) (dev dev' : fido_dev_t)
    (cdh key_id sig ad sig' ad' : fido_blob_t) (rp : Bytes) (ms : Int) (r : fido_err)
    (h : { d : Bytes // d.length = 32 })
    (hcl : cdh.len = 32) (hcwf : cdh.len ≤ (cdh.ptr.getD []).length)
    (hlen : key_id.len ≤ 255) (hsha : env.SHA256 rp = some h)
    (hiso : env.iso7816_ok (65 + key_id.len) = true)
    (hres : do_auth env fuel dev cdh (some rp) key_id sig ad ms = some (r, sig', ad', dev')) :
    ∃ rest, dev'.log = dev.log ++
        Event.tx (auth_apdu U2F_AUTH_SIGN cdh.bytes h.val key_id) :: rest ∧
      ∀ a, Event.tx a ∈ rest → a = auth_apdu U2F_AUTH_SIGN cdh.bytes h.val key_id := by
  unfold do_auth at hres
  simp only at hres
  rw [if_neg (by simp only [UINT8_MAX, SHA256_DIGEST_LENGTH]; omega)] at hres
  simp only [hsha] at hres
  rw [iso7816_auth_chain env U2F_AUTH_SIGN _ h.val key_id
    (by rw [blob_bytes_length cdh hcwf, hcl]) h.property hlen hiso] at hres
  simp only at hres
  rcases hp : poll (auth_apdu U2F_AUTH_SIGN cdh.bytes h.val key_id) 128 ms fuel dev
    with _ | ⟨e | reply, d⟩
  · rw [hp] at hres
    simp at hres
  · rw [hp] at hres
    simp only [Option.some.injEq, Prod.mk.injEq] at hres
    obtain ⟨-, -, -, rfl⟩ := hres
    exact poll_tx_events _ _ _ _ _ _ _ hp
  · rw [hp] at hres
    simp only [Option.some.injEq, Prod.mk.injEq] at hres
    obtain ⟨-, -, -, rfl⟩ := hres
    exact poll_tx_events _ _ _ _ _ _ _ hp

/-- Whatever `u2f_register` returns after its argument checks passed, the
exclude-list loop ran to its end, and the hash and the builder succeeded: its
first call on the device after the loop was `tx` of the REGISTER APDU, and
every later `tx` carried the same APDU. -/
theorem u2f_register_tx_events (env : Env) (fuel : Nat) (dev dev1 dev' : fido_dev_t)
    (cred cred' : fido_cred_t) (rp : Bytes) (ms : Int) (r : fido_err)
    (h : { d : Bytes // d.length = 32 })
    (hrk : cred.rk ≠ FIDO_OPT_TRUE) (huv : cred.uv ≠ FIDO_OPT_TRUE)
    (hrp : cred.rp_id = some rp) (htype : cred.type = COSE_ES256)
    (hptr : cred.cdh.ptr ≠ none) (hcl : cred.cdh.len = 32)
    (hcwf : cred.cdh.len ≤ (cred.cdh.ptr.getD []).length)
    (hsha : env.SHA256 rp = some h) (hiso : env.iso7816_ok 64 = true)
    (hexcl : u2f_register_excl env fuel cred.rp_id ms cred.excl.elems dev = some (none, dev1))
    (hres : u2f_register env fuel dev cred ms = some (r, cred', dev')) :
    ∃ rest, dev'.log = dev1.log ++
        Event.tx ⟨U2F_CMD_REGISTER, P1_NONE, 0, cred.cdh.bytes ++ h.val⟩ :: rest ∧
      ∀ a, Event.tx a ∈ rest → a = ⟨U2F_CMD_REGISTER, P1_NONE, 0, cred.cdh.bytes ++ h.val⟩ := by
  unfold u2f_register at hres
  rw [if_neg (by simp [hrk, huv])] at hres
  simp only [hexcl] at hres
  simp only [hrp] at hres
  rw [if_neg (by simp [htype, hptr, hcl, SHA256_DIGEST_LENGTH])] at hres
  simp only [hsha] at hres
  rw [iso7816_register_chain env cred.cdh.bytes h.val
    (by rw [blob_bytes_length cred.cdh hcwf, hcl]) h.property hiso] at hres
  simp only at hres
  rcases hp : poll ⟨U2F_CMD_REGISTER, P1_NONE, 0, cred.cdh.bytes ++ h.val⟩ 2048 ms fuel dev1
    with _ | ⟨e | reply, d⟩
  · rw [hp] at hres
    simp at hres
  · rw [hp] at hres
    simp only [Option.some.injEq, Prod.mk.injEq] at hres
    obtain ⟨-, -, rfl⟩ := hres
    exact poll_tx_events _ _ _ _ _ _ _ hp
  · rw [hp] at hres
    simp only [Option.some.injEq, Prod.mk.injEq] at hres
    obtain ⟨-, -, rfl⟩ := hres
    exact poll_tx_events _ _ _ _ _ _ _ hp



/-! ## Released buffers hold zeros -/

theorem explicit_bzero_all_zero (c : Bytes) (len : Nat) (h : c.length ≤ len) :
    all_zero (explicit_bzero c len) := by
  intro x hx
  unfold explicit_bzero at hx
  rw [List.drop_of_length_le h, List.append_nil] at hx
  exact List.eq_of_mem_replicate hx

theorem replicate_all_zero (n : Nat) : all_zero (List.replicate n (0 : UInt8)) := by
  intro x hx
  exact List.eq_of_mem_replicate hx

/-- The idiom `if (p) { explicit_bzero(p, len); free(p); }` releases zeros only,
when `len` covers the buffer. -/
theorem bzero_free_all_zero (b : fido_blob_t) (hfit : ∀ c, b.ptr = some c → c.length ≤ b.len) :
    ∀ c ∈ bzero_free b, all_zero c := by
  intro c hc
  unfold bzero_free at hc
  rcases hp : b.ptr with _ | p
  · rw [hp] at hc
    simp at hc
  · rw [hp] at hc
    simp only [free, List.mem_singleton] at hc
    rw [hc]
    exact explicit_bzero_all_zero p b.len (hfit p hp)

theorem zero_fits : ∀ c, fido_blob_t.zero.ptr = some c → c.length ≤ fido_blob_t.zero.len := by
  intro c hc
  simp [fido_blob_t.zero] at hc

theorem of_fits (b : Bytes) :
    ∀ c, (fido_blob_t.of b).ptr = some c → c.length ≤ (fido_blob_t.of b).len := by
  intro c hc
  simp only [fido_blob_t.of, Option.some.injEq] at hc
  rw [← hc]
  exact Nat.le_refl _

theorem sig_get_fits (env : Env) (buf : Bytes) :
    ∀ c, (sig_get env buf).2.1.ptr = some c → c.length ≤ (sig_get env buf).2.1.len := by
  intro c
  unfold sig_get
  simp only
  split_ifs with hca
  · intro hc
    simp at hc
  · rcases hr : buf_read buf buf.length with _ | ⟨s, rest⟩
    · intro hc
      simp at hc
    · intro hc
      simp only [Option.some.injEq] at hc
      obtain ⟨-, hl⟩ := buf_read_eq_some _ _ _ _ hr
      rw [← hc, hl]

theorem x5c_get_fits (env : Env) (buf rest : Bytes) (x5c : fido_blob_t)
    (h : x5c_get env buf = some (x5c, rest)) :
    ∀ c, x5c.ptr = some c → c.length ≤ x5c.len := by
  unfold x5c_get at h
  simp only at h
  split_ifs at h with h1
  rcases hd : env.d2i_X509 buf with _ | consumed
  · rw [hd] at h
    simp at h
  · rw [hd] at h
    simp only at h
    split_ifs at h with h2 h3 h4
    rcases hr : buf_read buf consumed.toNat with _ | ⟨s, r⟩
    · rw [hr] at h
      simp at h
    · rw [hr] at h
      simp only [Option.some.injEq, Prod.mk.injEq] at h
      obtain ⟨-, hl⟩ := buf_read_eq_some _ _ _ _ hr
      intro c hc
      rw [← h.1] at hc ⊢
      simp only [Option.some.injEq] at hc
      rw [← hc, hl]

theorem cbor_blob_from_ec_point_fits (env : Env) (ec_point : Bytes) :
    ∀ c, (cbor_blob_from_ec_point env ec_point fido_blob_t.zero).2.ptr = some c →
      c.length ≤ (cbor_blob_from_ec_point env ec_point fido_blob_t.zero).2.len := by
  unfold cbor_blob_from_ec_point
  split_ifs with h1
  · exact zero_fits
  · rcases hp : env.es256_pk_cbor ((ec_point.drop 1).take 32) ((ec_point.drop 33).take 32)
      with _ | s
    · exact zero_fits
    · simp only
      split_ifs with h2 h3
      · intro c hc
        simp at hc
      · intro c hc
        simp only [Option.some.injEq] at hc
        rw [← hc]
      · exact of_fits s

theorem encode_cred_authdata_fits (env : Env) (rp_id : Option Bytes) (kh : Bytes)
    (kh_len : UInt8) (pubkey : Bytes) :
    ∀ c, (encode_cred_authdata env rp_id kh kh_len pubkey).2.ptr = some c →
      c.length ≤ (encode_cred_authdata env rp_id kh kh_len pubkey).2.len := by
  have key : (encode_cred_authdata env rp_id kh kh_len pubkey).2 = fido_blob_t.zero ∨
      ∃ b, (encode_cred_authdata env rp_id kh kh_len pubkey).2 = fido_blob_t.of b := by
    unfold encode_cred_authdata
    simp only []
    repeat' split
    all_goals first
      | exact Or.inl rfl
      | exact Or.inr ⟨_, rfl⟩
  rcases key with hz | ⟨b, hb⟩
  · rw [hz]
    exact zero_fits
  · rw [hb]
    exact of_fits b

theorem buf_write_seq_inv (srcs : List Bytes) :
    ∀ w : Bytes × Nat, (buf_write_seq w srcs).2.1.length + (buf_write_seq w srcs).2.2 =
      w.1.length + w.2 := by
  induction srcs with
  | nil =>
    intro w
    rfl
  | cons s rest ih =>
    intro w
    unfold buf_write_seq
    rcases hw : buf_write w s with _ | w1
    · rfl
    · simp only
      rw [ih w1]
      unfold buf_write at hw
      split_ifs at hw with hlen
      simp only [Option.some.injEq] at hw
      rw [← hw]
      simp only [List.length_append]
      omega


theorem sig_get_released_zero (env : Env) (buf : Bytes) :
    ∀ c ∈ sig_get_released env buf, all_zero c := by
  intro c hc
  unfold sig_get_released at hc
  simp only at hc
  split_ifs at hc with hca
  · simp at hc
  · rcases hr : buf_read buf buf.length with _ | r
    · rw [hr] at hc
      simp only [free, List.mem_singleton] at hc
      rw [hc]
      exact explicit_bzero_all_zero _ _ (by simp)
    · rw [hr] at hc
      simp at hc

theorem x5c_get_released_zero (env : Env) (x5c : fido_blob_t) (buf : Bytes)
    (hnull : x5c.ptr = none) :
    ∀ c ∈ x5c_get_released env x5c buf, all_zero c := by
  intro c hc
  unfold x5c_get_released at hc
  simp only [hnull, free] at hc
  split_ifs at hc with h1
  · simp at hc
  · rcases hd : env.d2i_X509 buf with _ | consumed
    · rw [hd] at hc
      simp at hc
    · rw [hd] at hc
      simp only at hc
      split_ifs at hc with h2 h3 h4
      · simp at hc
      · simp at hc
      · simp at hc
      · rcases hr : buf_read buf consumed.toNat with _ | r
        · rw [hr] at hc
          simp only [List.mem_singleton] at hc
          rw [hc]
          exact replicate_all_zero _
        · rw [hr] at hc
          simp at hc

theorem encode_cred_authdata_fail_zero (pk_blob authdata_blob : fido_blob_t)
    (h1 : ∀ c, pk_blob.ptr = some c → c.length ≤ pk_blob.len)
    (h2 : ∀ c, authdata_blob.ptr = some c → c.length ≤ authdata_blob.len) :
    ∀ c ∈ encode_cred_authdata_fail pk_blob authdata_blob, all_zero c := by
  intro c hc
  unfold encode_cred_authdata_fail at hc
  rw [List.mem_append] at hc
  rcases hc with hc | hc
  · exact bzero_free_all_zero pk_blob h1 c hc
  · exact bzero_free_all_zero authdata_blob h2 c hc

theorem encode_cred_authdata_released_zero (env : Env) (rp_id : Option Bytes) (kh : Bytes)
    (kh_len : UInt8) (pubkey : Bytes) :
    ∀ c ∈ encode_cred_authdata_released env rp_id kh kh_len pubkey, all_zero c := by
  have hpk := cbor_blob_from_ec_point_fits env pubkey
  unfold encode_cred_authdata_released
  rcases rp_id with _ | rp
  · exact encode_cred_authdata_fail_zero _ _ zero_fits zero_fits
  simp only
  rcases hcb : cbor_blob_from_ec_point env pubkey fido_blob_t.zero with ⟨ok, pk_blob⟩
  rw [hcb] at hpk
  simp only at hpk
  cases ok
  · exact encode_cred_authdata_fail_zero _ _ hpk zero_fits
  simp only
  rcases hsha : env.SHA256 rp with _ | h
  · exact encode_cred_authdata_fail_zero _ _ hpk zero_fits
  simp only
  split_ifs with hca
  · exact encode_cred_authdata_fail_zero _ _ hpk (by intro c hc; simp at hc)
  · refine encode_cred_authdata_fail_zero _ _ hpk ?_
    intro c hc
    simp only [Option.some.injEq] at hc
    have hinv := buf_write_seq_inv
      [fido_authdata_bytes env.host h.val 0x41 0,
        fido_attcred_raw_bytes env.host (List.replicate 16 0) ((kh_len.toNat <<< 8) % 65536),
        kh.take kh_len.toNat, pk_blob.bytes] ([], 37 + 18 + kh_len.toNat + pk_blob.len)
    simp only [List.length_nil, Nat.zero_add] at hinv
    rw [← hc, List.length_append, List.length_replicate, hinv]

theorem parse_register_reply_fail_zero (kh : Option Bytes) (kh_len : UInt8)
    (x5c sig ad : fido_blob_t)
    (h0 : ∀ c, kh = some c → c.length ≤ kh_len.toNat)
    (h1 : ∀ c, x5c.ptr = some c → c.length ≤ x5c.len)
    (h2 : ∀ c, sig.ptr = some c → c.length ≤ sig.len)
    (h3 : ∀ c, ad.ptr = some c → c.length ≤ ad.len) :
    ∀ c ∈ parse_register_reply_fail kh kh_len x5c sig ad, all_zero c := by
  intro c hc
  unfold parse_register_reply_fail at hc
  simp only [List.mem_append] at hc
  rcases hc with ((hc | hc) | hc) | hc
  · exact bzero_free_all_zero ⟨kh, kh_len.toNat⟩ h0 c hc
  · exact bzero_free_all_zero x5c h1 c hc
  · exact bzero_free_all_zero sig h2 c hc
  · exact bzero_free_all_zero ad h3 c hc

theorem none_fits (n : Nat) : ∀ c : Bytes, (none : Option Bytes) = some c → c.length ≤ n := by
  intro c hc
  simp at hc

theorem parse_register_reply_released_zero (env : Env) (cred : fido_cred_t) (reply : Bytes) :
    ∀ c ∈ parse_register_reply_released env cred reply, all_zero c := by
  have hz := parse_register_reply_fail_zero none 0 fido_blob_t.zero fido_blob_t.zero
    fido_blob_t.zero (none_fits _) zero_fits zero_fits zero_fits
  unfold parse_register_reply_released
  simp only
  split_ifs with hsw
  · exact hz
  rcases hr1 : buf_read (reply.take (reply.length - 2)) 1 with _ | ⟨dummy, buf1⟩
  · exact hz
  simp only
  split_ifs with hd
  · exact hz
  rcases hr2 : buf_read buf1 65 with _ | ⟨pubkey, buf2⟩
  · exact hz
  simp only
  rcases hr3 : buf_read buf2 1 with _ | ⟨khb, buf3⟩
  · exact hz
  simp only
  split_ifs with hca
  · exact parse_register_reply_fail_zero none _ _ _ _ (none_fits _) zero_fits zero_fits zero_fits
  rcases hr4 : buf_read buf3 (khb.getD 0 0).toNat with _ | ⟨kh, buf4⟩
  · exact parse_register_reply_fail_zero _ _ _ _ _
      (by intro c hc; simp only [Option.some.injEq] at hc; rw [← hc]; simp)
      zero_fits zero_fits zero_fits
  simp only
  have hkh : ∀ c, some kh = some c → c.length ≤ (khb.getD 0 0).toNat := by
    intro c hc
    simp only [Option.some.injEq] at hc
    obtain ⟨-, hl⟩ := buf_read_eq_some _ _ _ _ hr4
    rw [← hc, hl]
  have hx5 := x5c_get_released_zero env fido_blob_t.zero buf4 rfl
  rcases hx : x5c_get env buf4 with _ | ⟨x5c, buf5⟩
  · simp only
    intro c hc
    rw [List.mem_append] at hc
    rcases hc with hc | hc
    · exact hx5 c hc
    · exact parse_register_reply_fail_zero _ _ _ _ _ hkh zero_fits zero_fits zero_fits c hc
  simp only
  have hxf := x5c_get_fits env buf4 buf5 x5c hx
  have hsf := sig_get_fits env buf5
  have hsr := sig_get_released_zero env buf5
  rcases hs : sig_get env buf5 with ⟨ok, sig, buf6⟩
  rw [hs] at hsf
  simp only at hsf
  cases ok
  · simp only
    intro c hc
    simp only [List.mem_append] at hc
    rcases hc with (hc | hc) | hc
    · exact hx5 c hc
    · exact hsr c hc
    · exact parse_register_reply_fail_zero _ _ _ _ _ hkh hxf hsf zero_fits c hc
  · simp only
    intro c hc
    simp only [List.mem_append] at hc
    rcases hc with ((hc | hc) | hc) | hc
    · exact hx5 c hc
    · exact hsr c hc
    · exact encode_cred_authdata_released_zero env _ _ _ _ c hc
    · exact parse_register_reply_fail_zero _ _ _ _ _ hkh hxf hsf
        (encode_cred_authdata_fits env _ _ _ _) c hc


theorem authdata_fake_fits (env : Env) (rp_id : Bytes) (flags : UInt8) (sigcount : Nat)
    (ad : fido_blob_t) (had : ∀ c, ad.ptr = some c → c.length ≤ ad.len) :
    ∀ c, (authdata_fake env rp_id flags sigcount ad).2.ptr = some c →
      c.length ≤ (authdata_fake env rp_id flags sigcount ad).2.len := by
  unfold authdata_fake
  rcases hsha : env.SHA256 rp_id with _ | h
  · exact had
  simp only
  split_ifs
  · exact had
  · exact had
  · intro c hc
    exact absurd hc (by simp)
  · exact of_fits _

theorem parse_auth_reply_fits (env : Env) (sig ad : fido_blob_t) (rp_id reply : Bytes)
    (hsig : ∀ c, sig.ptr = some c → c.length ≤ sig.len)
    (had : ∀ c, ad.ptr = some c → c.length ≤ ad.len) :
    (∀ c, (parse_auth_reply env sig ad rp_id reply).2.1.ptr = some c →
      c.length ≤ (parse_auth_reply env sig ad rp_id reply).2.1.len) ∧
    (∀ c, (parse_auth_reply env sig ad rp_id reply).2.2.ptr = some c →
      c.length ≤ (parse_auth_reply env sig ad rp_id reply).2.2.len) := by
  unfold parse_auth_reply
  simp only
  split_ifs with hsw
  · exact ⟨hsig, had⟩
  rcases hr1 : buf_read (reply.take (reply.length - 2)) 1 with _ | ⟨flags, buf1⟩
  · exact ⟨hsig, had⟩
  simp only
  rcases hr2 : buf_read buf1 4 with _ | ⟨sigcount, buf2⟩
  · exact ⟨hsig, had⟩
  simp only
  have hsf := sig_get_fits env buf2
  rcases hs : sig_get env buf2 with ⟨ok, sig1, buf3⟩
  rw [hs] at hsf
  simp only at hsf
  cases ok
  · exact ⟨hsf, had⟩
  · simp only
    have haf := authdata_fake_fits env rp_id (flags.getD 0 0) (load_u32 env.host sigcount) ad had
    rcases ha : authdata_fake env rp_id (flags.getD 0 0) (load_u32 env.host sigcount) ad
      with ⟨ok2, ad1⟩
    rw [ha] at haf
    simp only at haf
    cases ok2
    · exact ⟨hsf, haf⟩
    · exact ⟨hsf, haf⟩

theorem do_auth_fits (env : Env) (fuel : Nat) (dev dev' : fido_dev_t)
    (cdh key_id sig ad sig' ad' : fido_blob_t) (rp_id : Option Bytes) (ms : Int) (r : fido_err)
    (hsig : ∀ c, sig.ptr = some c → c.length ≤ sig.len)
    (had : ∀ c, ad.ptr = some c → c.length ≤ ad.len)
    (h : do_auth env fuel dev cdh rp_id key_id sig ad ms = some (r, sig', ad', dev')) :
    (∀ c, sig'.ptr = some c → c.length ≤ sig'.len) ∧
      (∀ c, ad'.ptr = some c → c.length ≤ ad'.len) := by
  rcases do_auth_parser_input env fuel dev dev' cdh key_id sig ad sig' ad' rp_id ms r h with
    ⟨-, rfl, rfl⟩ | ⟨rp, reply, -, -, -, hp⟩
  · exact ⟨hsig, had⟩
  · have hf := parse_auth_reply_fits env sig ad rp reply hsig had
    rw [hp] at hf
    exact hf

theorem parse_auth_reply_released_zero (env : Env) (reply : Bytes) :
    ∀ c ∈ parse_auth_reply_released env reply, all_zero c := by
  unfold parse_auth_reply_released
  simp only
  split_ifs with hsw
  · intro c hc
    simp at hc
  rcases hr1 : buf_read (reply.take (reply.length - 2)) 1 with _ | ⟨flags, buf1⟩
  · intro c hc
    simp at hc
  simp only
  rcases hr2 : buf_read buf1 4 with _ | ⟨sigcount, buf2⟩
  · intro c hc
    simp at hc
  exact sig_get_released_zero env buf2

theorem do_auth_released_zero (env : Env) (fuel : Nat) (dev : fido_dev_t)
    (cdh key_id : fido_blob_t) (rp_id : Option Bytes) (ms : Int) (released : List Bytes)
    (h : do_auth_released env fuel dev cdh rp_id key_id ms = some released) :
    ∀ c ∈ released, all_zero c := by
  have hnil : ∀ l : List Bytes, some ([] : List Bytes) = some l → ∀ c ∈ l, all_zero c := by
    intro l hl c hc
    simp only [Option.some.injEq] at hl
    rw [← hl] at hc
    simp at hc
  unfold do_auth_released at h
  rcases rp_id with _ | rp
  · exact hnil _ h
  simp only at h
  split_ifs at h with hchk
  · exact hnil _ h
  rcases hsha : env.SHA256 rp with _ | hh
  · rw [hsha] at h
    exact hnil _ h
  rw [hsha] at h
  simp only at h
  split at h
  · exact hnil _ h
  · rename_i apdu _
    rcases hp : poll apdu 128 ms fuel dev with _ | ⟨e | reply, d⟩
    · rw [hp] at h
      simp at h
    · rw [hp] at h
      exact hnil _ h
    · rw [hp] at h
      simp only [Option.some.injEq] at h
      rw [← h]
      exact parse_auth_reply_released_zero env reply

theorem u2f_authenticate_single_fail_zero (sig ad : fido_blob_t)
    (h1 : ∀ c, sig.ptr = some c → c.length ≤ sig.len)
    (h2 : ∀ c, ad.ptr = some c → c.length ≤ ad.len) :
    ∀ c ∈ u2f_authenticate_single_fail sig ad, all_zero c := by
  intro c hc
  unfold u2f_authenticate_single_fail at hc
  rw [List.mem_append] at hc
  rcases hc with hc | hc
  · exact bzero_free_all_zero sig h1 c hc
  · exact bzero_free_all_zero ad h2 c hc

theorem u2f_authenticate_single_released_zero (env : Env) (fuel : Nat) (dev : fido_dev_t)
    (key_id : fido_blob_t) (fa : fido_assert_t) (ms : Int) (released : List Bytes)
    (h : u2f_authenticate_single_released env fuel dev key_id fa ms = some released) :
    ∀ c ∈ released, all_zero c := by
  have hz := u2f_authenticate_single_fail_zero fido_blob_t.zero fido_blob_t.zero
    zero_fits zero_fits
  unfold u2f_authenticate_single_released at h
  simp only at h
  rcases hk : key_lookup env dev fa.rp_id key_id ms with ⟨r, found, dev1⟩
  rw [hk] at h
  by_cases hr : r = FIDO_OK
  · subst hr
    simp only at h
    split_ifs at h with h1 h2
    · simp only [Option.some.injEq] at h
      rw [← h]
      exact hz
    · simp only [Option.some.injEq] at h
      rw [← h]
      exact hz
    · rcases hd : do_auth env fuel dev1 fa.cdh fa.rp_id key_id fido_blob_t.zero
        fido_blob_t.zero ms with _ | ⟨r2, sig, ad, dev2⟩
      · rw [hd] at h
        simp at h
      · rcases hdr : do_auth_released env fuel dev1 fa.cdh fa.rp_id key_id ms with _ | rel
        · rw [hd, hdr] at h
          simp at h
        · rw [hd, hdr] at h
          simp only [Option.some.injEq] at h
          obtain ⟨hs, ha⟩ := do_auth_fits env fuel dev1 dev2 fa.cdh key_id _ _ sig ad fa.rp_id
            ms r2 zero_fits zero_fits hd
          rw [← h]
          intro c hc
          rw [List.mem_append] at hc
          rcases hc with hc | hc
          · exact do_auth_released_zero env fuel dev1 fa.cdh key_id fa.rp_id ms rel hdr c hc
          · exact u2f_authenticate_single_fail_zero sig ad hs ha c hc
  · have h' : some (u2f_authenticate_single_fail fido_blob_t.zero fido_blob_t.zero) =
        some released := by
      rw [← h]
      cases r <;> first | exact absurd rfl hr | rfl
    simp only [Option.some.injEq] at h'
    rw [← h']
    exact hz


/-- Whenever `do_auth` returns, the record of the buffers released inside it
exists. -/
theorem do_auth_released_some (env : Env) (fuel : Nat) (dev : fido_dev_t)
    (cdh key_id sig ad : fido_blob_t) (rp_id : Option Bytes) (ms : Int)
    (res : fido_err × fido_blob_t × fido_blob_t × fido_dev_t)
    (h : do_auth env fuel dev cdh rp_id key_id sig ad ms = some res) :
    ∃ released, do_auth_released env fuel dev cdh rp_id key_id ms = some released := by
  unfold do_auth at h
  unfold do_auth_released
  rcases rp_id with _ | rp
  · exact ⟨_, rfl⟩
  simp only at h ⊢
  split_ifs with hchk
  · exact ⟨_, rfl⟩
  rw [if_neg hchk] at h
  rcases hsha : env.SHA256 rp with _ | hh
  · exact ⟨_, rfl⟩
  rw [hsha] at h
  simp only at h ⊢
  rcases hch : ((((iso7816_new env U2F_CMD_AUTH U2F_AUTH_SIGN
      (2 * SHA256_DIGEST_LENGTH + 1 + (UInt8.ofNat key_id.len).toNat)).bind
      (fun a => iso7816_add a cdh.bytes)).bind
      (fun a => iso7816_add a hh.val)).bind
      (fun a => iso7816_add a [UInt8.ofNat key_id.len])).bind
      (fun a => iso7816_add a ((key_id.ptr.getD []).take (UInt8.ofNat key_id.len).toNat))
    with _ | apdu
  · exact ⟨_, rfl⟩
  rw [hch] at h
  simp only at h ⊢
  rcases hp : poll apdu 128 ms fuel dev with _ | ⟨e | reply, d⟩
  · rw [hp] at h
    simp at h
  · exact ⟨_, rfl⟩
  · exact ⟨_, rfl⟩

/-- Whenever `u2f_authenticate_single` returns, the record of the buffers
released inside it exists. -/
theorem u2f_authenticate_single_released_some (env : Env) (fuel : Nat) (dev : fido_dev_t)
    (key_id : fido_blob_t) (fa : fido_assert_t) (idx : Nat) (ms : Int)
    (res : fido_err × fido_assert_t × fido_dev_t)
    (h : u2f_authenticate_single env fuel dev key_id fa idx ms = some res) :
    ∃ released, u2f_authenticate_single_released env fuel dev key_id fa ms = some released := by
  unfold u2f_authenticate_single at h
  unfold u2f_authenticate_single_released
  simp only
  rcases hk : key_lookup env dev fa.rp_id key_id ms with ⟨r, found, dev1⟩
  rw [hk] at h
  by_cases hr : r = FIDO_OK
  · subst hr
    simp only at h ⊢
    split_ifs with h1 h2
    · exact ⟨_, rfl⟩
    · exact ⟨_, rfl⟩
    · rw [if_neg h1, if_neg h2] at h
      rcases hd : do_auth env fuel dev1 fa.cdh fa.rp_id key_id fido_blob_t.zero
        fido_blob_t.zero ms with _ | ⟨r2, sig, ad, dev2⟩
      · rw [hd] at h
        simp at h
      · obtain ⟨rel, hrel⟩ := do_auth_released_some env fuel dev1 fa.cdh key_id _ _ fa.rp_id ms
          _ hd
        rw [hrel]
        exact ⟨_, rfl⟩
  · cases r <;> first | exact absurd rfl hr | exact ⟨_, rfl⟩

/-- C19: every buffer that `sig_get`, `x5c_get` (called, as by its only caller,
with a zeroed blob), `encode_cred_authdata`, `parse_register_reply` and
`u2f_authenticate_single` hand to `free`, on every path through them and their
callees, holds only zeros at that moment: the signature, key handle,
certificate, COSE key and authdata buffers are wiped by `explicit_bzero` over
their whole length, and the one `free` without it (in `x5c_get`) is reached
only with a null pointer or with a buffer still as `calloc` returned it. For
`u2f_authenticate_single` this holds whenever the function returns. -/
theorem released_buffers_hold_zeros (env : Env) :
    (∀ buf, ∀ c ∈ sig_get_released env buf, all_zero c) ∧
    (∀ x5c buf, x5c.ptr = none → ∀ c ∈ x5c_get_released env x5c buf, all_zero c) ∧
    (∀ rp_id kh kh_len pubkey,
      ∀ c ∈ encode_cred_authdata_released env rp_id kh kh_len pubkey, all_zero c) ∧
    (∀ cred reply, ∀ c ∈ parse_register_reply_released env cred reply, all_zero c) ∧
    (∀ fuel dev key_id fa idx ms res,
      u2f_authenticate_single env fuel dev key_id fa idx ms = some res →
      ∃ released, u2f_authenticate_single_released env fuel dev key_id fa ms = some released ∧
        ∀ c ∈ released, all_zero c) := by
  refine ⟨sig_get_released_zero env, ?_, encode_cred_authdata_released_zero env,
    parse_register_reply_released_zero env, ?_⟩
  · intro x5c buf hnull
    exact x5c_get_released_zero env x5c buf hnull
  · intro fuel dev key_id fa idx ms res h
    obtain ⟨rel, hrel⟩ := u2f_authenticate_single_released_some env fuel dev key_id fa idx ms res h
    exact ⟨rel, hrel, u2f_authenticate_single_released_zero env fuel dev key_id fa ms rel hrel⟩

set_option maxRecDepth 100000 in
/-- The reply `sample_register_reply`: six buffers are released (COSE key,
authdata, key handle, certificate, signature, CBOR authdata), all wiped. -/
theorem released_buffers_hold_zeros_witness :
    (parse_register_reply_released (sample_env .little) sample_cred
        sample_register_reply).map List.length = [77, 134, 2, 3, 2, 136] ∧
      ∀ c ∈ parse_register_reply_released (sample_env .little) sample_cred sample_register_reply,
        all_zero c :=
  ⟨by decide,
    (released_buffers_hold_zeros (sample_env .little)).2.2.2.1 sample_cred sample_register_reply⟩


set_option maxRecDepth 100000 in
/-- A recognised key answered with `sample_auth_reply`: `u2f_authenticate_single`
releases the 2-byte signature and the 39-byte CBOR authdata, both wiped. -/
theorem u2f_authenticate_single_released_sample :
    u2f_authenticate_single_released (sample_env .little) 1
        (scripted_dev [[0x69, 0x85], sample_auth_reply]) sample_id_a
        { sample_assert with stmt := [fido_assert_stmt.empty] } 100 =
      some [List.replicate 2 0, List.replicate 39 0] := by
  decide


/-! ## The certificate and the EC point of a REGISTER reply -/

/-- Whatever `parse_register_reply` does with a reply, either it returns
`FIDO_ERR_RX` and leaves the credential alone, or the payload (the reply
without its status word) is `0x05 ‖ pubkey ‖ L ‖ kh ‖ rest` with a 65-byte
`pubkey` and `L` bytes `kh`, `x5c_get` succeeded on `rest`, and
`encode_cred_authdata` succeeded on `kh` and `pubkey`. -/
theorem parse_register_reply_rx_or_encoded (env : Env) (cred : fido_cred_t) (reply : Bytes) :
    parse_register_reply env cred reply = (FIDO_ERR_RX, cred) ∨
      ∃ (pubkey kh rest : Bytes) (L : UInt8) (x5c : fido_blob_t) (rest1 : Bytes)
        (ad : fido_blob_t),
        2 ≤ reply.length ∧
        reply.take (reply.length - 2) = 0x05 :: (pubkey ++ L :: (kh ++ rest)) ∧
        pubkey.length = 65 ∧ kh.length = L.toNat ∧
        x5c_get env rest = some (x5c, rest1) ∧
        encode_cred_authdata env cred.rp_id kh L pubkey = (true, ad) := by
  unfold parse_register_reply
  simp only
  by_cases hsw : reply.length < 2 ∨
      sw (reply.getD (reply.length - 2) 0) (reply.getD (reply.length - 1) 0) ≠ SW_NO_ERROR
  · rw [if_pos hsw]
    exact Or.inl rfl
  rw [if_neg hsw]
  rw [not_or, not_lt] at hsw
  rcases hr1 : buf_read (reply.take (reply.length - 2)) 1 with _ | ⟨dummy, buf1⟩
  · exact Or.inl rfl
  simp only
  by_cases hd : dummy.getD 0 0 ≠ 0x05
  · rw [if_pos hd]
    exact Or.inl rfl
  rw [if_neg hd]
  rw [not_not] at hd
  rcases hr2 : buf_read buf1 65 with _ | ⟨pubkey, buf2⟩
  · exact Or.inl rfl
  simp only
  rcases hr3 : buf_read buf2 1 with _ | ⟨khb, buf3⟩
  · exact Or.inl rfl
  simp only
  by_cases hca : env.calloc (khb.getD 0 0).toNat = false
  · rw [if_pos hca]
    exact Or.inl rfl
  rw [if_neg hca]
  rcases hr4 : buf_read buf3 (khb.getD 0 0).toNat with _ | ⟨kh, buf4⟩
  · exact Or.inl rfl
  simp only
  rcases hx : x5c_get env buf4 with _ | ⟨x5c, buf5⟩
  · exact Or.inl rfl
  simp only
  rcases hs : sig_get env buf5 with ⟨ok, sig, buf6⟩
  cases ok
  · exact Or.inl rfl
  simp only
  rcases he : encode_cred_authdata env cred.rp_id kh (khb.getD 0 0) pubkey with ⟨ok2, ad⟩
  cases ok2
  · exact Or.inl rfl
  right
  obtain ⟨e1, l1⟩ := buf_read_eq_some _ _ _ _ hr1
  obtain ⟨e2, l2⟩ := buf_read_eq_some _ _ _ _ hr2
  obtain ⟨e3, l3⟩ := buf_read_eq_some _ _ _ _ hr3
  obtain ⟨e4, l4⟩ := buf_read_eq_some _ _ _ _ hr4
  have hdummy := singleton_of_length_one dummy l1
  have hkhb := singleton_of_length_one khb l3
  refine ⟨pubkey, kh, buf4, khb.getD 0 0, x5c, buf5, ad, hsw.1, ?_, l2, l4, hx, he⟩
  rw [e1, e2, e3, e4, hdummy, hd]
  conv_lhs => rw [hkhb]
  rfl


/-- C21: `x5c_get` succeeds only if the certificate parser consumed a byte count
`c` with `0 < c < remaining`, and then `*x5c` holds exactly the first `c` unread
bytes and the cursor has advanced by `c`. Consequently a REGISTER reply
`0x05 ‖ P ‖ L ‖ KH ‖ X ‖ 0x90 0x00` on whose last part `X` the parser consumes
everything (no signature byte after the certificate) is rejected by
`parse_register_reply` with `FIDO_ERR_RX`, the credential unchanged; and every
successfully parsed REGISTER reply leaves a signature of at least one byte. -/
theorem x5c_get_leaves_signature_bytes (env : Env) :
    (∀ buf x5c rest, x5c_get env buf = some (x5c, rest) →
      ∃ c : Int, env.d2i_X509 buf = some c ∧ 0 < c ∧ c.toNat < buf.length ∧
        x5c.ptr = some (buf.take c.toNat) ∧ x5c.len = c.toNat ∧ rest = buf.drop c.toNat) ∧
    (∀ (cred : fido_cred_t) (P KH X : Bytes) (L : UInt8) (c : Int),
      P.length = 65 → KH.length = L.toNat → env.d2i_X509 X = some c → (X.length : Int) ≤ c →
      parse_register_reply env cred (0x05 :: (P ++ L :: (KH ++ (X ++ [0x90, 0x00])))) =
        (FIDO_ERR_RX, cred)) ∧
    (∀ cred cred' reply, parse_register_reply env cred reply = (FIDO_OK, cred') →
      ∃ s, cred'.sig = some s ∧ 1 ≤ s.length) := by
  refine ⟨?_, ?_, ?_⟩
  · intro buf x5c rest h
    obtain ⟨c, hc, hpos, hlt, -, rfl, rfl⟩ := x5c_get_eq_some env buf rest x5c h
    refine ⟨c, hc, hpos, hlt, rfl, ?_, rfl⟩
    simp only [fido_blob_t.of, List.length_take]
    omega
  · intro cred P KH X L c hP hKH hd hc
    rcases parse_register_reply_rx_or_encoded env cred
      (0x05 :: (P ++ L :: (KH ++ (X ++ [0x90, 0x00])))) with h | h
    · exact h
    · exfalso
      obtain ⟨pubkey, kh, rest, L1, x5c, rest1, ad, -, htake, hpl, hkl, hx, -⟩ := h
      have hsplit : (0x05 :: (P ++ L :: (KH ++ (X ++ [0x90, 0x00])))) =
          (0x05 :: (P ++ L :: (KH ++ X))) ++ [0x90, 0x00] := by simp
      have hlen : (0x05 :: (P ++ L :: (KH ++ (X ++ [0x90, 0x00])))).length - 2 =
          (0x05 :: (P ++ L :: (KH ++ X))).length := by
        simp only [List.length_cons, List.length_append, List.length_nil]
        omega
      rw [hlen, hsplit, List.take_left' rfl] at htake
      simp only [List.cons.injEq, true_and] at htake
      obtain ⟨h1, h2⟩ := List.append_inj htake (by rw [hP, hpl])
      simp only [List.cons.injEq] at h2
      obtain ⟨h3, h4⟩ := h2
      obtain ⟨-, h5⟩ := List.append_inj h4 (by rw [hKH, hkl, h3])
      obtain ⟨c1, hc1, -, hlt, -, -, -⟩ := x5c_get_eq_some env rest rest1 x5c hx
      rw [← h5, hd] at hc1
      simp only [Option.some.injEq] at hc1
      rw [← h5, ← hc1] at hlt
      omega
  · intro cred cred' reply h
    obtain ⟨P, KH, X, S, L, rp, hd, pk, -, -, -, -, -, hS, -, -, -, -, -, hcred⟩ :=
      parse_register_reply_inv env cred cred' reply h
    exact ⟨S, by rw [hcred], hS⟩

set_option maxRecDepth 100000 in
/-- The reply `sample_register_reply` without its two signature bytes: the
three-byte certificate `30 01 cc` extends to the end of the payload. -/
theorem x5c_get_leaves_signature_bytes_witness :
    parse_register_reply (sample_env .little) sample_cred
        (0x05 :: ((0x04 :: List.replicate 64 0xaa) ++ 0x02 :: ([0xb1, 0xb2] ++
          ([0x30, 0x01, 0xcc] ++ [0x90, 0x00])))) = (FIDO_ERR_RX, sample_cred) :=
  (x5c_get_leaves_signature_bytes (sample_env .little)).2.1 sample_cred
    (0x04 :: List.replicate 64 0xaa) [0xb1, 0xb2] [0x30, 0x01, 0xcc] 0x02 3
    (by decide) (by decide) (by decide) (by decide)

/-- C22: a REGISTER reply whose byte at offset 1, where the 65-byte public key
starts, is not `0x04` makes `parse_register_reply` return `FIDO_ERR_RX` with the
credential unchanged (no setter ran), whatever the rest of the reply; and
`cbor_blob_from_ec_point` fails, leaving the blob alone, for every EC point
whose length is not 65 or whose first byte is not `0x04`. -/
theorem parse_register_reply_rejects_point (env : Env) :
    (∀ (cred : fido_cred_t) (reply : Bytes), reply.getD 1 0 ≠ 0x04 →
      parse_register_reply env cred reply = (FIDO_ERR_RX, cred)) ∧
    (∀ (ec_point : Bytes) (b : fido_blob_t),
      (ec_point.length ≠ 65 ∨ ec_point.getD 0 0 ≠ 0x04) →
      cbor_blob_from_ec_point env ec_point b = (false, b)) := by
  constructor
  · intro cred reply hne
    rcases parse_register_reply_rx_or_encoded env cred reply with h | h
    · exact h
    · exfalso
      obtain ⟨pubkey, kh, rest, L, x5c, rest1, ad, hlen, htake, hpl, hkl, -, henc⟩ := h
      obtain ⟨-, -, -, -, -, -, hp0, -, -, -⟩ :=
        encode_cred_authdata_eq_true env cred.rp_id kh L pubkey ad hkl henc
      have hsplit := split_last_two reply hlen
      rw [htake] at hsplit
      apply hne
      rw [hsplit]
      match pubkey, hpl, hp0 with
      | p :: ps, _, hp0 => simpa using hp0
  · intro ec_point b h
    unfold cbor_blob_from_ec_point
    rw [if_pos h]

set_option maxRecDepth 100000 in
/-- The reply `sample_register_reply` with a compressed point (`0x02`). -/
theorem parse_register_reply_rejects_point_witness :
    parse_register_reply (sample_env .little) sample_cred
        (0x05 :: 0x02 :: sample_register_reply.drop 2) = (FIDO_ERR_RX, sample_cred) :=
  (parse_register_reply_rejects_point (sample_env .little)).1 sample_cred
    (0x05 :: 0x02 :: sample_register_reply.drop 2) (by decide)


/-! ## Allocation failure in `sig_get` -/

/-- When `calloc` returns a null pointer, `sig_get` returns `0`, leaving a null
pointer, the length of the unread bytes and the cursor where it was. -/
theorem sig_get_calloc_null (env : Env) (buf : Bytes) (h : env.calloc buf.length = false) :
    sig_get env buf = (true, ⟨none, buf.length⟩, buf) := by
  unfold sig_get
  simp only [h, if_true]

set_option maxRecDepth 100000 in
/-- C23 (the code at a failing input): when `calloc` fails, `sig_get` on the two
signature bytes `30 44` returns `0` with a null pointer and length 2, and
`parse_auth_reply` on `sample_auth_reply` returns `FIDO_OK` with that blob; when
only the allocation of the 4-byte signature fails, `parse_register_reply` goes
on past `sig_get`, sets the format, the authdata and the certificate, and
returns `FIDO_ERR_INTERNAL` (not `FIDO_ERR_RX`) once `fido_cred_set_sig` rejects
the null pointer. -/
theorem sig_get_calloc_failure_returns_zero :
    sig_get ({ sample_env .little with calloc := fun _ => false } : Env) [0x30, 0x44] =
        (true, ⟨none, 2⟩, [0x30, 0x44]) ∧
      parse_auth_reply ({ sample_env .little with calloc := fun _ => false } : Env)
          fido_blob_t.zero fido_blob_t.zero [0x61] sample_auth_reply =
        (FIDO_OK, ⟨none, 2⟩,
          fido_blob_t.of (0x58 :: 0x25 ::
            (List.replicate 32 0x01 ++ [0x01, 0x00, 0x00, 0x00, 0x2a]))) ∧
      (parse_register_reply
          ({ sample_env .little with calloc := fun n => decide (n ≠ 4) } : Env) sample_cred
          ([0x05] ++ (0x04 :: List.replicate 64 0xaa) ++ [0x02] ++ [0xb1, 0xb2] ++
            [0x30, 0x01, 0xcc] ++ [0xd1, 0xd2, 0xd3, 0xd4] ++ [0x90, 0x00])).1 =
        FIDO_ERR_INTERNAL ∧
      (parse_register_reply
          ({ sample_env .little with calloc := fun n => decide (n ≠ 4) } : Env) sample_cred
          ([0x05] ++ (0x04 :: List.replicate 64 0xaa) ++ [0x02] ++ [0xb1, 0xb2] ++
            [0x30, 0x01, 0xcc] ++ [0xd1, 0xd2, 0xd3, 0xd4] ++ [0x90, 0x00])).2.x5c =
        some [0x30, 0x01, 0xcc] ∧
      (parse_register_reply
          ({ sample_env .little with calloc := fun n => decide (n ≠ 4) } : Env) sample_cred
          ([0x05] ++ (0x04 :: List.replicate 64 0xaa) ++ [0x02] ++ [0xb1, 0xb2] ++
            [0x30, 0x01, 0xcc] ++ [0xd1, 0xd2, 0xd3, 0xd4] ++ [0x90, 0x00])).2.sig = none := by
  decide


/-! ## The key-handle length byte -/

theorem iso7816_chain_none (env : Env) (ins : u2f_ins) (p1 : u2f_p1) (cap : Nat)
    (b1 b2 b3 b4 : Bytes) (h : env.iso7816_ok cap = false) :
    ((((iso7816_new env ins p1 cap).bind (fun a => iso7816_add a b1)).bind
      (fun a => iso7816_add a b2)).bind (fun a => iso7816_add a b3)).bind
      (fun a => iso7816_add a b4) = none := by
  simp [iso7816_new, h]

/-- Whatever `key_lookup` does, for a key id whose pointer addresses its `len`
bytes: every APDU it hands to `tx` is the CHECK-ONLY APDU of a key id of at
most 255 bytes. -/
theorem key_lookup_tx_apdu (env : Env) (dev : fido_dev_t) (rp_id : Option Bytes)
    (key_id : fido_blob_t) (ms : Int) :
    ∃ events, (key_lookup env dev rp_id key_id ms).2.2.log = dev.log ++ events ∧
      ∀ a, Event.tx a ∈ events → key_id.len ≤ 255 ∧
        ∃ h : Bytes, h.length = 32 ∧
          a = auth_apdu U2F_AUTH_CHECK (List.replicate 32 0xff) h key_id := by
  have hnil : ∀ r : fido_err, key_lookup env dev rp_id key_id ms = (r, none, dev) →
      ∃ events, (key_lookup env dev rp_id key_id ms).2.2.log = dev.log ++ events ∧
        ∀ a, Event.tx a ∈ events → key_id.len ≤ 255 ∧
          ∃ h : Bytes, h.length = 32 ∧
            a = auth_apdu U2F_AUTH_CHECK (List.replicate 32 0xff) h key_id := by
    intro r hr
    refine ⟨[], by rw [hr, List.append_nil], ?_⟩
    intro a ha
    simp at ha
  rcases rp_id with _ | rp
  · exact hnil _ rfl
  by_cases hlen : key_id.len > UINT8_MAX
  · exact hnil FIDO_ERR_INVALID_ARGUMENT (by unfold key_lookup; simp only [if_pos hlen])
  have hlen' : key_id.len ≤ 255 := by
    simp only [UINT8_MAX] at hlen
    omega
  rcases hsha : env.SHA256 rp with _ | h
  · exact hnil FIDO_ERR_INTERNAL (by unfold key_lookup; simp only [if_neg hlen, hsha])
  by_cases hiso : env.iso7816_ok (2 * SHA256_DIGEST_LENGTH + 1 +
      (UInt8.ofNat key_id.len).toNat) = true
  · have hiso' : env.iso7816_ok (65 + key_id.len) = true := by
      rw [toNat_ofNat, Nat.mod_eq_of_lt (by omega)] at hiso
      simpa [SHA256_DIGEST_LENGTH] using hiso
    obtain ⟨rest, hlog, hrest⟩ := key_lookup_log env dev rp key_id ms h hlen' hsha hiso'
    refine ⟨_, hlog, ?_⟩
    intro a ha
    refine ⟨hlen', h.val, h.property, ?_⟩
    rcases hrest with rfl | rfl
    · simpa using ha
    · simpa using ha
  · rw [Bool.not_eq_true] at hiso
    exact hnil FIDO_ERR_INTERNAL (by
      unfold key_lookup
      simp only [if_neg hlen, hsha]
      rw [iso7816_chain_none env _ _ _ _ _ _ _ hiso])

/-- Whatever `do_auth` returns, for blobs whose pointers address their `len`
bytes: every APDU it has handed to `tx` is the SIGN APDU of a key id of at most
255 bytes. -/
theorem do_auth_tx_apdu (env : Env) (fuel : Nat) (dev dev' : fido_dev_t)
    (cdh key_id sig ad sig' ad' : fido_blob_t) (rp_id : Option Bytes) (ms : Int) (r : fido_err)
    (hcwf : cdh.len ≤ (cdh.ptr.getD []).length)
    (hres : do_auth env fuel dev cdh rp_id key_id sig ad ms = some (r, sig', ad', dev')) :
    ∃ events, dev'.log = dev.log ++ events ∧
      ∀ a, Event.tx a ∈ events → key_id.len ≤ 255 ∧ cdh.len = 32 ∧
        ∃ h : Bytes, h.length = 32 ∧ a = auth_apdu U2F_AUTH_SIGN cdh.bytes h key_id := by
  have hnil : dev' = dev →
      ∃ events, dev'.log = dev.log ++ events ∧
        ∀ a, Event.tx a ∈ events → key_id.len ≤ 255 ∧ cdh.len = 32 ∧
          ∃ h : Bytes, h.length = 32 ∧ a = auth_apdu U2F_AUTH_SIGN cdh.bytes h key_id := by
    intro hd
    refine ⟨[], by rw [hd, List.append_nil], ?_⟩
    intro a ha
    simp at ha
  rcases rp_id with _ | rp
  · unfold do_auth at hres
    simp only [Option.some.injEq, Prod.mk.injEq] at hres
    exact hnil hres.2.2.2.symm
  by_cases hchk : cdh.len ≠ SHA256_DIGEST_LENGTH ∨ key_id.len > UINT8_MAX
  · unfold do_auth at hres
    simp only [if_pos hchk, Option.some.injEq, Prod.mk.injEq] at hres
    exact hnil hres.2.2.2.symm
  have hchk' := hchk
  rw [not_or, not_not] at hchk'
  have hcl : cdh.len = 32 := hchk'.1
  have hlen' : key_id.len ≤ 255 := by
    have := hchk'.2
    simp only [UINT8_MAX] at this
    omega
  rcases hsha : env.SHA256 rp with _ | h
  · unfold do_auth at hres
    simp only [if_neg hchk, hsha, Option.some.injEq, Prod.mk.injEq] at hres
    exact hnil hres.2.2.2.symm
  by_cases hiso : env.iso7816_ok (2 * SHA256_DIGEST_LENGTH + 1 +
      (UInt8.ofNat key_id.len).toNat) = true
  · have hiso' : env.iso7816_ok (65 + key_id.len) = true := by
      rw [toNat_ofNat, Nat.mod_eq_of_lt (by omega)] at hiso
      simpa [SHA256_DIGEST_LENGTH] using hiso
    obtain ⟨rest, hlog, hall⟩ := do_auth_tx_events env fuel dev dev' cdh key_id sig ad sig' ad'
      rp ms r h hcl hcwf hlen' hsha hiso' hres
    refine ⟨_, hlog, ?_⟩
    intro a ha
    refine ⟨hlen', hcl, h.val, h.property, ?_⟩
    rw [List.mem_cons] at ha
    rcases ha with ha | ha
    · simpa using ha
    · exact hall a ha
  · rw [Bool.not_eq_true] at hiso
    unfold do_auth at hres
    simp only [if_neg hchk, hsha] at hres
    rw [iso7816_chain_none env _ _ _ _ _ _ _ hiso] at hres
    simp only [Option.some.injEq, Prod.mk.injEq] at hres
    exact hnil hres.2.2.2.symm


/-- The fields of an AUTHENTICATE APDU for a key id of at most 255 bytes whose
pointer addresses its `len` bytes: byte 64 of the payload is the length, the
bytes from offset 65 on are the whole key id. -/
theorem auth_apdu_fields (p1 : u2f_p1) (challenge rp_id_hash : Bytes) (key_id : fido_blob_t)
    (hc : challenge.length = 32) (hh : rp_id_hash.length = 32) (hlen : key_id.len ≤ 255)
    (hwf : key_id.len ≤ (key_id.ptr.getD []).length) :
    (auth_apdu p1 challenge rp_id_hash key_id).ins = U2F_CMD_AUTH ∧
    (auth_apdu p1 challenge rp_id_hash key_id).p1 = p1 ∧
    (auth_apdu p1 challenge rp_id_hash key_id).payload.length = 65 + key_id.len ∧
    (auth_apdu p1 challenge rp_id_hash key_id).payload.getD 64 0 = UInt8.ofNat key_id.len ∧
    (UInt8.ofNat key_id.len).toNat = key_id.len ∧
    (auth_apdu p1 challenge rp_id_hash key_id).payload.drop 65 = key_id.bytes ∧
    key_id.bytes.length = key_id.len := by
  have hk := blob_bytes_length key_id hwf
  have h64 : (challenge ++ rp_id_hash).length = 64 := by
    rw [List.length_append, hc, hh]
  have h65 : (challenge ++ rp_id_hash ++ [UInt8.ofNat key_id.len]).length = 65 := by
    rw [List.length_append, h64]
    rfl
  rw [auth_apdu_eq p1 challenge rp_id_hash key_id hwf]
  refine ⟨rfl, rfl, ?_, ?_, ?_, ?_, hk⟩
  · show (challenge ++ rp_id_hash ++ [UInt8.ofNat key_id.len] ++ key_id.bytes).length = _
    rw [List.length_append, h65, hk]
  · show (challenge ++ rp_id_hash ++ [UInt8.ofNat key_id.len] ++ key_id.bytes).getD 64 0 = _
    rw [List.append_assoc (challenge ++ rp_id_hash),
      List.getD_append_right _ _ _ _ (by rw [h64]), h64]
    rfl
  · rw [toNat_ofNat]
    omega
  · show (challenge ++ rp_id_hash ++ [UInt8.ofNat key_id.len] ++ key_id.bytes).drop 65 = _
    exact List.drop_left' h65

/-- C24: for a key id longer than 255 bytes `key_lookup` and `do_auth` return
`FIDO_ERR_INVALID_ARGUMENT` with the device untouched (nothing is sent),
whatever the other arguments. Hence, for blobs whose pointers address their
`len` bytes, every AUTHENTICATE APDU that `key_lookup` or `do_auth` hands to
`tx` belongs to a key id of `L ≤ 255` bytes: byte 64 of its payload is `L`
(the cast to `uint8_t` does not truncate), followed by all `L` bytes of the
key id. -/
theorem key_id_length_byte (env : Env) (fuel : Nat) (dev : fido_dev_t) (ms : Int)
    (rp_id : Option Bytes) (cdh key_id sig ad : fido_blob_t) :
    (255 < key_id.len →
      key_lookup env dev rp_id key_id ms = (FIDO_ERR_INVALID_ARGUMENT, none, dev) ∧
      do_auth env fuel dev cdh rp_id key_id sig ad ms =
        some (FIDO_ERR_INVALID_ARGUMENT, sig, ad, dev)) ∧
    (key_id.len ≤ (key_id.ptr.getD []).length → cdh.len ≤ (cdh.ptr.getD []).length →
      (∃ events, (key_lookup env dev rp_id key_id ms).2.2.log = dev.log ++ events ∧
        ∀ a, Event.tx a ∈ events →
          a.ins = U2F_CMD_AUTH ∧ a.p1 = U2F_AUTH_CHECK ∧ key_id.len ≤ 255 ∧
          a.payload.length = 65 + key_id.len ∧
          a.payload.getD 64 0 = UInt8.ofNat key_id.len ∧
          (UInt8.ofNat key_id.len).toNat = key_id.len ∧
          a.payload.drop 65 = key_id.bytes ∧ key_id.bytes.length = key_id.len) ∧
      (∀ r sig' ad' dev',
        do_auth env fuel dev cdh rp_id key_id sig ad ms = some (r, sig', ad', dev') →
        ∃ events, dev'.log = dev.log ++ events ∧
          ∀ a, Event.tx a ∈ events →
            a.ins = U2F_CMD_AUTH ∧ a.p1 = U2F_AUTH_SIGN ∧ key_id.len ≤ 255 ∧
            a.payload.length = 65 + key_id.len ∧
            a.payload.getD 64 0 = UInt8.ofNat key_id.len ∧
            (UInt8.ofNat key_id.len).toNat = key_id.len ∧
            a.payload.drop 65 = key_id.bytes ∧ key_id.bytes.length = key_id.len)) := by
  constructor
  · intro hlen
    have hgt : key_id.len > UINT8_MAX := by
      simp only [UINT8_MAX]
      omega
    constructor
    · unfold key_lookup
      rcases rp_id with _ | rp
      · rfl
      · simp only [if_pos hgt]
    · unfold do_auth
      rcases rp_id with _ | rp
      · rfl
      · simp only [if_pos (Or.inr hgt : cdh.len ≠ SHA256_DIGEST_LENGTH ∨ key_id.len > UINT8_MAX)]
  · intro hkwf hcwf
    constructor
    · obtain ⟨events, hlog, hall⟩ := key_lookup_tx_apdu env dev rp_id key_id ms
      refine ⟨events, hlog, ?_⟩
      intro a ha
      obtain ⟨hlen, h, hh, rfl⟩ := hall a ha
      obtain ⟨f1, f2, f3, f4, f5, f6, f7⟩ := auth_apdu_fields U2F_AUTH_CHECK
        (List.replicate 32 0xff) h key_id (by simp) hh hlen hkwf
      exact ⟨f1, f2, hlen, f3, f4, f5, f6, f7⟩
    · intro r sig' ad' dev' hres
      obtain ⟨events, hlog, hall⟩ := do_auth_tx_apdu env fuel dev dev' cdh key_id sig ad sig' ad'
        rp_id ms r hcwf hres
      refine ⟨events, hlog, ?_⟩
      intro a ha
      obtain ⟨hlen, hcl, h, hh, rfl⟩ := hall a ha
      obtain ⟨f1, f2, f3, f4, f5, f6, f7⟩ := auth_apdu_fields U2F_AUTH_SIGN
        cdh.bytes h key_id (by rw [blob_bytes_length cdh hcwf, hcl]) hh hlen hkwf
      exact ⟨f1, f2, hlen, f3, f4, f5, f6, f7⟩

/-- A key id of 256 bytes: both functions refuse it and the device log stays
empty. -/
theorem key_id_length_byte_witness :
    key_lookup (sample_env .little) (scripted_dev [[0x69, 0x85]]) (some [0x61])
        ⟨some (List.replicate 256 0xa1), 256⟩ 100 =
      (FIDO_ERR_INVALID_ARGUMENT, none, scripted_dev [[0x69, 0x85]]) ∧
    do_auth (sample_env .little) 1 (scripted_dev [[0x69, 0x85]]) sample_cred.cdh (some [0x61])
        ⟨some (List.replicate 256 0xa1), 256⟩ fido_blob_t.zero fido_blob_t.zero 100 =
      some (FIDO_ERR_INVALID_ARGUMENT, fido_blob_t.zero, fido_blob_t.zero,
        scripted_dev [[0x69, 0x85]]) :=
  (key_id_length_byte (sample_env .little) 1 (scripted_dev [[0x69, 0x85]]) 100 (some [0x61])
    sample_cred.cdh ⟨some (List.replicate 256 0xa1), 256⟩ fido_blob_t.zero fido_blob_t.zero).1
    (by decide)


/-! ## Statement slots in the allow-list loop -/

theorem fido_assert_set_id_stmt (env : Env) (fa fa1 : fido_assert_t) (idx : Nat)
    (b : fido_blob_t) (h : fido_assert_set_id env fa idx b = some fa1) :
    idx < fa.stmt.length ∧
      fa1.stmt = fa.stmt.set idx
        ({ fa.stmt.getD idx fido_assert_stmt.empty with id := some b.bytes }) := by
  unfold fido_assert_set_id at h
  split_ifs at h with hc
  simp only [Option.some.injEq] at h
  rw [← h]
  exact ⟨hc.1, rfl⟩

theorem fido_assert_set_authdata_stmt (env : Env) (fa fa1 : fido_assert_t) (idx : Nat)
    (b : fido_blob_t) (h : fido_assert_set_authdata env fa idx b = some fa1) :
    idx < fa.stmt.length ∧
      fa1.stmt = fa.stmt.set idx
        ({ fa.stmt.getD idx fido_assert_stmt.empty with authdata_cbor := some b.bytes }) := by
  unfold fido_assert_set_authdata at h
  split_ifs at h with hc
  simp only [Option.some.injEq] at h
  rw [← h]
  exact ⟨hc.1, rfl⟩

theorem fido_assert_set_sig_stmt (env : Env) (fa fa1 : fido_assert_t) (idx : Nat)
    (b : fido_blob_t) (h : fido_assert_set_sig env fa idx b = some fa1) :
    idx < fa.stmt.length ∧
      fa1.stmt = fa.stmt.set idx
        ({ fa.stmt.getD idx fido_assert_stmt.empty with sig := some b.bytes }) := by
  unfold fido_assert_set_sig at h
  split_ifs at h with hc
  simp only [Option.some.injEq] at h
  rw [← h]
  exact ⟨hc.1, rfl⟩

theorem getD_set_self (l : List fido_assert_stmt) (idx : Nat) (x d : fido_assert_stmt)
    (h : idx < l.length) : (l.set idx x).getD idx d = x := by
  rw [List.getD_eq_getElem _ _ (by rw [List.length_set]; exact h)]
  simp

/-- Whatever `u2f_authenticate_single` returns, the statement vector keeps its
length; and when it returns `FIDO_OK`, the slot index it was given lies inside
the vector and that slot, and no other, has been written, with the key id. -/
theorem u2f_authenticate_single_slot (env : Env) (fuel : Nat) (dev dev2 : fido_dev_t)
    (key_id : fido_blob_t) (fa fa2 : fido_assert_t) (idx : Nat) (ms : Int) (r : fido_err)
    (h : u2f_authenticate_single env fuel dev key_id fa idx ms = some (r, fa2, dev2)) :
    fa2.stmt.length = fa.stmt.length ∧
      (r = FIDO_OK → idx < fa.stmt.length ∧
        ∃ st, fa2.stmt = fa.stmt.set idx st ∧ st.id = some key_id.bytes) := by
  have hsame : ∀ (r1 : fido_err) (d : fido_dev_t), r1 ≠ FIDO_OK →
      some (r1, fa, d) = some (r, fa2, dev2) →
      fa2.stmt.length = fa.stmt.length ∧
        (r = FIDO_OK → idx < fa.stmt.length ∧
          ∃ st, fa2.stmt = fa.stmt.set idx st ∧ st.id = some key_id.bytes) := by
    intro r1 d hr1 he
    simp only [Option.some.injEq, Prod.mk.injEq] at he
    obtain ⟨rfl, rfl, -⟩ := he
    exact ⟨rfl, fun hh => absurd hh hr1⟩
  unfold u2f_authenticate_single at h
  rcases hk : key_lookup env dev fa.rp_id key_id ms with ⟨r0, found, dev1⟩
  rw [hk] at h
  by_cases hr0 : r0 = FIDO_OK
  · subst hr0
    simp only at h
    split_ifs at h with h1 h2
    · exact hsame _ _ (by decide) h
    · exact hsame _ _ (by decide) h
    · rcases hd : do_auth env fuel dev1 fa.cdh fa.rp_id key_id fido_blob_t.zero
        fido_blob_t.zero ms with _ | ⟨r1, sig, ad, dev3⟩
      · rw [hd] at h
        simp at h
      · rw [hd] at h
        by_cases hr1 : r1 = FIDO_OK
        · subst hr1
          simp only at h
          rcases h3 : fido_assert_set_id env fa idx key_id with _ | fa1
          · rw [h3] at h
            exact hsame _ _ (by decide) h
          · rw [h3] at h
            simp only at h
            obtain ⟨hi1, hs1⟩ := fido_assert_set_id_stmt env fa fa1 idx key_id h3
            have hl1 : fa1.stmt.length = fa.stmt.length := by
              rw [hs1, List.length_set]
            rcases h4 : fido_assert_set_authdata env fa1 idx ad with _ | fa2'
            · rw [h4] at h
              simp only [Option.some.injEq, Prod.mk.injEq] at h
              obtain ⟨rfl, rfl, -⟩ := h
              exact ⟨hl1, fun hh => absurd hh (by decide)⟩
            · rw [h4] at h
              simp only at h
              obtain ⟨hi2, hs2⟩ := fido_assert_set_authdata_stmt env fa1 fa2' idx ad h4
              have hl2 : fa2'.stmt.length = fa.stmt.length := by
                rw [hs2, List.length_set, hl1]
              rcases h5 : fido_assert_set_sig env fa2' idx sig with _ | fa3
              · rw [h5] at h
                simp only [Option.some.injEq, Prod.mk.injEq] at h
                obtain ⟨rfl, rfl, -⟩ := h
                exact ⟨hl2, fun hh => absurd hh (by decide)⟩
              · rw [h5] at h
                simp only [Option.some.injEq, Prod.mk.injEq] at h
                obtain ⟨-, rfl, -⟩ := h
                obtain ⟨hi3, hs3⟩ := fido_assert_set_sig_stmt env fa2' fa3 idx sig h5
                have e : ∀ x, fa2'.stmt.set idx x = fa.stmt.set idx x := by
                  intro x
                  rw [hs2, hs1, List.set_set, List.set_set]
                refine ⟨by rw [hs3, List.length_set, hl2], fun _ => ⟨hi1,
                  ({ fa2'.stmt.getD idx fido_assert_stmt.empty with sig := some sig.bytes }),
                  ?_, ?_⟩⟩
                · rw [hs3]
                  exact e _
                · show (fa2'.stmt.getD idx fido_assert_stmt.empty).id = some key_id.bytes
                  rw [hs2, getD_set_self _ _ _ _ hi2]
                  show (fa1.stmt.getD idx fido_assert_stmt.empty).id = some key_id.bytes
                  rw [hs1, getD_set_self _ _ _ _ hi1]
        · cases r1 <;> first
            | exact absurd rfl hr1
            | exact hsame _ _ (by decide) h
  · cases r0 <;> first
      | exact absurd rfl hr0
      | exact hsame _ _ (by decide) h


/-- Whatever the allow-list loop returns from the count `n` on: the count has
grown by at most the number of entries, the statement vector has kept its
length, and a value returned from inside the loop is not `FIDO_OK`. -/
theorem u2f_authenticate_loop_bounds (env : Env) (fuel : Nat) (ms : Int) :
    ∀ (l : List fido_blob_t) (n : Nat) (fa : fido_assert_t) (dev : fido_dev_t)
      (res : Option fido_err) (n1 : Nat) (fa1 : fido_assert_t) (dev1 : fido_dev_t),
      u2f_authenticate_loop env fuel ms l n fa dev = some (res, n1, fa1, dev1) →
      n ≤ n1 ∧ n1 ≤ n + l.length ∧ fa1.stmt.length = fa.stmt.length ∧
        ∀ r, res = some r → r ≠ FIDO_OK := by
  intro l
  induction l with
  | nil =>
    intro n fa dev res n1 fa1 dev1 h
    simp only [u2f_authenticate_loop, Option.some.injEq, Prod.mk.injEq] at h
    obtain ⟨rfl, rfl, rfl, -⟩ := h
    exact ⟨Nat.le_refl _, Nat.le_refl _, rfl, fun r hr => absurd hr (by simp)⟩
  | cons k rest ih =>
    intro n fa dev res n1 fa1 dev1 h
    rw [u2f_authenticate_loop] at h
    rcases hs : u2f_authenticate_single env fuel dev k fa n ms with _ | ⟨r, fa2, dev2⟩
    · rw [hs] at h
      simp at h
    · rw [hs] at h
      simp only at h
      have hl := (u2f_authenticate_single_slot env fuel dev dev2 k fa fa2 n ms r hs).1
      by_cases h1 : r = FIDO_OK
      · rw [if_pos h1] at h
        obtain ⟨b1, b2, b3, b4⟩ := ih _ _ _ _ _ _ _ h
        refine ⟨by omega, ?_, by rw [b3, hl], b4⟩
        simp only [List.length_cons]
        omega
      · rw [if_neg h1] at h
        by_cases h2 : r ≠ FIDO_ERR_CREDENTIAL_EXCLUDED
        · rw [if_pos h2] at h
          simp only [Option.some.injEq, Prod.mk.injEq] at h
          obtain ⟨rfl, rfl, rfl, -⟩ := h
          refine ⟨Nat.le_refl _, by omega, hl, ?_⟩
          intro r' hr'
          simp only [Option.some.injEq] at hr'
          rw [← hr']
          exact h1
        · rw [if_neg h2] at h
          obtain ⟨b1, b2, b3, b4⟩ := ih _ _ _ _ _ _ _ h
          refine ⟨b1, ?_, by rw [b3, hl], b4⟩
          simp only [List.length_cons]
          omega

/-- C25: in `u2f_authenticate` on the allow list `l`, after
`fido_assert_set_count` has sized the statement vector to `l.length` slots:
whenever the loop reaches iteration `i` (the entries `pre` before it were
processed without a return, leaving the count `nauth_ok`), `nauth_ok ≤ i`, the
slot index `nauth_ok` handed to `u2f_authenticate_single` is smaller than
`l.length` and lies inside the vector, which still has `l.length` slots; a
`FIDO_OK` result writes exactly that slot, with the key id of entry `i`, and
the next iteration gets `nauth_ok + 1`, so the slots fill up from 0 without
gaps; and when `u2f_authenticate` returns `FIDO_OK`, the statement count is
at most `l.length`. -/
theorem u2f_authenticate_slot_invariant (env : Env) (fuel : Nat) (dev : fido_dev_t)
    (fa : fido_assert_t) (ms : Int) (l : List fido_blob_t)
    (huv : fa.uv ≠ FIDO_OPT_TRUE) (hallow : fa.allow_list.ptr = some l)
    (hcount : env.set_count l.length = FIDO_OK) :
    (fido_assert_set_count env fa l.length).2.stmt.length = l.length ∧
    (∀ (pre : List fido_blob_t) (k : fido_blob_t) (post : List fido_blob_t) (nauth_ok : Nat)
        (fa1 : fido_assert_t) (dev1 : fido_dev_t),
      l = pre ++ k :: post →
      u2f_authenticate_loop env fuel ms pre 0 (fido_assert_set_count env fa l.length).2 dev =
        some (none, nauth_ok, fa1, dev1) →
      nauth_ok ≤ pre.length ∧ nauth_ok < l.length ∧ nauth_ok < fa1.stmt.length ∧
      fa1.stmt.length = l.length ∧
      u2f_authenticate_loop env fuel ms (pre ++ k :: post) 0
          (fido_assert_set_count env fa l.length).2 dev =
        (match u2f_authenticate_single env fuel dev1 k fa1 nauth_ok ms with
        | none => none
        | some (r, fa2, dev2) =>
          if r = FIDO_OK then u2f_authenticate_loop env fuel ms post (nauth_ok + 1) fa2 dev2
          else if r ≠ FIDO_ERR_CREDENTIAL_EXCLUDED then some (some r, nauth_ok, fa2, dev2)
          else u2f_authenticate_loop env fuel ms post nauth_ok fa2 dev2) ∧
      (∀ fa2 dev2,
        u2f_authenticate_single env fuel dev1 k fa1 nauth_ok ms = some (FIDO_OK, fa2, dev2) →
        ∃ st, fa2.stmt = fa1.stmt.set nauth_ok st ∧ st.id = some k.bytes)) ∧
    (∀ fa' dev', u2f_authenticate env fuel dev fa ms = some (FIDO_OK, fa', dev') →
      fa'.stmt_len ≤ l.length ∧ fa'.stmt.length = l.length) := by
  have hlen : fa.allow_list.len = l.length := by
    simp [fido_blob_array_t.len, hallow]
  have helems : fa.allow_list.elems = l := by
    simp [fido_blob_array_t.elems, hallow]
  have hset : fido_assert_set_count env fa l.length =
      (FIDO_OK, (fido_assert_set_count env fa l.length).2) := by
    simp only [fido_assert_set_count, hcount, if_true]
  have hsized : (fido_assert_set_count env fa l.length).2.stmt.length = l.length := by
    simp only [fido_assert_set_count, hcount, if_true, List.length_take, List.length_append,
      List.length_replicate]
    omega
  have hal : (fido_assert_set_count env fa l.length).2.allow_list = fa.allow_list := by
    simp only [fido_assert_set_count, hcount, if_true]
  refine ⟨hsized, ?_, ?_⟩
  · intro pre k post nauth_ok fa1 dev1 hl hpre
    obtain ⟨-, b2, b3, -⟩ := u2f_authenticate_loop_bounds env fuel ms pre 0 _ dev none nauth_ok
      fa1 dev1 hpre
    have hll : l.length = pre.length + (post.length + 1) := by
      rw [hl]
      simp
    refine ⟨by omega, by omega, by rw [b3, hsized]; omega, by rw [b3, hsized], ?_, ?_⟩
    · rw [u2f_authenticate_loop_append env fuel ms (k :: post) pre, hpre]
      simp only [u2f_authenticate_loop]
    · intro fa2 dev2 hs
      exact ((u2f_authenticate_single_slot env fuel dev1 dev2 k fa1 fa2 nauth_ok ms FIDO_OK
        hs).2 rfl).2
  · intro fa' dev' h
    unfold u2f_authenticate at h
    rw [if_neg (by simp [huv, hallow]), hlen, hset] at h
    simp only [hal, helems] at h
    rcases hloop : u2f_authenticate_loop env fuel ms l 0
      (fido_assert_set_count env fa l.length).2 dev with _ | ⟨res, n1, fa1, dev1⟩
    · rw [hloop] at h
      simp at h
    · rw [hloop] at h
      obtain ⟨-, b2, b3, b4⟩ := u2f_authenticate_loop_bounds env fuel ms l 0 _ dev res n1 fa1
        dev1 hloop
      rcases res with _ | r
      · simp only [Option.some.injEq, Prod.mk.injEq] at h
        obtain ⟨-, rfl, -⟩ := h
        exact ⟨by simpa using b2, by rw [← hsized, ← b3]⟩
      · simp only [Option.some.injEq, Prod.mk.injEq] at h
        exact absurd h.1 (b4 r rfl)


set_option maxRecDepth 100000 in
/-- Allow list `[A, B, C]` on a device that recognises `A` and signs at once:
iteration 1 starts with `nauth_ok = 1`, slot 0 written and two slots free. -/
theorem u2f_authenticate_slot_invariant_witness :
    1 ≤ [sample_id_a].length ∧ 1 < [sample_id_a, sample_id_b, sample_id_c].length :=
  (fun x => ⟨x.1, x.2.1⟩)
    (((u2f_authenticate_slot_invariant (sample_env .little) 1
      (scripted_dev [[0x69, 0x85], sample_auth_reply, [0x6a, 0x80]]) sample_assert 100
      [sample_id_a, sample_id_b, sample_id_c] (by decide) rfl rfl).2.1)
      [sample_id_a] sample_id_b [sample_id_c] 1
      ⟨some [0x61], fido_blob_t.of (List.replicate 32 0x11),
        ⟨some [sample_id_a, sample_id_b, sample_id_c]⟩, FIDO_OPT_TRUE, FIDO_OPT_OMIT,
        [⟨some [0xa1, 0xa2, 0xa3],
          some (0x58 :: 0x25 :: (List.replicate 32 0x01 ++ [0x01, 0x00, 0x00, 0x00, 0x2a])),
          some [0x30, 0x44]⟩, fido_assert_stmt.empty, fido_assert_stmt.empty], 0⟩
      ⟨[], true, [some [0x6a, 0x80]], none,
        answer_log (List.replicate 32 0x11) (List.replicate 32 0x01) 100 sample_id_a
          (.present [] sample_auth_reply)⟩
      rfl (by decide))


/-! ## The APDUs of `do_auth` and `u2f_register` on a scripted device -/

/-- The exclude-list loop on a device that answers the CHECK-ONLY APDU of every
id with `6a 80`: it runs to its end after one lookup per id. -/
theorem u2f_register_excl_miss (env : Env) (fuel : Nat) (rp : Bytes) (ms : Int)
    (h : { d : Bytes // d.length = 32 }) (rest : List (Option Bytes))
    (hsha : env.SHA256 rp = some h) :
    ∀ (ids : List fido_blob_t) (dev : fido_dev_t),
      (∀ k ∈ ids, k.len ≤ 255 ∧ env.iso7816_ok (65 + k.len) = true) →
      (∀ j, j < ids.length → tx_outcome dev j = true) →
      dev.rx_script = List.replicate ids.length (some [0x6a, 0x80]) ++ rest →
      u2f_register_excl env fuel (some rp) ms ids dev =
        some (none, dev_after dev ids.length rest (lookup_log h.val ms ids)) := by
  intro ids
  induction ids with
  | nil =>
    intro dev _ _ hrx
    simp only [List.length_nil, List.replicate_zero, List.nil_append] at hrx
    rw [u2f_register_excl, ← hrx]
    simp only [lookup_log, List.flatMap_nil, List.length_nil, dev_after_zero]
  | cons k ids ih =>
    intro dev hk htx hrx
    have hk0 := hk k (by simp)
    rw [u2f_register_excl,
      key_lookup_not_found env dev rp k ms h _ hk0.1 hsha hk0.2 (htx 0 (by simp))
        (by simpa [List.replicate_succ] using hrx)]
    simp only [Option.some.injEq, Bool.false_eq_true, if_false]
    rw [ih _ (fun x hx => hk x (by simp [hx]))
      (by
        intro j hj
        rw [tx_outcome_dev_after]
        exact htx (1 + j) (by simp at hj ⊢; omega))
      rfl]
    simp only [dev_after_dev_after, List.length_cons, lookup_log, List.flatMap_cons,
      List.cons_append, List.nil_append, List.append_assoc]
    congr 3
    omega

/-- The call `do_auth` on a device that answers the SIGN APDU with the replies
`retries`, all starting with `69 85`, and then with a reply of at least two
bytes that does not: with fuel for these passes it returns what
`parse_auth_reply` makes of that reply, after `retries.length + 1` round trips
that all carry the SIGN APDU. -/
theorem do_auth_sends (env : Env) (fuel : Nat) (dev : fido_dev_t) (cdh key_id sig ad : fido_blob_t)
    (rp : Bytes) (ms : Int) (h : { d : Bytes // d.length = 32 })
    (retries : List Bytes) (reply : Bytes) (rest : List (Option Bytes))
    (hcl : cdh.len = 32) (hcwf : cdh.len ≤ (cdh.ptr.getD []).length)
    (hlen : key_id.len ≤ 255) (hsha : env.SHA256 rp = some h)
    (hiso : env.iso7816_ok (65 + key_id.len) = true)
    (hfuel : retries.length + 1 ≤ fuel)
    (htx : ∀ i, i < retries.length + 1 → tx_outcome dev i = true)
    (hall : ∀ r ∈ retries, starts_with_6985 r)
    (hrx : dev.rx_script = retries.map some ++ some reply :: rest)
    (hrl : 2 ≤ reply.length) (hne : ¬ (reply.getD 0 0 = 0x69 ∧ reply.getD 1 0 = 0x85)) :
    do_auth env fuel dev cdh (some rp) key_id sig ad ms =
      some ((parse_auth_reply env sig ad rp reply).1, (parse_auth_reply env sig ad rp reply).2.1,
        (parse_auth_reply env sig ad rp reply).2.2,
        dev_after dev (retries.length + 1) rest
          (round_trips (auth_apdu U2F_AUTH_SIGN cdh.bytes h.val key_id) 128 ms
            (retries.length + 1))) := by
  unfold do_auth
  simp only
  rw [if_neg (by simp only [UINT8_MAX, SHA256_DIGEST_LENGTH]; omega)]
  simp only [hsha]
  rw [iso7816_auth_chain env U2F_AUTH_SIGN _ h.val key_id
    (by rw [blob_bytes_length cdh hcwf, hcl]) h.property hlen hiso]
  simp only
  rw [poll_retries _ 128 ms retries fuel dev reply rest hfuel htx hall hrx hrl hne]
  rfl

/-- The call `u2f_register` on a device that answers the CHECK-ONLY APDU of every
exclude-list id with `6a 80` and then the REGISTER APDU with the replies
`retries`, all starting with `69 85`, and with a reply of at least two bytes
that does not: with fuel for these passes it returns what
`parse_register_reply` makes of that reply, after one lookup per excluded id
and `retries.length + 1` round trips that all carry the REGISTER APDU. -/
theorem u2f_register_sends (env : Env) (fuel : Nat) (dev : fido_dev_t) (cred : fido_cred_t)
    (rp : Bytes) (ms : Int) (h : { d : Bytes // d.length = 32 })
    (retries : List Bytes) (reply : Bytes) (rest : List (Option Bytes))
    (hrk : cred.rk ≠ FIDO_OPT_TRUE) (huv : cred.uv ≠ FIDO_OPT_TRUE)
    (hrp : cred.rp_id = some rp) (htype : cred.type = COSE_ES256)
    (hptr : cred.cdh.ptr ≠ none) (hcl : cred.cdh.len = 32)
    (hcwf : cred.cdh.len ≤ (cred.cdh.ptr.getD []).length)
    (hsha : env.SHA256 rp = some h) (hiso : env.iso7816_ok 64 = true)
    (hk : ∀ k ∈ cred.excl.elems, k.len ≤ 255 ∧ env.iso7816_ok (65 + k.len) = true)
    (hfuel : retries.length + 1 ≤ fuel)
    (htx : ∀ i, i < cred.excl.elems.length + (retries.length + 1) → tx_outcome dev i = true)
    (hall : ∀ r ∈ retries, starts_with_6985 r)
    (hrx : dev.rx_script = List.replicate cred.excl.elems.length (some [0x6a, 0x80]) ++
      (retries.map some ++ some reply :: rest))
    (hrl : 2 ≤ reply.length) (hne : ¬ (reply.getD 0 0 = 0x69 ∧ reply.getD 1 0 = 0x85)) :
    u2f_register env fuel dev cred ms =
      some ((parse_register_reply env cred reply).1, (parse_register_reply env cred reply).2,
        dev_after dev (cred.excl.elems.length + (retries.length + 1)) rest
          (lookup_log h.val ms cred.excl.elems ++
            round_trips ⟨U2F_CMD_REGISTER, P1_NONE, 0, cred.cdh.bytes ++ h.val⟩ 2048 ms
              (retries.length + 1))) := by
  unfold u2f_register
  rw [if_neg (by simp [hrk, huv])]
  simp only [hrp]
  rw [if_neg (by simp [htype, hptr, hcl, SHA256_DIGEST_LENGTH])]
  rw [u2f_register_excl_miss env fuel rp ms h _ hsha cred.excl.elems dev hk
    (fun j hj => htx j (by omega)) hrx]
  simp only [hsha]
  rw [iso7816_register_chain env cred.cdh.bytes h.val
    (by rw [blob_bytes_length cred.cdh hcwf, hcl]) h.property hiso]
  simp only
  rw [poll_retries _ 2048 ms retries fuel _ reply rest hfuel
    (by
      intro i hi
      rw [tx_outcome_dev_after]
      exact htx _ (by omega))
    hall rfl hrl hne]
  simp only [dev_after, List.drop_drop, List.append_assoc]


/-- C20: for a 32-byte client-data-hash and a key id of `L ≤ 255` bytes (blobs
whose pointers address their `len` bytes), when the hash and the allocation of
the APDU succeed, the APDUs handed to `tx` are: by `u2f_register` INS REGISTER
with the 64-byte payload `cdh ‖ SHA256(rp_id)`; by `key_lookup` INS
AUTHENTICATE, P1 CHECK-ONLY with the payload
`32 × 0xff ‖ SHA256(rp_id) ‖ [L] ‖ key id`; by `do_auth` INS AUTHENTICATE, P1
SIGN with the payload `cdh ‖ SHA256(rp_id) ‖ [L] ‖ key id`; the last two
payloads have `65 + L` bytes, and in each the capacity left over is 0 (no call
of the builder fails). `key_lookup` sends its APDU on every device. On a
device that answers the poll loop with `k` replies starting with `69 85` and
then with another reply, `u2f_register` (after one lookup per excluded id,
none recognised) and `do_auth` return, with fuel for `k + 1` passes, after
`k + 1` round trips that all carry their APDU; and however else their loops
end, every `tx` they made carried it. -/
theorem apdu_payloads_fill_capacity (env : Env) (fuel : Nat) (ms : Int) (rp : Bytes)
    (h : { d : Bytes // d.length = 32 }) (cdh key_id : fido_blob_t)
    (hsha : env.SHA256 rp = some h)
    (hcl : cdh.len = 32) (hcwf : cdh.len ≤ (cdh.ptr.getD []).length)
    (hlen : key_id.len ≤ 255) (hkwf : key_id.len ≤ (key_id.ptr.getD []).length)
    (hiso : env.iso7816_ok (65 + key_id.len) = true)
    (hiso64 : env.iso7816_ok 64 = true) :
    (cdh.bytes ++ h.val).length = 64 ∧
    (List.replicate 32 (0xff : UInt8) ++ h.val ++ [UInt8.ofNat key_id.len] ++
      key_id.bytes).length = 65 + key_id.len ∧
    (cdh.bytes ++ h.val ++ [UInt8.ofNat key_id.len] ++ key_id.bytes).length = 65 + key_id.len ∧
    (UInt8.ofNat key_id.len).toNat = key_id.len ∧
    (∀ (dev : fido_dev_t) (cred : fido_cred_t) (retries : List Bytes) (reply : Bytes)
        (rest : List (Option Bytes)),
      cred.rk ≠ FIDO_OPT_TRUE → cred.uv ≠ FIDO_OPT_TRUE → cred.rp_id = some rp →
      cred.type = COSE_ES256 → cred.cdh = cdh → cdh.ptr ≠ none →
      (∀ k ∈ cred.excl.elems, k.len ≤ 255 ∧ env.iso7816_ok (65 + k.len) = true) →
      retries.length + 1 ≤ fuel →
      (∀ i, i < cred.excl.elems.length + (retries.length + 1) → tx_outcome dev i = true) →
      (∀ r ∈ retries, starts_with_6985 r) →
      dev.rx_script = List.replicate cred.excl.elems.length (some [0x6a, 0x80]) ++
        (retries.map some ++ some reply :: rest) →
      2 ≤ reply.length → ¬ (reply.getD 0 0 = 0x69 ∧ reply.getD 1 0 = 0x85) →
      u2f_register env fuel dev cred ms =
        some ((parse_register_reply env cred reply).1, (parse_register_reply env cred reply).2,
          dev_after dev (cred.excl.elems.length + (retries.length + 1)) rest
            (lookup_log h.val ms cred.excl.elems ++
              round_trips ⟨U2F_CMD_REGISTER, P1_NONE, 0, cdh.bytes ++ h.val⟩ 2048 ms
                (retries.length + 1))) ∧
      count_tx (round_trips ⟨U2F_CMD_REGISTER, P1_NONE, 0, cdh.bytes ++ h.val⟩ 2048 ms
        (retries.length + 1)) = retries.length + 1) ∧
    (∀ dev : fido_dev_t,
      ∃ rest, (key_lookup env dev (some rp) key_id ms).2.2.log = dev.log ++
          Event.tx ⟨U2F_CMD_AUTH, U2F_AUTH_CHECK, 0,
            List.replicate 32 0xff ++ h.val ++ [UInt8.ofNat key_id.len] ++ key_id.bytes⟩ :: rest ∧
        (rest = [] ∨ rest = [Event.rx 8 ms])) ∧
    (∀ (dev : fido_dev_t) (sig ad : fido_blob_t) (retries : List Bytes) (reply : Bytes)
        (rest : List (Option Bytes)),
      retries.length + 1 ≤ fuel →
      (∀ i, i < retries.length + 1 → tx_outcome dev i = true) →
      (∀ r ∈ retries, starts_with_6985 r) →
      dev.rx_script = retries.map some ++ some reply :: rest →
      2 ≤ reply.length → ¬ (reply.getD 0 0 = 0x69 ∧ reply.getD 1 0 = 0x85) →
      do_auth env fuel dev cdh (some rp) key_id sig ad ms =
        some ((parse_auth_reply env sig ad rp reply).1,
          (parse_auth_reply env sig ad rp reply).2.1, (parse_auth_reply env sig ad rp reply).2.2,
          dev_after dev (retries.length + 1) rest
            (round_trips ⟨U2F_CMD_AUTH, U2F_AUTH_SIGN, 0,
              cdh.bytes ++ h.val ++ [UInt8.ofNat key_id.len] ++ key_id.bytes⟩ 128 ms
              (retries.length + 1))) ∧
      count_tx (round_trips ⟨U2F_CMD_AUTH, U2F_AUTH_SIGN, 0,
        cdh.bytes ++ h.val ++ [UInt8.ofNat key_id.len] ++ key_id.bytes⟩ 128 ms
        (retries.length + 1)) = retries.length + 1) ∧
    (∀ (dev dev1 dev' : fido_dev_t) (cred cred' : fido_cred_t) (r : fido_err),
      cred.rk ≠ FIDO_OPT_TRUE → cred.uv ≠ FIDO_OPT_TRUE → cred.rp_id = some rp →
      cred.type = COSE_ES256 → cred.cdh = cdh → cdh.ptr ≠ none →
      u2f_register_excl env fuel cred.rp_id ms cred.excl.elems dev = some (none, dev1) →
      u2f_register env fuel dev cred ms = some (r, cred', dev') →
      ∃ rest, dev'.log = dev1.log ++
          Event.tx ⟨U2F_CMD_REGISTER, P1_NONE, 0, cdh.bytes ++ h.val⟩ :: rest ∧
        ∀ a, Event.tx a ∈ rest → a = ⟨U2F_CMD_REGISTER, P1_NONE, 0, cdh.bytes ++ h.val⟩) ∧
    (∀ (dev dev' : fido_dev_t) (sig ad sig' ad' : fido_blob_t) (r : fido_err),
      do_auth env fuel dev cdh (some rp) key_id sig ad ms = some (r, sig', ad', dev') →
      ∃ rest, dev'.log = dev.log ++
          Event.tx ⟨U2F_CMD_AUTH, U2F_AUTH_SIGN, 0,
            cdh.bytes ++ h.val ++ [UInt8.ofNat key_id.len] ++ key_id.bytes⟩ :: rest ∧
        ∀ a, Event.tx a ∈ rest → a = ⟨U2F_CMD_AUTH, U2F_AUTH_SIGN, 0,
            cdh.bytes ++ h.val ++ [UInt8.ofNat key_id.len] ++ key_id.bytes⟩) := by
  have hc := blob_bytes_length cdh hcwf
  have hk := blob_bytes_length key_id hkwf
  have hh := h.property
  refine ⟨?_, ?_, ?_, ?_, ?_, ?_, ?_, ?_, ?_⟩
  · rw [List.length_append, hc, hh, hcl]
  · simp only [List.length_append, List.length_replicate, List.length_singleton, hh, hk]
  · simp only [List.length_append, List.length_singleton, hh, hk, hc, hcl]
  · rw [toNat_ofNat]
    omega
  · intro dev cred retries reply rest hrk huv hrp htype hcdh hptr hkx hfuel htx hall hrx hrl hne
    subst hcdh
    exact ⟨u2f_register_sends env fuel dev cred rp ms h retries reply rest hrk huv hrp htype hptr
      hcl hcwf hsha hiso64 hkx hfuel htx hall hrx hrl hne, (count_round_trips _ _ _ _).1⟩
  · intro dev
    rw [← auth_apdu_eq U2F_AUTH_CHECK _ h.val key_id hkwf]
    exact key_lookup_log env dev rp key_id ms h hlen hsha hiso
  · intro dev sig ad retries reply rest hfuel htx hall hrx hrl hne
    rw [← auth_apdu_eq U2F_AUTH_SIGN _ h.val key_id hkwf]
    exact ⟨do_auth_sends env fuel dev cdh key_id sig ad rp ms h retries reply rest hcl hcwf hlen
      hsha hiso hfuel htx hall hrx hrl hne, (count_round_trips _ _ _ _).1⟩
  · intro dev dev1 dev' cred cred' r hrk huv hrp htype hcdh hptr hexcl hres
    subst hcdh
    exact u2f_register_tx_events env fuel dev dev1 dev' cred cred' rp ms r h hrk huv hrp htype
      hptr hcl hcwf hsha hiso64 hexcl hres
  · intro dev dev' sig ad sig' ad' r hres
    rw [← auth_apdu_eq U2F_AUTH_SIGN _ h.val key_id hkwf]
    exact do_auth_tx_events env fuel dev dev' cdh key_id sig ad sig' ad' rp ms r h hcl hcwf hlen
      hsha hiso hres

set_option maxRecDepth 100000 in
/-- The request `sample_cred` on a device that answers the REGISTER APDU at once
with `sample_register_reply`, and the SIGN request for `sample_id_a` on a
device that answers `69 85` once and then `sample_auth_reply`: one and two
round trips with the 64-byte and the 68-byte payload. -/
theorem apdu_payloads_fill_capacity_witness :
    (u2f_register (sample_env .little) 2 (scripted_dev [sample_register_reply]) sample_cred 100 =
      some ((parse_register_reply (sample_env .little) sample_cred sample_register_reply).1,
        (parse_register_reply (sample_env .little) sample_cred sample_register_reply).2,
        dev_after (scripted_dev [sample_register_reply])
          (sample_cred.excl.elems.length + (([] : List Bytes).length + 1)) []
          (lookup_log (List.replicate 32 0x01) 100 sample_cred.excl.elems ++
            round_trips ⟨U2F_CMD_REGISTER, P1_NONE, 0,
              sample_cred.cdh.bytes ++ List.replicate 32 0x01⟩ 2048 100
              (([] : List Bytes).length + 1))) ∧
      count_tx (round_trips ⟨U2F_CMD_REGISTER, P1_NONE, 0,
        sample_cred.cdh.bytes ++ List.replicate 32 0x01⟩ 2048 100
        (([] : List Bytes).length + 1)) = ([] : List Bytes).length + 1) ∧
    (do_auth (sample_env .little) 2 (scripted_dev [[0x69, 0x85], sample_auth_reply])
        sample_cred.cdh (some [0x61]) sample_id_a fido_blob_t.zero fido_blob_t.zero 100 =
      some ((parse_auth_reply (sample_env .little) fido_blob_t.zero fido_blob_t.zero [0x61]
          sample_auth_reply).1,
        (parse_auth_reply (sample_env .little) fido_blob_t.zero fido_blob_t.zero [0x61]
          sample_auth_reply).2.1,
        (parse_auth_reply (sample_env .little) fido_blob_t.zero fido_blob_t.zero [0x61]
          sample_auth_reply).2.2,
        dev_after (scripted_dev [[0x69, 0x85], sample_auth_reply])
          ([([0x69, 0x85] : Bytes)].length + 1) []
          (round_trips ⟨U2F_CMD_AUTH, U2F_AUTH_SIGN, 0,
            sample_cred.cdh.bytes ++ List.replicate 32 0x01 ++ [UInt8.ofNat sample_id_a.len] ++
              sample_id_a.bytes⟩ 128 100 ([([0x69, 0x85] : Bytes)].length + 1))) ∧
      count_tx (round_trips ⟨U2F_CMD_AUTH, U2F_AUTH_SIGN, 0,
        sample_cred.cdh.bytes ++ List.replicate 32 0x01 ++ [UInt8.ofNat sample_id_a.len] ++
          sample_id_a.bytes⟩ 128 100 ([([0x69, 0x85] : Bytes)].length + 1)) =
        [([0x69, 0x85] : Bytes)].length + 1) :=
  (fun x =>
    ⟨x.2.2.2.2.1 (scripted_dev [sample_register_reply]) sample_cred [] sample_register_reply []
        (by decide) (by decide) rfl rfl rfl (by decide) (by decide) (by decide) (by decide)
        (by decide) rfl (by decide) (by decide),
      x.2.2.2.2.2.2.1 (scripted_dev [[0x69, 0x85], sample_auth_reply]) fido_blob_t.zero
        fido_blob_t.zero [[0x69, 0x85]] sample_auth_reply []
        (by decide) (by decide) (by decide) rfl (by decide) (by decide)⟩)
    (apdu_payloads_fill_capacity (sample_env .little) 2 100 [0x61]
      ⟨List.replicate 32 0x01, rfl⟩ sample_cred.cdh sample_id_a rfl rfl (by decide) (by decide)
      (by decide) rfl rfl)

end U2F
